import Mathlib

/-! PhantasyEngine: the dynamic GPU allocator (`DynamicGpuAllocator.cpp`)

A shallow embedding of `src/engine/src/ph/renderer/DynamicGpuAllocator.cpp`.

Conventions of the embedding.

* `uint32_t` values are natural numbers; every addition and subtraction of the
  source that can leave the 32-bit range is wrapped explicitly with `wrap32`.
* `sfz::DynArray<T>` is a `List T`: `add` appends, `insert(pos, v)` places `v` at
  index `pos` and moves the later elements one step back, `remove(pos)` erases
  the element at index `pos`.
* An index variable initialised to `~0u` ("nothing found") is an `Option Nat`.
* `sfz_assert_debug` is compiled out in release builds; the functions below
  follow the release control flow (the code that runs after every debug
  assertion), and the asserted conditions are stated as separate predicates.
* The external ZeroG capability (heap, buffer and texture creation) is passed in
  as the outcome of each call: `none` for a failed call, `some p` for a
  successful call returning the opaque pointer `p`.
-/

namespace ph

/-! ## Constants -/

def BUFFER_ALIGNMENT : Nat := 65536
def TEXTURE_ALIGNMENT : Nat := 65536
def PAGE_SIZE_DEVICE : Nat := 64 * 1024 * 1024
def PAGE_SIZE_UPLOAD : Nat := 32 * 1024 * 1024
def PAGE_SIZE_TEXTURE : Nat := 64 * 1024 * 1024
def MAX_NUM_PAGES : Nat := 256
def MAX_NUM_BLOCKS_PER_PAGE : Nat := PAGE_SIZE_DEVICE / BUFFER_ALIGNMENT

/-- Reduction of a natural number to the range of `uint32_t`. -/
def wrap32 (n : Nat) : Nat := n % 4294967296

/-! ## Private datatypes -/

/-- The struct `Block`: a byte range of a page. -/
structure Block where
  offset : Nat
  size : Nat
deriving DecidableEq, Repr

/-- The default member initialisers of `Block`: `offset = ~0u`, `size = 0`. -/
instance : Inhabited Block := ⟨{ offset := 4294967295, size := 0 }⟩

/-- The structs `MemoryPage` and `TexturePage`, which have the same fields; the
heap is represented by its identity (the pointer `heap.memoryHeap` or
`heap.textureHeap`). -/
structure Page where
  heap : Nat
  freeBlocks : List Block
  pageSize : Nat
  numAllocations : Nat
  largestFreeBlockSize : Nat
deriving DecidableEq, Repr

/-- A default-constructed page: invalid (null) heap, no free blocks, all
counters zero. -/
instance : Inhabited Page :=
  ⟨{ heap := 0, freeBlocks := [], pageSize := 0, numAllocations := 0, largestFreeBlockSize := 0 }⟩

/-! ## `sfz::DynArray` operations -/

/-- The call `DynArray::insert(pos, v)`: `v` ends up at index `pos`. -/
def dynInsert {α : Type} (l : List α) (pos : Nat) (v : α) : List α :=
  l.take pos ++ v :: l.drop pos

/-- The call `DynArray::remove(pos)`. -/
def dynRemove {α : Type} (l : List α) (pos : Nat) : List α :=
  l.take pos ++ l.drop (pos + 1)

/-- A loop `for (i = 0; i < arr.size(); i++) if (p(arr[i])) { idx = i; break; }`
over an index initialised to `~0u`. -/
def findFirstIdx {α : Type} (p : α → Bool) : List α → Option Nat
  | [] => none
  | a :: as => if p a then some 0 else (findFirstIdx p as).map (fun i => i + 1)

/-! ## Statics -/

/-- The function `calculateNewBlocks`: the allocation block and, when space is
left, the new free block (the returned `bool` is `isSome` of the second
component). -/
def calculateNewBlocks (oldFreeBlock : Block) (allocSize alignment : Nat) :
    Block × Option Block :=
  let leftoverAlignedSize := allocSize % alignment
  let alignedAllocSize :=
    if leftoverAlignedSize ≠ 0 then wrap32 (allocSize + (alignment - leftoverAlignedSize))
    else allocSize
  let allocBlock : Block := { oldFreeBlock with size := alignedAllocSize }
  if alignedAllocSize ≠ oldFreeBlock.size then
    (allocBlock,
      some { offset := wrap32 (oldFreeBlock.offset + alignedAllocSize),
             size := wrap32 (oldFreeBlock.size + 4294967296 - alignedAllocSize) })
  else
    (allocBlock, none)

/-- The functions `createMemoryPage` and `createTexturePage` (same body):
`heapCreate` is the outcome of `page.heap.create(size, ...)`. -/
def createMemoryPage (size : Nat) (heapCreate : Option Nat) : Option Page :=
  match heapCreate with
  | none => none
  | some heap =>
    some { heap := heap
           freeBlocks := [{ offset := 0, size := size }]
           pageSize := size
           numAllocations := 0
           largestFreeBlockSize := size }

/-- The loop of `pageAllocateItem` that recomputes the largest free block. -/
def largestFreeBlock (freeBlocks : List Block) : Nat :=
  freeBlocks.foldl (fun acc block => max acc block.size) 0

/-- The function `pageAllocateItem`: the page after the call and the allocation
block (`none` when the function returns `false`). -/
def pageAllocateItem (page : Page) (size : Nat) (itemAllocFunc : Page → Block → Bool) :
    Page × Option Block :=
  match findFirstIdx (fun block => decide (block.size ≥ size)) page.freeBlocks with
  | none => (page, none)
  | some blockIdxToUse =>
    let oldFreeBlock := page.freeBlocks.getD blockIdxToUse default
    let r := calculateNewBlocks oldFreeBlock size BUFFER_ALIGNMENT
    let allocBlock := r.1
    if itemAllocFunc page allocBlock = false then (page, none)
    else
      let freeBlocks :=
        match r.2 with
        | some newFreeBlock => page.freeBlocks.set blockIdxToUse newFreeBlock
        | none => dynRemove page.freeBlocks blockIdxToUse
      ({ page with
          freeBlocks := freeBlocks
          largestFreeBlockSize := largestFreeBlock freeBlocks
          numAllocations := wrap32 (page.numAllocations + 1) },
       some allocBlock)

/-- The search loop of the last branch of `pageDeallocateBlock`:
the first `i ≥ 1` with `freeBlocks[i-1].offset < offset < freeBlocks[i].offset`. -/
def findInsertLoc (offset : Nat) : List Block → Option Nat
  | prev :: curr :: rest =>
    if prev.offset < offset ∧ offset < curr.offset then some 1
    else (findInsertLoc offset (curr :: rest)).map (fun i => i + 1)
  | _ => none

/-- The part "Merge allocated block with free block before it" of
`pageDeallocateBlock`: the new free list and `newFreeBlockIdx`. The result is
`none` when `insertLoc` is still `~0u` at the call of `insert`. -/
def mergeOrInsertBlock (freeBlocks : List Block) (allocatedBlock : Block) :
    Option (List Block × Nat) :=
  match findFirstIdx
      (fun freeBlock => decide (wrap32 (freeBlock.offset + freeBlock.size) = allocatedBlock.offset))
      freeBlocks with
  | some freeBlockBeforeIdx =>
    let freeBlock := freeBlocks.getD freeBlockBeforeIdx default
    some (freeBlocks.set freeBlockBeforeIdx
            { freeBlock with size := wrap32 (freeBlock.size + allocatedBlock.size) },
          freeBlockBeforeIdx)
  | none =>
    if freeBlocks.length = 0 then some (freeBlocks ++ [allocatedBlock], 0)
    else
      let insertLoc : Option Nat :=
        if allocatedBlock.offset < (freeBlocks.headD default).offset then some 0
        else if allocatedBlock.offset > (freeBlocks.getLastD default).offset then
          some (freeBlocks.length - 1)
        else findInsertLoc allocatedBlock.offset freeBlocks
      match insertLoc with
      | none => none
      | some loc => some (dynInsert freeBlocks loc allocatedBlock, loc)

/-- The part "Check if free block after the new one should be merged with it"
of `pageDeallocateBlock`. -/
def mergeWithNextBlock (freeBlocks : List Block) (newFreeBlockIdx : Nat) : List Block :=
  if newFreeBlockIdx + 1 < freeBlocks.length then
    let freeBlock := freeBlocks.getD newFreeBlockIdx default
    let nextFreeBlock := freeBlocks.getD (newFreeBlockIdx + 1) default
    if wrap32 (freeBlock.offset + freeBlock.size) = nextFreeBlock.offset then
      dynRemove
        (freeBlocks.set newFreeBlockIdx
          { freeBlock with size := wrap32 (freeBlock.size + nextFreeBlock.size) })
        (newFreeBlockIdx + 1)
    else freeBlocks
  else freeBlocks

/-- The function `pageDeallocateBlock`; `none` when the source reaches
`freeBlocks.insert(~0u, ...)`. -/
def pageDeallocateBlock (page : Page) (allocatedBlock : Block) : Option Page :=
  match mergeOrInsertBlock page.freeBlocks allocatedBlock with
  | none => none
  | some (inserted, newFreeBlockIdx) =>
    let freeBlocks := mergeWithNextBlock inserted newFreeBlockIdx
    let newFreeBlock := freeBlocks.getD newFreeBlockIdx default
    some { page with
            freeBlocks := freeBlocks
            largestFreeBlockSize := max page.largestFreeBlockSize newFreeBlock.size
            numAllocations := wrap32 (page.numAllocations + 4294967296 - 1) }

/-- The function `findAppropriatePage`: index of the first page with
`pageSize >= size`, `none` for the return value `~0u`. -/
def findAppropriatePage (pages : List Page) (size : Nat) : Option Nat :=
  findFirstIdx (fun page => decide (page.pageSize ≥ size)) pages

/-! ## A page together with its live allocations -/

/-- Sum of the sizes of a list of blocks. -/
def sumSizes (blocks : List Block) : Nat := (blocks.map Block.size).sum

/-- A page and the blocks returned by `pageAllocateItem` on it that have not
been passed to `pageDeallocateBlock` yet. -/
structure PageState where
  page : Page
  live : List Block

/-- One call on a page: `pageAllocateItem(page, size, ..., itemAllocFunc)` or
`pageDeallocateBlock(page, block)`. -/
inductive PageCall where
  | allocate (size : Nat) (itemAllocFunc : Page → Block → Bool)
  | deallocate (block : Block)

/-- Effect of one call; a deallocation is only defined for a live block. -/
def pageCall (s : PageState) : PageCall → Option PageState
  | .allocate size itemAllocFunc =>
    match pageAllocateItem s.page size itemAllocFunc with
    | (page, some block) => some { page := page, live := block :: s.live }
    | (page, none) => some { page := page, live := s.live }
  | .deallocate block =>
    if block ∈ s.live then
      (pageDeallocateBlock s.page block).map
        (fun page => { page := page, live := s.live.erase block })
    else none

/-- Effect of a sequence of calls. -/
def pageCalls (s : PageState) : List PageCall → Option PageState
  | [] => some s
  | c :: cs => (pageCall s c).bind (fun s1 => pageCalls s1 cs)

/-- The debug assertions of `createMemoryPage` on its argument `size`, and the
range of `uint32_t`. -/
def validPageSize (size : Nat) : Prop :=
  size ≠ 0 ∧ size % BUFFER_ALIGNMENT = 0 ∧ size < 4294967296

instance (size : Nat) : Decidable (validPageSize size) := by
  unfold validPageSize; infer_instance

/-- Free list strictly sorted by offset. -/
def sortedByOffset : List Block → Bool
  | a :: b :: rest => decide (a.offset < b.offset) && sortedByOffset (b :: rest)
  | _ => true

/-- The overlap test `a.offset < b.offset + b.size && a.offset + a.size > b.offset`
in exact arithmetic: the ends `offset + size` are not reduced to 32 bits. For
blocks that end below `2^32` this is the value of the debug check in
`pageDeallocateBlock`, which computes the ends in `uint32_t`
(see `blocksOverlap32`). -/
def blocksOverlap (a b : Block) : Bool :=
  decide (a.offset < b.offset + b.size ∧ a.offset + a.size > b.offset)

/-- The overlap test of the debug check in `pageDeallocateBlock` as the source
computes it: `blockEnd` and `allocatedEnd` are `uint32_t` sums, and the test is
`blockBegin < allocatedEnd && blockEnd > allocatedBegin`. -/
def blocksOverlap32 (freeBlock allocatedBlock : Block) : Bool :=
  decide (freeBlock.offset < wrap32 (allocatedBlock.offset + allocatedBlock.size) ∧
    wrap32 (freeBlock.offset + freeBlock.size) > allocatedBlock.offset)

/-- Some free block ends exactly where another free block starts. -/
def hasTouchingBlocks (freeBlocks : List Block) : Bool :=
  freeBlocks.any (fun a => freeBlocks.any (fun b => decide (a.offset + a.size = b.offset)))

/-! ## Allocator state -/

/-- The values of `ZgMemoryType` the allocator distinguishes: device, upload
and any other value of the enum. -/
inductive ZgMemoryType where
  | ZG_MEMORY_TYPE_DEVICE
  | ZG_MEMORY_TYPE_UPLOAD
  | ZG_MEMORY_TYPE_OTHER
deriving DecidableEq, Repr

/-- The pointer `AllocEntryBuffer::pages`: which of the two buffer pools. -/
inductive PagesPtr where
  | devicePages
  | uploadPages
deriving DecidableEq, Repr

/-- The struct `AllocEntryBuffer`. -/
structure AllocEntryBuffer where
  block : Block
  pages : PagesPtr
  heapPtr : Nat
deriving DecidableEq, Repr

/-- The struct `AllocEntryTexture`. -/
structure AllocEntryTexture where
  block : Block
  heapPtr : Nat
deriving DecidableEq, Repr

/-- The struct `DynamicGpuAllocatorState` without its mutex and its
`sfz::Allocator`; a `sfz::HashMap` is a list of key-value pairs with distinct
keys. -/
structure DynamicGpuAllocatorState where
  devicePages : List Page
  uploadPages : List Page
  texturePages : List Page
  bufferEntries : List (Nat × AllocEntryBuffer)
  textureEntries : List (Nat × AllocEntryTexture)
  totalNumAllocationsDevice : Nat
  totalNumAllocationsUpload : Nat
  totalNumAllocationsTexture : Nat
  totalNumDeallocationsDevice : Nat
  totalNumDeallocationsUpload : Nat
  totalNumDeallocationsTexture : Nat
deriving DecidableEq, Repr

/-- The call `HashMap::get(key)`. -/
def hashGet {β : Type} (m : List (Nat × β)) (key : Nat) : Option β :=
  (m.find? (fun kv => kv.1 == key)).map (fun kv => kv.2)

/-- The call `HashMap::remove(key)`. -/
def hashRemove {β : Type} (m : List (Nat × β)) (key : Nat) : List (Nat × β) :=
  m.filter (fun kv => kv.1 != key)

/-- The assignment `map[key] = value`. -/
def hashPut {β : Type} (m : List (Nat × β)) (key : Nat) (value : β) : List (Nat × β) :=
  (key, value) :: hashRemove m key

/-- The state after `DynamicGpuAllocator::init`. -/
def init : DynamicGpuAllocatorState :=
  { devicePages := [], uploadPages := [], texturePages := []
    bufferEntries := [], textureEntries := []
    totalNumAllocationsDevice := 0, totalNumAllocationsUpload := 0
    totalNumAllocationsTexture := 0
    totalNumDeallocationsDevice := 0, totalNumDeallocationsUpload := 0
    totalNumDeallocationsTexture := 0 }

/-- The pool a `PagesPtr` points to. -/
def getPages (state : DynamicGpuAllocatorState) : PagesPtr → List Page
  | .devicePages => state.devicePages
  | .uploadPages => state.uploadPages

/-- Assignment through a `PagesPtr`. -/
def setPages (state : DynamicGpuAllocatorState) (ptr : PagesPtr) (pages : List Page) :
    DynamicGpuAllocatorState :=
  match ptr with
  | .devicePages => { state with devicePages := pages }
  | .uploadPages => { state with uploadPages := pages }

/-- The part "Get index of page / If no appropriate page found, allocate one"
shared by `allocateBuffer` and `allocateTexture2D`: the pool after it and
`pageIdx`, or `none` when the page (heap) creation fails. -/
def findOrCreatePage (pages : List Page) (sizeBytes defaultPageSize : Nat)
    (heapCreate : Option Nat) : Option (List Page × Nat) :=
  match findAppropriatePage pages sizeBytes with
  | some pageIdx => some (pages, pageIdx)
  | none =>
    let pageSize := max defaultPageSize sizeBytes
    match createMemoryPage pageSize heapCreate with
    | none => none
    | some page => some (pages ++ [page], pages.length)

/-- The method `DynamicGpuAllocator::allocateBuffer`. `heapCreate` is the
outcome of the heap creation (consulted only when a page is created) and
`bufferCreate` the outcome of `page.heap.bufferCreate`. The result is `none`
when `sfz_assert_release(false)` is reached, and otherwise the new state and the
returned buffer (`none` for the empty `zg::Buffer()`). -/
def allocateBuffer (state : DynamicGpuAllocatorState) (memoryType : ZgMemoryType)
    (sizeBytes : Nat) (heapCreate : Option Nat) (bufferCreate : Page → Block → Option Nat) :
    Option (DynamicGpuAllocatorState × Option Nat) :=
  let pagesPtr : Option (PagesPtr × Nat) :=
    match memoryType with
    | .ZG_MEMORY_TYPE_DEVICE => some (.devicePages, PAGE_SIZE_DEVICE)
    | .ZG_MEMORY_TYPE_UPLOAD => some (.uploadPages, PAGE_SIZE_UPLOAD)
    | .ZG_MEMORY_TYPE_OTHER => none
  match pagesPtr with
  | none => none
  | some (pages, defaultPageSize) =>
    match findOrCreatePage (getPages state pages) sizeBytes defaultPageSize heapCreate with
    | none => some (state, none)
    | some (pool, pageIdx) =>
      let page := pool.getD pageIdx default
      let r := pageAllocateItem page sizeBytes (fun p b => (bufferCreate p b).isSome)
      let state1 := setPages state pages (pool.set pageIdx r.1)
      match r.2 with
      | none => some (state1, none)
      | some bufferBlock =>
        match bufferCreate page bufferBlock with
        | none => some (state1, none)
        | some buffer =>
          let entry : AllocEntryBuffer :=
            { block := bufferBlock, pages := pages, heapPtr := page.heap }
          let state2 := { state1 with bufferEntries := hashPut state1.bufferEntries buffer entry }
          match pages with
          | .devicePages =>
            some ({ state2 with
                    totalNumAllocationsDevice := wrap32 (state2.totalNumAllocationsDevice + 1) },
                  some buffer)
          | .uploadPages =>
            some ({ state2 with
                    totalNumAllocationsUpload := wrap32 (state2.totalNumAllocationsUpload + 1) },
                  some buffer)

/-- The method `DynamicGpuAllocator::allocateTexture2D`. `sizeInBytes` is the
field of the `ZgTexture2DAllocationInfo` returned by the external query,
`textureCreate` the outcome of `page.heap.texture2DCreate` and `allocSizeOut`
the output parameter (`none` for `nullptr`). The result is the new state, the
returned texture and the output parameter after the call. -/
def allocateTexture2D (state : DynamicGpuAllocatorState) (sizeInBytes : Nat)
    (heapCreate : Option Nat) (textureCreate : Page → Block → Option Nat)
    (allocSizeOut : Option Nat) :
    DynamicGpuAllocatorState × Option Nat × Option Nat :=
  match findOrCreatePage state.texturePages sizeInBytes PAGE_SIZE_TEXTURE heapCreate with
  | none => (state, none, allocSizeOut)
  | some (pool, pageIdx) =>
    let page := pool.getD pageIdx default
    let r := pageAllocateItem page sizeInBytes (fun p b => (textureCreate p b).isSome)
    let state1 := { state with texturePages := pool.set pageIdx r.1 }
    match r.2 with
    | none => (state1, none, allocSizeOut)
    | some texBlock =>
      match textureCreate page texBlock with
      | none => (state1, none, allocSizeOut)
      | some texture =>
        let entry : AllocEntryTexture := { block := texBlock, heapPtr := page.heap }
        ({ state1 with
            textureEntries := hashPut state1.textureEntries texture entry
            totalNumAllocationsTexture := wrap32 (state1.totalNumAllocationsTexture + 1) },
         some texture,
         allocSizeOut.map (fun _ => texBlock.size))

/-- The loop "Reclaim space" of both `deallocate` methods: the pool after it,
or `none` when no page has the heap `heapPtr` (`sfz_assert_release` fails) or
`pageDeallocateBlock` is undefined. -/
def reclaimSpace (pages : List Page) (heapPtr : Nat) (block : Block) : Option (List Page) :=
  match findFirstIdx (fun page => decide (page.heap = heapPtr)) pages with
  | none => none
  | some i =>
    match pageDeallocateBlock (pages.getD i default) block with
    | none => none
    | some page =>
      let pages1 := pages.set i page
      match page.freeBlocks with
      | [freeBlock] =>
        if freeBlock.offset = 0 ∧ freeBlock.size = page.pageSize then some (dynRemove pages1 i)
        else some pages1
      | _ => some pages1

/-- The method `DynamicGpuAllocator::deallocate(zg::Buffer&)`; the argument is
the pointer `buffer.buffer`. -/
def deallocateBuffer (state : DynamicGpuAllocatorState) (buffer : Nat) :
    Option DynamicGpuAllocatorState :=
  match hashGet state.bufferEntries buffer with
  | none => some state
  | some entry =>
    let state1 := { state with bufferEntries := hashRemove state.bufferEntries buffer }
    match reclaimSpace (getPages state1 entry.pages) entry.heapPtr entry.block with
    | none => none
    | some pages =>
      let state2 := setPages state1 entry.pages pages
      match entry.pages with
      | .devicePages =>
        some { state2 with
                totalNumDeallocationsDevice := wrap32 (state2.totalNumDeallocationsDevice + 1) }
      | .uploadPages =>
        some { state2 with
                totalNumDeallocationsUpload := wrap32 (state2.totalNumDeallocationsUpload + 1) }

/-- The method `DynamicGpuAllocator::deallocate(zg::Texture2D&)`; the argument
is the pointer `texture.texture`. -/
def deallocateTexture2D (state : DynamicGpuAllocatorState) (texture : Nat) :
    Option DynamicGpuAllocatorState :=
  match hashGet state.textureEntries texture with
  | none => some state
  | some entry =>
    let state1 := { state with textureEntries := hashRemove state.textureEntries texture }
    match reclaimSpace state1.texturePages entry.heapPtr entry.block with
    | none => none
    | some pages =>
      some { state1 with
              texturePages := pages
              totalNumDeallocationsTexture := wrap32 (state1.totalNumDeallocationsTexture + 1) }

/-- One call of the public interface, with the outcomes of the external calls
it makes. -/
inductive AllocatorCall where
  | allocateBuffer (memoryType : ZgMemoryType) (sizeBytes : Nat) (heapCreate : Option Nat)
      (bufferCreate : Page → Block → Option Nat)
  | allocateTexture2D (sizeInBytes : Nat) (heapCreate : Option Nat)
      (textureCreate : Page → Block → Option Nat)
  | deallocateBuffer (buffer : Nat)
  | deallocateTexture2D (texture : Nat)

/-- Effect of one call on the state. -/
def allocatorCall (state : DynamicGpuAllocatorState) :
    AllocatorCall → Option DynamicGpuAllocatorState
  | .allocateBuffer memoryType sizeBytes heapCreate bufferCreate =>
    (allocateBuffer state memoryType sizeBytes heapCreate bufferCreate).map (fun r => r.1)
  | .allocateTexture2D sizeInBytes heapCreate textureCreate =>
    some (allocateTexture2D state sizeInBytes heapCreate textureCreate none).1
  | .deallocateBuffer buffer => deallocateBuffer state buffer
  | .deallocateTexture2D texture => deallocateTexture2D state texture

/-- Effect of a sequence of calls. -/
def allocatorCalls (state : DynamicGpuAllocatorState) :
    List AllocatorCall → Option DynamicGpuAllocatorState
  | [] => some state
  | c :: cs => (allocatorCall state c).bind (fun s1 => allocatorCalls s1 cs)

/-! ## Specification-side definitions -/

/-- The aligned allocation size of `calculateNewBlocks` before its reduction to
32 bits: `allocSize` rounded up to a multiple of `alignment`. -/
def roundUp (allocSize alignment : Nat) : Nat :=
  if allocSize % alignment ≠ 0 then allocSize + (alignment - allocSize % alignment)
  else allocSize

/-- Invariant of a page with its live blocks: sizes are aligned, free and live
sizes add up to the page size, and the cached largest free block is exact. -/
structure PageInv (s : PageState) : Prop where
  fits : s.page.pageSize < 4294967296
  freeAligned : ∀ b ∈ s.page.freeBlocks, b.size % BUFFER_ALIGNMENT = 0
  liveAligned : ∀ b ∈ s.live, b.size % BUFFER_ALIGNMENT = 0
  total : sumSizes s.page.freeBlocks + sumSizes s.live = s.page.pageSize
  largest : s.page.largestFreeBlockSize = largestFreeBlock s.page.freeBlocks

/-- The memory type that selects a pool in `allocateBuffer`. -/
def pagesMemoryType : PagesPtr → ZgMemoryType
  | .devicePages => .ZG_MEMORY_TYPE_DEVICE
  | .uploadPages => .ZG_MEMORY_TYPE_UPLOAD

/-- The default page size `allocateBuffer` uses for a pool. -/
def pagesDefaultSize : PagesPtr → Nat
  | .devicePages => PAGE_SIZE_DEVICE
  | .uploadPages => PAGE_SIZE_UPLOAD

/-! ## Concrete inputs used in the examples -/

/-- An `itemAllocFunc` whose resource creation always succeeds. -/
def okItem : Page → Block → Bool := fun _ _ => true

/-- An external buffer creation that always succeeds; the returned pointer is
determined by the offset of the block. -/
def bufferAt : Page → Block → Option Nat := fun _ b => some (1000 + b.offset / 65536)

/-- A page of three alignment units right after `createMemoryPage`. -/
def freshPage : Page :=
  { heap := 7, freeBlocks := [⟨0, 196608⟩], pageSize := 196608, numAllocations := 0,
    largestFreeBlockSize := 196608 }

/-- The allocator after three buffers filled one device page and the first and
the third were deallocated. -/
def oneLiveBufferState : DynamicGpuAllocatorState :=
  { init with
    devicePages := [⟨7, [⟨131072, 66977792⟩, ⟨0, 65536⟩], 67108864, 1, 66977792⟩]
    bufferEntries := [(1001, ⟨⟨65536, 65536⟩, .devicePages, 7⟩)]
    totalNumAllocationsDevice := 3
    totalNumDeallocationsDevice := 2 }

/-- The allocator after one buffer of 64 MiB was allocated from device memory. -/
def fullDeviceState : DynamicGpuAllocatorState :=
  { init with
    devicePages := [⟨7, [], 67108864, 1, 0⟩]
    bufferEntries := [(1000, ⟨⟨0, 67108864⟩, .devicePages, 7⟩)]
    totalNumAllocationsDevice := 1 }

/-! ## Definitions for the claims on the allocator interface -/

/-- The debug assertions of `DynamicGpuAllocator::destroy` on a non-null state,
in source order; `HashMap::size()` is the number of entries. -/
def destroyAsserts (state : DynamicGpuAllocatorState) : Bool :=
  (state.bufferEntries.length == 0) &&
  (state.textureEntries.length == 0) &&
  (state.totalNumAllocationsDevice == state.totalNumDeallocationsDevice) &&
  (state.totalNumAllocationsUpload == state.totalNumDeallocationsUpload) &&
  (state.totalNumAllocationsTexture == state.totalNumDeallocationsTexture) &&
  state.devicePages.all (fun page => page.numAllocations == 0) &&
  state.uploadPages.all (fun page => page.numAllocations == 0) &&
  state.texturePages.all (fun page => page.numAllocations == 0)

/-- The debug assertion `entryPtr != nullptr` of `deallocate(zg::Buffer&)`. -/
def deallocateBufferAssertsEntry (state : DynamicGpuAllocatorState) (buffer : Nat) : Bool :=
  (hashGet state.bufferEntries buffer).isSome

/-- The debug assertion `entryPtr != nullptr` of `deallocate(zg::Texture2D&)`. -/
def deallocateTexture2DAssertsEntry (state : DynamicGpuAllocatorState) (texture : Nat) : Bool :=
  (hashGet state.textureEntries texture).isSome

/-- Reference for deallocation, first step: insertion of a block at its sorted
position by offset. -/
def insertSortedByOffset (block : Block) : List Block → List Block
  | [] => [block]
  | b :: rest =>
    if block.offset < b.offset then block :: b :: rest
    else b :: insertSortedByOffset block rest

/-- Reference for deallocation, second step: starting from the block `current`,
every block that starts where the block before it ends is merged into it. -/
def coalesceFrom (current : Block) : List Block → List Block
  | [] => [current]
  | b :: rest =>
    if current.offset + current.size = b.offset then
      coalesceFrom { current with size := current.size + b.size } rest
    else current :: coalesceFrom b rest

/-- Reference for deallocation: sorted insert, then coalesce. -/
def sortedInsertThenCoalesce (freeBlocks : List Block) (block : Block) : List Block :=
  match insertSortedByOffset block freeBlocks with
  | [] => []
  | b :: rest => coalesceFrom b rest

/-- The allocator after a request of 64 MiB + 1 bytes from device memory. -/
def unalignedDeviceState : DynamicGpuAllocatorState :=
  { init with
    devicePages := [⟨7, [⟨67174400, 4294901761⟩], 67108865, 1, 4294901761⟩]
    bufferEntries := [(1000, ⟨⟨0, 67174400⟩, .devicePages, 7⟩)]
    totalNumAllocationsDevice := 1 }

/-- The total-allocations counter of a buffer pool. -/
def totalNumAllocations (state : DynamicGpuAllocatorState) : PagesPtr → Nat
  | .devicePages => state.totalNumAllocationsDevice
  | .uploadPages => state.totalNumAllocationsUpload

/-- The total-deallocations counter of a buffer pool. -/
def totalNumDeallocations (state : DynamicGpuAllocatorState) : PagesPtr → Nat
  | .devicePages => state.totalNumDeallocationsDevice
  | .uploadPages => state.totalNumDeallocationsUpload

/-- Number of buffer entries that belong to a pool (memory class). -/
def numEntriesOf (entries : List (Nat × AllocEntryBuffer)) (pages : PagesPtr) : Nat :=
  (entries.filter (fun kv => decide (kv.2.pages = pages))).length

/-- Subtraction of `uint32_t` values. -/
def sub32 (a b : Nat) : Nat := wrap32 (a + 4294967296 - b)

/-- A buffer creation whose pointer is determined by the heap of the page. -/
def bufferOfHeap : Page → Block → Option Nat := fun page _ => some (5000 + page.heap)

/-- A sequence of 257 device requests, each one alignment unit larger than the
one before and served by a heap of its own. -/
def growingRequests : List AllocatorCall :=
  (List.range 257).map (fun i =>
    AllocatorCall.allocateBuffer .ZG_MEMORY_TYPE_DEVICE (67108864 + 65536 * i) (some (100 + i))
      bufferOfHeap)

/-- Property of the external capability: the pointer returned by a successful
creation is not the key of an entry, that is, it differs from the pointer of
every resource that is still allocated. -/
def returnsFreshHandle (state : DynamicGpuAllocatorState) : AllocatorCall → Prop
  | .allocateBuffer memoryType sizeBytes heapCreate bufferCreate =>
    ∀ state1 buffer,
      allocateBuffer state memoryType sizeBytes heapCreate bufferCreate
        = some (state1, some buffer) →
      hashGet state.bufferEntries buffer = none
  | .allocateTexture2D sizeInBytes heapCreate textureCreate =>
    ∀ texture,
      (allocateTexture2D state sizeInBytes heapCreate textureCreate none).2.1 = some texture →
      hashGet state.textureEntries texture = none
  | .deallocateBuffer _ => True
  | .deallocateTexture2D _ => True

/-- The allocator states reachable from `init` by calls of the public
interface, the external capability returning fresh pointers. -/
inductive Reachable : DynamicGpuAllocatorState → Prop where
  | init : Reachable init
  | call (state state1 : DynamicGpuAllocatorState) (c : AllocatorCall) :
      Reachable state → returnsFreshHandle state c → allocatorCall state c = some state1 →
      Reachable state1

/-- Invariant that links the counters to the entry maps. -/
structure CounterInv (state : DynamicGpuAllocatorState) : Prop where
  bufferKeys : (state.bufferEntries.map Prod.fst).Nodup
  textureKeys : (state.textureEntries.map Prod.fst).Nodup
  deallocRange : ∀ q, totalNumDeallocations state q < 4294967296
  deallocRangeTexture : state.totalNumDeallocationsTexture < 4294967296
  buffers : ∀ q, totalNumAllocations state q
    = wrap32 (totalNumDeallocations state q + numEntriesOf state.bufferEntries q)
  textures : state.totalNumAllocationsTexture
    = wrap32 (state.totalNumDeallocationsTexture + state.textureEntries.length)

/-- A buffer returned by `allocateBuffer` and not yet deallocated, with the
block `pageAllocateItem` carved for it, the pool of the request and the heap of
the page the block was carved from. -/
structure LiveBuffer where
  buffer : Nat
  block : Block
  pages : PagesPtr
  heap : Nat

/-- A texture returned by `allocateTexture2D` and not yet deallocated, with the
block carved for it and the heap of the page it was carved from. -/
structure LiveTexture where
  texture : Nat
  block : Block
  heap : Nat

/-- The entry expected for a live buffer. -/
def LiveBuffer.entry (a : LiveBuffer) : Nat × AllocEntryBuffer :=
  (a.buffer, { block := a.block, pages := a.pages, heapPtr := a.heap })

/-- The entry expected for a live texture. -/
def LiveTexture.entry (a : LiveTexture) : Nat × AllocEntryTexture :=
  (a.texture, { block := a.block, heapPtr := a.heap })

/-- The return value of `findAppropriatePage` as a `uint32_t`: the index, or
`~0u` when no page is found. -/
def findAppropriatePageU32 (pages : List Page) (size : Nat) : Nat :=
  (findAppropriatePage pages size).getD 4294967295

/-- The assertions of `calculateNewBlocks` on the aligned allocation size
(`allocSize <= alignedAllocSize`, `alignedAllocSize <= oldFreeBlock.size` and
`alignedAllocSize % alignment == 0`), on the value the function computes. -/
def alignedSizeAsserts (oldFreeBlock : Block) (allocSize alignment : Nat) : Bool :=
  let alignedAllocSize := (calculateNewBlocks oldFreeBlock allocSize alignment).1.size
  decide (allocSize ≤ alignedAllocSize) &&
  decide (alignedAllocSize ≤ oldFreeBlock.size) &&
  decide (alignedAllocSize % alignment = 0)

/-- The part "Find insertion location" of `pageDeallocateBlock`: the value of
`insertLoc` (`none` for `~0u`). -/
def findInsertionLocation (freeBlocks : List Block) (allocatedBlock : Block) : Option Nat :=
  if allocatedBlock.offset < (freeBlocks.headD default).offset then some 0
  else if allocatedBlock.offset > (freeBlocks.getLastD default).offset then
    some (freeBlocks.length - 1)
  else findInsertLoc allocatedBlock.offset freeBlocks

/-- Whether the insertion-location search enters its last branch, the one with
the assertion `freeBlocks.size() >= 2`. -/
def searchesBetweenBlocks (freeBlocks : List Block) (allocatedBlock : Block) : Bool :=
  !decide (allocatedBlock.offset < (freeBlocks.headD default).offset) &&
  !decide (allocatedBlock.offset > (freeBlocks.getLastD default).offset)

/-- A texture creation that always succeeds; the returned pointer is determined
by the heap of the page. -/
def textureOfHeap : Page → Block → Option Nat := fun page _ => some (9000 + page.heap)

/-- The allocator after a device request of `2^32 - 1` bytes: the allocation
block has the wrapped size 0 and the free block still spans the page. -/
def zeroSizeBufferState : DynamicGpuAllocatorState :=
  { init with
    devicePages := [⟨7, [⟨0, 4294967295⟩], 4294967295, 1, 4294967295⟩]
    bufferEntries := [(5007, ⟨⟨0, 0⟩, .devicePages, 7⟩)]
    totalNumAllocationsDevice := 1 }

/-- The state `zeroSizeBufferState` after a second buffer of 65536 bytes was
allocated from the same page and deallocated again: the page is gone, the entry
of the first buffer is still there. -/
def orphanedBufferState : DynamicGpuAllocatorState :=
  { init with
    bufferEntries := [(5007, ⟨⟨0, 0⟩, .devicePages, 7⟩)]
    totalNumAllocationsDevice := 2
    totalNumDeallocationsDevice := 1 }

/-! ## The mutex of the allocator -/

/-- The public operations of `DynamicGpuAllocator` that work on the state. -/
inductive PublicOperation where
  | queryTotalNumAllocationsDevice
  | queryTotalNumAllocationsUpload
  | queryTotalNumAllocationsTexture
  | queryTotalNumDeallocationsDevice
  | queryTotalNumDeallocationsUpload
  | queryTotalNumDeallocationsTexture
  | queryNumPagesDevice
  | queryNumPagesUpload
  | queryNumPagesTexture
  | queryPageInfoDevice
  | queryPageInfoUpload
  | queryPageInfoTexture
  | allocateBuffer
  | allocateTexture2D
  | deallocateBuffer
  | deallocateTexture2D
deriving DecidableEq, Repr

/-- Whether the body of the operation starts with
`std::lock_guard<std::mutex> lock(mState->mutex);`. -/
def acquiresMutex : PublicOperation → Bool
  | .queryTotalNumAllocationsDevice => false
  | .queryTotalNumAllocationsUpload => false
  | .queryTotalNumAllocationsTexture => false
  | .queryTotalNumDeallocationsDevice => false
  | .queryTotalNumDeallocationsUpload => false
  | .queryTotalNumDeallocationsTexture => false
  | .queryNumPagesDevice => false
  | .queryNumPagesUpload => false
  | .queryNumPagesTexture => false
  | .queryPageInfoDevice => true
  | .queryPageInfoUpload => true
  | .queryPageInfoTexture => true
  | .allocateBuffer => true
  | .allocateTexture2D => true
  | .deallocateBuffer => true
  | .deallocateTexture2D => true

/-- What a thread does with the mutex and the state. -/
inductive MutexEvent where
  | lock
  | access
  | unlock
deriving DecidableEq, Repr

/-- The events of one call: the accesses to the state, enclosed by the lock and
the unlock of the `lock_guard` when the operation has one. -/
def operationEvents (op : PublicOperation) : List MutexEvent :=
  if acquiresMutex op then [.lock, .access, .unlock] else [.access]

/-- Semantics of the mutex on a schedule of (thread, event) pairs: `holder` is
the thread that holds the mutex. The result is `none` when the schedule is not
possible (a `lock` while the mutex is held, an `unlock` by a thread that does
not hold it), and otherwise whether some access happened while another thread
held the mutex. -/
def runSchedule (holder : Option Nat) : List (Nat × MutexEvent) → Option Bool
  | [] => some false
  | (thread, .lock) :: rest =>
    match holder with
    | some _ => none
    | none => runSchedule (some thread) rest
  | (thread, .unlock) :: rest =>
    if holder = some thread then runSchedule none rest else none
  | (thread, .access) :: rest =>
    match holder with
    | none => runSchedule none rest
    | some h =>
      if h = thread then runSchedule holder rest
      else (runSchedule holder rest).map (fun _ => true)

/-- The events of one thread in a schedule. -/
def threadEvents (thread : Nat) (schedule : List (Nat × MutexEvent)) : List MutexEvent :=
  (schedule.filter (fun e => e.1 == thread)).map (fun e => e.2)

/-- All interleavings of the events of thread 1 with those of thread 2. -/
def interleavings : List MutexEvent → List MutexEvent → List (List (Nat × MutexEvent))
  | [], ys => [ys.map (fun e => (2, e))]
  | x :: xs, [] => [(x :: xs).map (fun e => (1, e))]
  | x :: xs, y :: ys =>
    (interleavings xs (y :: ys)).map (fun s => (1, x) :: s) ++
    (interleavings (x :: xs) ys).map (fun s => (2, y) :: s)
termination_by xs ys => xs.length + ys.length

/-! ## Definitions for the live handles and the allocation counts of the pages -/

/-- The pages of the three pools. -/
def allPages (state : DynamicGpuAllocatorState) : List Page :=
  state.devicePages ++ state.uploadPages ++ state.texturePages

/-- Number of live allocation entries, of buffers and of textures, whose heap
identity `heapPtr` is `heap`. -/
def numEntriesOn (state : DynamicGpuAllocatorState) (heap : Nat) : Nat :=
  (state.bufferEntries.filter (fun kv => decide (kv.2.heapPtr = heap))).length +
  (state.textureEntries.filter (fun kv => decide (kv.2.heapPtr = heap))).length

/-- The handle and the memory class of a buffer entry. -/
def bufferHandleOf (kv : Nat × AllocEntryBuffer) : Nat × ZgMemoryType :=
  (kv.1, pagesMemoryType kv.2.pages)

/-- The handles that are live after a call: a successful allocation adds the
returned handle (a buffer handle together with the memory class of the
request), a deallocation removes its argument. -/
def liveHandlesAfter (state : DynamicGpuAllocatorState) (c : AllocatorCall)
    (buffers : List (Nat × ZgMemoryType)) (textures : List Nat) :
    List (Nat × ZgMemoryType) × List Nat :=
  match c with
  | .allocateBuffer memoryType sizeBytes heapCreate bufferCreate =>
    match allocateBuffer state memoryType sizeBytes heapCreate bufferCreate with
    | some (_, some buffer) => ((buffer, memoryType) :: buffers, textures)
    | _ => (buffers, textures)
  | .allocateTexture2D sizeInBytes heapCreate textureCreate =>
    match (allocateTexture2D state sizeInBytes heapCreate textureCreate none).2.1 with
    | some texture => (buffers, texture :: textures)
    | none => (buffers, textures)
  | .deallocateBuffer buffer => (buffers.filter (fun x => x.1 != buffer), textures)
  | .deallocateTexture2D texture => (buffers, textures.filter (fun x => x != texture))

/-- The allocator states reachable from `init` by calls of the public
interface, together with the handles that were returned by a successful
allocation and have not been deallocated since: the buffer handles, each with
the memory class it was requested from, and the texture handles. The external
capability returns pointers that differ from those of the live resources. -/
inductive ReachableLive :
    DynamicGpuAllocatorState → List (Nat × ZgMemoryType) → List Nat → Prop where
  | init : ReachableLive init [] []
  | call (state state1 : DynamicGpuAllocatorState) (c : AllocatorCall)
      (buffers : List (Nat × ZgMemoryType)) (textures : List Nat) :
      ReachableLive state buffers textures →
      returnsFreshHandle state c →
      allocatorCall state c = some state1 →
      ReachableLive state1 (liveHandlesAfter state c buffers textures).1
        (liveHandlesAfter state c buffers textures).2

/-- Executable form of `returnsFreshHandle`: the handle returned by a
successful allocation is not the key of an entry. -/
def freshHandle (state : DynamicGpuAllocatorState) : AllocatorCall → Bool
  | .allocateBuffer memoryType sizeBytes heapCreate bufferCreate =>
    match allocateBuffer state memoryType sizeBytes heapCreate bufferCreate with
    | some (_, some buffer) => (hashGet state.bufferEntries buffer).isNone
    | _ => true
  | .allocateTexture2D sizeInBytes heapCreate textureCreate =>
    match (allocateTexture2D state sizeInBytes heapCreate textureCreate none).2.1 with
    | some texture => (hashGet state.textureEntries texture).isNone
    | none => true
  | .deallocateBuffer _ => true
  | .deallocateTexture2D _ => true

/-- Effect of a sequence of calls on the state and on the live handles; `none`
when a call fails or an allocation returns a handle that is still live. -/
def trackedCalls (state : DynamicGpuAllocatorState) (buffers : List (Nat × ZgMemoryType))
    (textures : List Nat) :
    List AllocatorCall →
      Option (DynamicGpuAllocatorState × List (Nat × ZgMemoryType) × List Nat)
  | [] => some (state, buffers, textures)
  | c :: cs =>
    if freshHandle state c = true then
      match allocatorCall state c with
      | none => none
      | some state1 =>
        trackedCalls state1 (liveHandlesAfter state c buffers textures).1
          (liveHandlesAfter state c buffers textures).2 cs
    else none

/-- The allocator after a buffer of 64 MiB + 1 bytes was allocated from device
memory in the state `fullDeviceState`: a second page, of unaligned size. -/
def secondPageUnalignedState : DynamicGpuAllocatorState :=
  { init with
    devicePages := [⟨7, [], 67108864, 1, 0⟩,
      ⟨8, [⟨67174400, 4294901761⟩], 67108865, 1, 4294901761⟩]
    bufferEntries := [(5008, ⟨⟨0, 67174400⟩, .devicePages, 8⟩),
      (1000, ⟨⟨0, 67108864⟩, .devicePages, 7⟩)]
    totalNumAllocationsDevice := 2 }

/-- Device requests of 65536 bytes and of 64 MiB + 65536 bytes, each served by
a heap of its own. -/
def twoPageRequests : List AllocatorCall :=
  [.allocateBuffer .ZG_MEMORY_TYPE_DEVICE 65536 (some 7) bufferOfHeap,
   .allocateBuffer .ZG_MEMORY_TYPE_DEVICE 67174400 (some 8) bufferOfHeap]

/-- The allocator after `twoPageRequests`: two device pages. -/
def twoDevicePagesState : DynamicGpuAllocatorState :=
  { init with
    devicePages := [⟨7, [⟨65536, 67043328⟩], 67108864, 1, 67043328⟩,
      ⟨8, [], 67174400, 1, 0⟩]
    bufferEntries := [(5008, ⟨⟨0, 67174400⟩, .devicePages, 8⟩),
      (5007, ⟨⟨0, 65536⟩, .devicePages, 7⟩)]
    totalNumAllocationsDevice := 2 }

/-- A device buffer of 64 MiB and an upload buffer of 65536 bytes are
allocated, then the device buffer is deallocated. -/
def deviceRoundTripCalls : List AllocatorCall :=
  [.allocateBuffer .ZG_MEMORY_TYPE_DEVICE 67108864 (some 7) bufferAt,
   .allocateBuffer .ZG_MEMORY_TYPE_UPLOAD 65536 (some 8) bufferOfHeap,
   .deallocateBuffer 1000]

/-- The allocator after `deviceRoundTripCalls`: the upload buffer is live. -/
def uploadLiveState : DynamicGpuAllocatorState :=
  { init with
    uploadPages := [⟨8, [⟨65536, 33488896⟩], 33554432, 1, 33488896⟩]
    bufferEntries := [(5008, ⟨⟨0, 65536⟩, .uploadPages, 8⟩)]
    totalNumAllocationsDevice := 1
    totalNumAllocationsUpload := 1
    totalNumDeallocationsDevice := 1 }

/-- The calls that lead to `orphanedBufferState`, followed by a device request
of 65536 bytes whose heap is created at the address of the heap released
before (identity 7 again). -/
def reusedHeapCalls : List AllocatorCall :=
  [.allocateBuffer .ZG_MEMORY_TYPE_DEVICE 4294967295 (some 7) bufferOfHeap,
   .allocateBuffer .ZG_MEMORY_TYPE_DEVICE 65536 (some 8) bufferAt,
   .deallocateBuffer 1000,
   .allocateBuffer .ZG_MEMORY_TYPE_DEVICE 65536 (some 7) bufferAt]

/-- The allocator after `reusedHeapCalls`: one page with one allocation, two
entries with the heap of that page. -/
def reusedHeapState : DynamicGpuAllocatorState :=
  { init with
    devicePages := [⟨7, [⟨65536, 67043328⟩], 67108864, 1, 67043328⟩]
    bufferEntries := [(1000, ⟨⟨0, 65536⟩, .devicePages, 7⟩),
      (5007, ⟨⟨0, 0⟩, .devicePages, 7⟩)]
    totalNumAllocationsDevice := 3
    totalNumDeallocationsDevice := 1 }

/-- The calls `reusedHeapCalls`, two more device requests that fill the page,
and the deallocation of the four live buffers. -/
def balancedCalls : List AllocatorCall :=
  reusedHeapCalls ++
  [.allocateBuffer .ZG_MEMORY_TYPE_DEVICE 65536 none bufferAt,
   .allocateBuffer .ZG_MEMORY_TYPE_DEVICE 66977792 none bufferAt,
   .deallocateBuffer 5007,
   .deallocateBuffer 1000,
   .deallocateBuffer 1002,
   .deallocateBuffer 1001]

/-- The allocator after `balancedCalls`: no entry is left, and the page counts
`2^32 - 1` allocations. -/
def unbalancedPageState : DynamicGpuAllocatorState :=
  { init with
    devicePages := [⟨7, [⟨131072, 66977792⟩, ⟨0, 131072⟩], 67108864, 4294967295, 66977792⟩]
    totalNumAllocationsDevice := 5
    totalNumDeallocationsDevice := 5 }

/-! ## Definitions for the disjointness of the blocks of a page -/

/-- Blocks of positive size that lie within `[0, pageSize)` and pairwise do not
overlap (`blocksOverlap`, in exact arithmetic). -/
def Separated (pageSize : Nat) (blocks : List Block) : Prop :=
  (∀ b ∈ blocks, 0 < b.size ∧ b.offset + b.size ≤ pageSize) ∧
  blocks.Pairwise (fun a b => blocksOverlap a b = false)

/-- The requested size of a `pageAllocateItem` call is not zero. -/
def requestsPositive : PageCall → Bool
  | .allocate size _ => decide (0 < size)
  | .deallocate _ => true

/-! ## Lemmas about the list operations -/
theorem findFirstIdx_some {α : Type} (p : α → Bool) :
    ∀ (l : List α) (i : Nat), findFirstIdx p l = some i →
      ∃ l1 a l2, l = l1 ++ a :: l2 ∧ l1.length = i ∧ p a = true ∧ ∀ x ∈ l1, p x = false
  | [], i, h => by simp [findFirstIdx] at h
  | a :: as, i, h => by
    unfold findFirstIdx at h
    by_cases hp : p a = true
    · simp [hp] at h
      exact ⟨[], a, as, by simp, by simpa using h, hp, by simp⟩
    · simp [hp] at h
      obtain ⟨j, hj, rfl⟩ := h
      obtain ⟨l1, b, l2, rfl, hl, hb, hall⟩ := findFirstIdx_some p as j hj
      refine ⟨a :: l1, b, l2, by simp, by simp [hl], hb, ?_⟩
      intro x hx
      rcases List.mem_cons.mp hx with rfl | hx
      · simpa using hp
      · exact hall x hx

theorem findFirstIdx_none {α : Type} (p : α → Bool) :
    ∀ (l : List α), findFirstIdx p l = none → ∀ x ∈ l, p x = false
  | [], _, x, hx => by simp at hx
  | a :: as, h, x, hx => by
    unfold findFirstIdx at h
    by_cases hp : p a = true
    · simp [hp] at h
    · simp [hp] at h
      rcases List.mem_cons.mp hx with rfl | hx
      · simpa using hp
      · exact findFirstIdx_none p as h x hx

theorem getD_split {α : Type} (l1 : List α) (a : α) (l2 : List α) (d : α) :
    (l1 ++ a :: l2).getD l1.length d = a := by
  induction l1 with
  | nil => simp
  | cons x xs ih => simpa using ih

theorem set_split {α : Type} (l1 : List α) (a b : α) (l2 : List α) :
    (l1 ++ a :: l2).set l1.length b = l1 ++ b :: l2 := by
  induction l1 with
  | nil => simp
  | cons x xs ih => simp

theorem dynRemove_split {α : Type} (l1 : List α) (a : α) (l2 : List α) :
    dynRemove (l1 ++ a :: l2) l1.length = l1 ++ l2 := by
  simp [dynRemove]

theorem dynInsert_split {α : Type} (l1 l2 : List α) (v : α) :
    dynInsert (l1 ++ l2) l1.length v = l1 ++ v :: l2 := by
  simp [dynInsert]

theorem sumSizes_append (l1 l2 : List Block) :
    sumSizes (l1 ++ l2) = sumSizes l1 + sumSizes l2 := by
  simp [sumSizes]

theorem sumSizes_cons (b : Block) (l : List Block) :
    sumSizes (b :: l) = b.size + sumSizes l := by
  simp [sumSizes]

theorem foldl_max_size (l : List Block) (n : Nat) :
    l.foldl (fun acc block => max acc block.size) n = max n (largestFreeBlock l) := by
  unfold largestFreeBlock
  induction l generalizing n with
  | nil => simp
  | cons b bs ih =>
    simp only [List.foldl_cons]
    rw [ih, ih (max 0 b.size)]
    omega

theorem largestFreeBlock_cons (b : Block) (l : List Block) :
    largestFreeBlock (b :: l) = max b.size (largestFreeBlock l) := by
  show (b :: l).foldl (fun acc block => max acc block.size) 0 = _
  simp only [List.foldl_cons]
  rw [foldl_max_size]
  simp

theorem largestFreeBlock_append (l1 l2 : List Block) :
    largestFreeBlock (l1 ++ l2) = max (largestFreeBlock l1) (largestFreeBlock l2) := by
  show (l1 ++ l2).foldl (fun acc block => max acc block.size) 0 = _
  rw [List.foldl_append, foldl_max_size]
  rfl

theorem largestFreeBlock_nil : largestFreeBlock [] = 0 := rfl

/-! ## `calculateNewBlocks` -/

theorem roundUp_ge (allocSize alignment : Nat) : allocSize ≤ roundUp allocSize alignment := by
  unfold roundUp; split <;> omega

theorem roundUp_mod (allocSize alignment : Nat) (h : 0 < alignment) :
    roundUp allocSize alignment % alignment = 0 := by
  unfold roundUp
  split
  · have hlt := Nat.mod_lt allocSize h
    have hdm := Nat.div_add_mod allocSize alignment
    have : allocSize + (alignment - allocSize % alignment)
        = alignment * (allocSize / alignment + 1) := by
      rw [Nat.mul_add, Nat.mul_one]; omega
    rw [this]; exact Nat.mul_mod_right _ _
  · rename_i h0; simpa using h0

theorem roundUp_least (allocSize alignment m : Nat) (h : 0 < alignment)
    (hm : m % alignment = 0) (hle : allocSize ≤ m) : roundUp allocSize alignment ≤ m := by
  unfold roundUp
  split
  · rename_i h0
    have hlt := Nat.mod_lt allocSize h
    have hdm := Nat.div_add_mod allocSize alignment
    obtain ⟨k, rfl⟩ := Nat.dvd_of_mod_eq_zero hm
    have hk : allocSize / alignment < k := by
      by_contra hc
      have : alignment * k ≤ alignment * (allocSize / alignment) :=
        Nat.mul_le_mul_left _ (by omega)
      omega
    have : alignment * (allocSize / alignment + 1) ≤ alignment * k :=
      Nat.mul_le_mul_left _ (by omega)
    rw [Nat.mul_add, Nat.mul_one] at this
    omega
  · exact hle

theorem wrap32_of_lt (n : Nat) (h : n < 4294967296) : wrap32 n = n := by
  unfold wrap32; omega

theorem calculateNewBlocks_eq (oldFreeBlock : Block) (allocSize alignment : Nat)
    (h32 : roundUp allocSize alignment < 4294967296) :
    calculateNewBlocks oldFreeBlock allocSize alignment =
      (⟨oldFreeBlock.offset, roundUp allocSize alignment⟩,
        if roundUp allocSize alignment ≠ oldFreeBlock.size then
          some ⟨wrap32 (oldFreeBlock.offset + roundUp allocSize alignment),
                wrap32 (oldFreeBlock.size + 4294967296 - roundUp allocSize alignment)⟩
        else none) := by
  have hr : (if allocSize % alignment ≠ 0 then
        wrap32 (allocSize + (alignment - allocSize % alignment)) else allocSize)
      = roundUp allocSize alignment := by
    unfold roundUp at h32 ⊢
    split
    · rename_i h0; rw [if_pos h0] at h32; exact wrap32_of_lt _ h32
    · rfl
  unfold calculateNewBlocks
  simp only [hr]
  split <;> rfl

/-- Claim C10: for a free block whose offset is a multiple of the alignment and
whose size is a non-zero multiple of it, and a requested size whose least
multiple of the alignment `A` at or above it fits in the free block,
`calculateNewBlocks` returns the allocation block `(freeBlock.offset, A)`; it
reports a new free block exactly when `A < freeBlock.size`, and that block has
size `freeBlock.size - A` and offset `freeBlock.offset + A` (computed in 32
bits, which is the exact sum whenever the free block ends within the 32-bit
range). -/
theorem calculateNewBlocks_spec (freeBlock : Block) (requestedSize alignment A : Nat)
    (halign : 0 < alignment)
    (_hoff : freeBlock.offset % alignment = 0)
    (_hsize0 : freeBlock.size ≠ 0)
    (_hsize : freeBlock.size % alignment = 0)
    (h32 : freeBlock.size < 4294967296)
    (hA : A % alignment = 0)
    (hreq : requestedSize ≤ A)
    (hleast : ∀ m, m % alignment = 0 → requestedSize ≤ m → A ≤ m)
    (hfit : A ≤ freeBlock.size) :
    (calculateNewBlocks freeBlock requestedSize alignment).1 = ⟨freeBlock.offset, A⟩ ∧
    ((calculateNewBlocks freeBlock requestedSize alignment).2.isSome = true ↔
      A < freeBlock.size) ∧
    (∀ r, (calculateNewBlocks freeBlock requestedSize alignment).2 = some r →
      r.size = freeBlock.size - A ∧ r.offset = wrap32 (freeBlock.offset + A) ∧
      (freeBlock.offset + freeBlock.size ≤ 4294967296 → r.offset = freeBlock.offset + A)) := by
  have hAeq : roundUp requestedSize alignment = A :=
    Nat.le_antisymm (roundUp_least _ _ _ halign hA hreq)
      (hleast _ (roundUp_mod _ _ halign) (roundUp_ge _ _))
  rw [calculateNewBlocks_eq _ _ _ (by omega), hAeq]
  refine ⟨rfl, ?_, ?_⟩
  · by_cases h : A = freeBlock.size
    · simp [h]
    · simp [h]; omega
  · intro r hr
    by_cases h : A = freeBlock.size
    · simp [h] at hr
    · simp only [ne_eq, h, not_false_eq_true, if_true, Option.some.injEq] at hr
      subst hr
      refine ⟨?_, rfl, ?_⟩
      · show wrap32 _ = _
        unfold wrap32; omega
      · intro hb
        show wrap32 _ = _
        unfold wrap32; omega


/-! ## The page invariant is preserved by `pageAllocateItem` -/

theorem pageAllocateItem_cases (page : Page) (size : Nat) (f : Page → Block → Bool) :
    pageAllocateItem page size f = (page, none) ∨
    ∃ l1 a l2, page.freeBlocks = l1 ++ a :: l2 ∧ size ≤ a.size ∧ (∀ x ∈ l1, x.size < size) ∧
      f page (calculateNewBlocks a size BUFFER_ALIGNMENT).1 = true ∧
      pageAllocateItem page size f =
        ({ page with
            freeBlocks :=
              match (calculateNewBlocks a size BUFFER_ALIGNMENT).2 with
              | some newFreeBlock => l1 ++ newFreeBlock :: l2
              | none => l1 ++ l2
            largestFreeBlockSize := largestFreeBlock
              (match (calculateNewBlocks a size BUFFER_ALIGNMENT).2 with
              | some newFreeBlock => l1 ++ newFreeBlock :: l2
              | none => l1 ++ l2)
            numAllocations := wrap32 (page.numAllocations + 1) },
         some (calculateNewBlocks a size BUFFER_ALIGNMENT).1) := by
  unfold pageAllocateItem
  cases hfind : findFirstIdx (fun block => decide (block.size ≥ size)) page.freeBlocks with
  | none => left; rfl
  | some i =>
    obtain ⟨l1, a, l2, hl, hlen, ha, hall⟩ := findFirstIdx_some _ _ _ hfind
    subst hlen
    simp only [hl, getD_split]
    by_cases hf : f page (calculateNewBlocks a size BUFFER_ALIGNMENT).1 = false
    · left; simp [hf]
    · right
      refine ⟨l1, a, l2, rfl, by simpa using ha, ?_, by simpa using hf, ?_⟩
      · intro x hx; have := hall x hx; simpa using this
      · have hf1 : f page (calculateNewBlocks a size BUFFER_ALIGNMENT).1 = true := by
          simpa using hf
        rw [if_neg (by simp [hf1])]
        cases (calculateNewBlocks a size BUFFER_ALIGNMENT).2 with
        | none => simp only [dynRemove_split]
        | some nb => simp only [set_split]

theorem size_le_sumSizes (l : List Block) (b : Block) (h : b ∈ l) : b.size ≤ sumSizes l := by
  induction l with
  | nil => simp at h
  | cons x xs ih =>
    rw [sumSizes_cons]
    rcases List.mem_cons.mp h with rfl | h
    · omega
    · have := ih h; omega

theorem pageAllocateItem_inv (s : PageState) (size : Nat) (f : Page → Block → Bool)
    (s1 : PageState) (hinv : PageInv s) (h : pageCall s (.allocate size f) = some s1) :
    PageInv s1 := by
  simp only [pageCall] at h
  rcases pageAllocateItem_cases s.page size f with hn | ⟨l1, a, l2, hl, hsz, -, -, heq⟩
  · rw [hn] at h
    simp only [Option.some.injEq] at h
    subst h; exact hinv
  · rw [heq] at h
    simp only [Option.some.injEq] at h
    subst h
    have hamem : a ∈ s.page.freeBlocks := by rw [hl]; simp
    have haal := hinv.freeAligned a hamem
    have hale := size_le_sumSizes _ _ hamem
    have htot := hinv.total
    have hfits := hinv.fits
    have hRle : roundUp size BUFFER_ALIGNMENT ≤ a.size :=
      roundUp_least _ _ _ (by decide) haal hsz
    have hRmod : roundUp size BUFFER_ALIGNMENT % BUFFER_ALIGNMENT = 0 :=
      roundUp_mod _ _ (by decide)
    have hfa := hinv.freeAligned
    have ha32 : a.size < 4294967296 := by omega
    rw [hl] at hfa htot
    rw [calculateNewBlocks_eq _ _ _ (by omega)]
    simp only [sumSizes_append, sumSizes_cons] at htot
    by_cases hR : roundUp size BUFFER_ALIGNMENT = a.size
    · simp only [hR, ne_eq, not_true_eq_false, if_false]
      refine ⟨hfits, ?_, ?_, ?_, rfl⟩
      · intro b hb
        simp only [List.mem_append] at hb
        exact hfa b (by simp only [List.mem_append, List.mem_cons]; tauto)
      · intro b hb
        rcases List.mem_cons.mp hb with rfl | hb
        · exact haal
        · exact hinv.liveAligned b hb
      · simp only [sumSizes_append, sumSizes_cons]; omega
    · simp only [ne_eq, hR, not_false_eq_true, if_true]
      have hw : wrap32 (a.size + 4294967296 - roundUp size BUFFER_ALIGNMENT)
          = a.size - roundUp size BUFFER_ALIGNMENT := by unfold wrap32; omega
      refine ⟨hfits, ?_, ?_, ?_, rfl⟩
      · intro b hb
        simp only [List.mem_append, List.mem_cons] at hb
        rcases hb with hb | rfl | hb
        · exact hfa b (by simp only [List.mem_append, List.mem_cons]; tauto)
        · show wrap32 _ % _ = 0
          rw [hw]
          unfold BUFFER_ALIGNMENT at *; omega
        · exact hfa b (by simp only [List.mem_append, List.mem_cons]; tauto)
      · intro b hb
        rcases List.mem_cons.mp hb with rfl | hb
        · exact hRmod
        · exact hinv.liveAligned b hb
      · simp only [sumSizes_append, sumSizes_cons, hw]; omega


/-! ## The page invariant is preserved by `pageDeallocateBlock` -/

theorem findInsertLoc_some (offset : Nat) :
    ∀ (l : List Block) (i : Nat), findInsertLoc offset l = some i → 1 ≤ i ∧ i < l.length
  | [], i, h => by simp [findInsertLoc] at h
  | [_], i, h => by simp [findInsertLoc] at h
  | prev :: curr :: rest, i, h => by
    unfold findInsertLoc at h
    by_cases hc : prev.offset < offset ∧ offset < curr.offset
    · rw [if_pos hc] at h
      simp only [Option.some.injEq] at h
      subst h; simp
    · rw [if_neg hc] at h
      simp only [Option.map_eq_some'] at h
      obtain ⟨j, hj, rfl⟩ := h
      have := findInsertLoc_some offset (curr :: rest) j hj
      simp only [List.length_cons] at this ⊢
      omega

theorem mergeOrInsertBlock_cases (l : List Block) (b : Block) (l' : List Block) (idx : Nat)
    (h : mergeOrInsertBlock l b = some (l', idx)) :
    ∃ l1 nb l2, l' = l1 ++ nb :: l2 ∧ l1.length = idx ∧
      ((∃ a, l = l1 ++ a :: l2 ∧ wrap32 (a.offset + a.size) = b.offset ∧
          nb = ⟨a.offset, wrap32 (a.size + b.size)⟩) ∨
       (l = l1 ++ l2 ∧ nb = b)) := by
  unfold mergeOrInsertBlock at h
  cases hfind : findFirstIdx
      (fun freeBlock => decide (wrap32 (freeBlock.offset + freeBlock.size) = b.offset)) l with
  | some i =>
    rw [hfind] at h
    obtain ⟨l1, a, l2, hl, hlen, ha, -⟩ := findFirstIdx_some _ _ _ hfind
    subst hlen
    simp only [hl, getD_split, set_split, Option.some.injEq, Prod.mk.injEq] at h
    obtain ⟨rfl, rfl⟩ := h
    exact ⟨l1, _, l2, rfl, rfl, Or.inl ⟨a, hl, by simpa using ha, rfl⟩⟩
  | none =>
    rw [hfind] at h
    simp only at h
    by_cases hlen : l.length = 0
    · rw [if_pos hlen] at h
      simp only [Option.some.injEq, Prod.mk.injEq] at h
      obtain ⟨rfl, rfl⟩ := h
      have hnil : l = [] := List.length_eq_zero.mp hlen
      subst hnil
      exact ⟨[], b, [], rfl, rfl, Or.inr ⟨rfl, rfl⟩⟩
    · rw [if_neg hlen] at h
      have key : ∀ loc, loc ≤ l.length →
          ∃ l1 nb l2, dynInsert l loc b = l1 ++ nb :: l2 ∧ l1.length = loc ∧
            ((∃ a, l = l1 ++ a :: l2 ∧ wrap32 (a.offset + a.size) = b.offset ∧
                nb = ⟨a.offset, wrap32 (a.size + b.size)⟩) ∨
             (l = l1 ++ l2 ∧ nb = b)) := by
        intro loc hloc
        exact ⟨l.take loc, b, l.drop loc, rfl, by simp [hloc],
          Or.inr ⟨(List.take_append_drop loc l).symm, rfl⟩⟩
      by_cases h1 : b.offset < (l.headD default).offset
      · rw [if_pos h1] at h
        simp only [Option.some.injEq, Prod.mk.injEq] at h
        obtain ⟨rfl, rfl⟩ := h
        exact key 0 (Nat.zero_le _)
      · rw [if_neg h1] at h
        by_cases h2 : b.offset > (l.getLastD default).offset
        · rw [if_pos h2] at h
          simp only [Option.some.injEq, Prod.mk.injEq] at h
          obtain ⟨rfl, rfl⟩ := h
          exact key _ (Nat.sub_le _ _)
        · rw [if_neg h2] at h
          cases hloc : findInsertLoc b.offset l with
          | none => rw [hloc] at h; simp at h
          | some loc =>
            rw [hloc] at h
            simp only [Option.some.injEq, Prod.mk.injEq] at h
            obtain ⟨rfl, rfl⟩ := h
            exact key loc (by have := findInsertLoc_some _ _ _ hloc; omega)

theorem mergeWithNextBlock_split (l1 : List Block) (nb : Block) (l2 : List Block) :
    mergeWithNextBlock (l1 ++ nb :: l2) l1.length =
      match l2 with
      | [] => l1 ++ [nb]
      | c :: l3 =>
        if wrap32 (nb.offset + nb.size) = c.offset then
          l1 ++ ⟨nb.offset, wrap32 (nb.size + c.size)⟩ :: l3
        else l1 ++ nb :: c :: l3 := by
  unfold mergeWithNextBlock
  cases l2 with
  | nil => simp
  | cons c l3 =>
    have hlt : l1.length + 1 < (l1 ++ nb :: c :: l3).length := by simp
    have hnext : (l1 ++ nb :: c :: l3).getD (l1.length + 1) default = c := by
      have := getD_split (l1 ++ [nb]) c l3 default
      simpa using this
    rw [if_pos hlt]
    simp only [getD_split, hnext, set_split]
    split
    · have := dynRemove_split (l1 ++ [(⟨nb.offset, wrap32 (nb.size + c.size)⟩ : Block)]) c l3
      simpa using this
    · rfl

theorem getD_split_idx (l1 : List Block) (nb : Block) (l2 : List Block) (idx : Nat)
    (h : l1.length = idx) : (l1 ++ nb :: l2).getD idx default = nb := by
  subst h; exact getD_split _ _ _ _

theorem pageDeallocateBlock_inv (s : PageState) (b : Block)
    (s1 : PageState) (hinv : PageInv s) (h : pageCall s (.deallocate b) = some s1) :
    PageInv s1 := by
  simp only [pageCall] at h
  by_cases hb : b ∈ s.live
  · rw [if_pos hb] at h
    simp only [Option.map_eq_some'] at h
    obtain ⟨page, hpage, rfl⟩ := h
    unfold pageDeallocateBlock at hpage
    cases hm : mergeOrInsertBlock s.page.freeBlocks b with
    | none => rw [hm] at hpage; simp at hpage
    | some r =>
      obtain ⟨l', idx⟩ := r
      rw [hm] at hpage
      simp only [Option.some.injEq] at hpage
      subst hpage
      obtain ⟨l1, nb, l2, rfl, rfl, hcase⟩ := mergeOrInsertBlock_cases _ _ _ _ hm
      have hfits := hinv.fits
      have htot := hinv.total
      have hlarge := hinv.largest
      have hfa := hinv.freeAligned
      have hbal := hinv.liveAligned b hb
      have hlive : sumSizes s.live = b.size + sumSizes (s.live.erase b) := by
        have hperm := List.perm_cons_erase hb
        have := (hperm.map Block.size).sum_eq
        simpa [sumSizes] using this
      have hla : ∀ x ∈ s.live.erase b, x.size % BUFFER_ALIGNMENT = 0 :=
        fun x hx => hinv.liveAligned x (List.mem_of_mem_erase hx)
      -- facts about the block at `newFreeBlockIdx` after the first part
      have hnb : nb.size % BUFFER_ALIGNMENT = 0 ∧
          sumSizes l1 + nb.size + sumSizes l2 + sumSizes (s.live.erase b) = s.page.pageSize ∧
          max s.page.largestFreeBlockSize nb.size =
            max (largestFreeBlock l1) (max nb.size (largestFreeBlock l2)) ∧
          (∀ x ∈ l1, x.size % BUFFER_ALIGNMENT = 0) ∧
          (∀ x ∈ l2, x.size % BUFFER_ALIGNMENT = 0) := by
        rcases hcase with ⟨a, hl, -, rfl⟩ | ⟨hl, rfl⟩
        · rw [hl] at htot hlarge hfa
          simp only [sumSizes_append, sumSizes_cons] at htot
          simp only [largestFreeBlock_append, largestFreeBlock_cons] at hlarge
          have hw : wrap32 (a.size + b.size) = a.size + b.size := by unfold wrap32; omega
          have haal := hfa a (by simp)
          refine ⟨?_, ?_, ?_, fun x hx => hfa x (by simp [hx]), fun x hx => hfa x (by simp [hx])⟩
          · show wrap32 _ % _ = 0
            rw [hw]; unfold BUFFER_ALIGNMENT at *; omega
          · show _ + wrap32 _ + _ + _ = _
            rw [hw]; omega
          · show max _ (wrap32 _) = max _ (max (wrap32 _) _)
            rw [hw, hlarge]; omega
        · rw [hl] at htot hlarge hfa
          simp only [sumSizes_append] at htot
          simp only [largestFreeBlock_append] at hlarge
          refine ⟨hbal, by omega, by rw [hlarge]; omega,
            fun x hx => hfa x (by simp [hx]), fun x hx => hfa x (by simp [hx])⟩
      obtain ⟨hnbal, hsum, hmax, hal1, hal2⟩ := hnb
      rw [mergeWithNextBlock_split]
      cases l2 with
      | nil =>
        simp only [getD_split]
        refine ⟨hfits, ?_, hla, ?_, ?_⟩
        · intro x hx
          simp only [List.mem_append, List.mem_singleton] at hx
          rcases hx with hx | rfl
          · exact hal1 x hx
          · exact hnbal
        · simp only [sumSizes_append, sumSizes_cons] at hsum ⊢
          simp only [sumSizes, List.map_nil, List.sum_nil] at hsum ⊢
          omega
        · show max _ _ = _
          rw [hlarge] at hmax
          simp only [largestFreeBlock_append, largestFreeBlock_cons, largestFreeBlock_nil]
            at hmax ⊢
          rw [← hlarge] at hmax
          omega
      | cons c l3 =>
        simp only [sumSizes_cons, largestFreeBlock_cons] at hsum hmax
        have hcal := hal2 c (by simp)
        by_cases hadj : wrap32 (nb.offset + nb.size) = c.offset
        · simp only [hadj, if_true, getD_split]
          have hw : wrap32 (nb.size + c.size) = nb.size + c.size := by unfold wrap32; omega
          refine ⟨hfits, ?_, hla, ?_, ?_⟩
          · intro x hx
            simp only [List.mem_append, List.mem_cons] at hx
            rcases hx with hx | rfl | hx
            · exact hal1 x hx
            · show wrap32 _ % _ = 0
              rw [hw]; unfold BUFFER_ALIGNMENT at *; omega
            · exact hal2 x (by simp [hx])
          · simp only [sumSizes_append, sumSizes_cons, hw]; omega
          · show max _ (wrap32 _) = _
            simp only [largestFreeBlock_append, largestFreeBlock_cons, hw]
            omega
        · simp only [hadj, if_false, getD_split]
          refine ⟨hfits, ?_, hla, ?_, ?_⟩
          · intro x hx
            simp only [List.mem_append, List.mem_cons] at hx
            rcases hx with hx | rfl | rfl | hx
            · exact hal1 x hx
            · exact hnbal
            · exact hcal
            · exact hal2 x (by simp [hx])
          · simp only [sumSizes_append, sumSizes_cons]; omega
          · show max _ _ = _
            simp only [largestFreeBlock_append, largestFreeBlock_cons]
            omega
  · rw [if_neg hb] at h; simp at h


/-! ## Reachable page states -/

theorem createMemoryPage_inv (size heap : Nat) (page : Page) (hsize : validPageSize size)
    (hcreate : createMemoryPage size (some heap) = some page) :
    PageInv { page := page, live := [] } := by
  simp only [createMemoryPage, Option.some.injEq] at hcreate
  subst hcreate
  obtain ⟨-, hal, h32⟩ := hsize
  refine ⟨h32, ?_, ?_, ?_, ?_⟩
  · intro b hb
    simp only [List.mem_singleton] at hb
    subst hb; exact hal
  · intro b hb; simp at hb
  · simp [sumSizes]
  · simp [largestFreeBlock]

theorem pageCall_inv (s : PageState) (c : PageCall) (s1 : PageState) (hinv : PageInv s)
    (h : pageCall s c = some s1) : PageInv s1 := by
  cases c with
  | allocate size f => exact pageAllocateItem_inv s size f s1 hinv h
  | deallocate b => exact pageDeallocateBlock_inv s b s1 hinv h

theorem pageCalls_inv : ∀ (calls : List PageCall) (s s1 : PageState), PageInv s →
    pageCalls s calls = some s1 → PageInv s1
  | [], s, s1, hinv, h => by
    simp only [pageCalls, Option.some.injEq] at h
    subst h; exact hinv
  | c :: cs, s, s1, hinv, h => by
    simp only [pageCalls, Option.bind_eq_some] at h
    obtain ⟨s2, h2, h3⟩ := h
    exact pageCalls_inv cs s2 s1 (pageCall_inv s c s2 hinv h2) h3

theorem largestFreeBlock_ge (l : List Block) (b : Block) (h : b ∈ l) :
    b.size ≤ largestFreeBlock l := by
  induction l with
  | nil => simp at h
  | cons x xs ih =>
    rw [largestFreeBlock_cons]
    rcases List.mem_cons.mp h with rfl | h
    · omega
    · have := ih h; omega

theorem largestFreeBlock_attained (l : List Block) (h : l ≠ []) :
    ∃ b ∈ l, b.size = largestFreeBlock l := by
  induction l with
  | nil => exact absurd rfl h
  | cons x xs ih =>
    rw [largestFreeBlock_cons]
    by_cases hxs : xs = []
    · subst hxs
      exact ⟨x, by simp, by simp [largestFreeBlock_nil]⟩
    · obtain ⟨b, hb, hbs⟩ := ih hxs
      by_cases hle : largestFreeBlock xs ≤ x.size
      · exact ⟨x, by simp, by omega⟩
      · exact ⟨b, by simp [hb], by omega⟩

/-- Claim C3, amended: in every page state reached from a page created with a
size that is a non-zero multiple of the alignment (the assertions of
`createMemoryPage`) by `pageAllocateItem` and `pageDeallocateBlock` calls,
`largestFreeBlockSize` is the maximum of the sizes of the free blocks: it
bounds every free block, it is the size of some free block when there is one,
and it is 0 when the free list is empty. -/
theorem largestFreeBlockSize_exact (size heap : Nat) (page : Page) (calls : List PageCall)
    (s : PageState) (hsize : validPageSize size)
    (hcreate : createMemoryPage size (some heap) = some page)
    (hcalls : pageCalls { page := page, live := [] } calls = some s) :
    (∀ b ∈ s.page.freeBlocks, b.size ≤ s.page.largestFreeBlockSize) ∧
    (s.page.freeBlocks ≠ [] → ∃ b ∈ s.page.freeBlocks, b.size = s.page.largestFreeBlockSize) ∧
    (s.page.freeBlocks = [] → s.page.largestFreeBlockSize = 0) := by
  have hinv := pageCalls_inv calls _ s (createMemoryPage_inv size heap page hsize hcreate) hcalls
  rw [hinv.largest]
  refine ⟨fun b hb => largestFreeBlock_ge _ b hb, largestFreeBlock_attained _, ?_⟩
  intro h; rw [h]; rfl

theorem largestFreeBlockSize_exact_witness :
    (∀ b ∈ [(⟨65536, 131072⟩ : Block)], b.size ≤ 131072) ∧
    (([(⟨65536, 131072⟩ : Block)] ≠ []) → ∃ b ∈ [(⟨65536, 131072⟩ : Block)], b.size = 131072) ∧
    ([(⟨65536, 131072⟩ : Block)] = [] → 131072 = 0) :=
  largestFreeBlockSize_exact 196608 7 ⟨7, [⟨0, 196608⟩], 196608, 0, 196608⟩
    [.allocate 65536 okItem, .allocate 1 okItem, .deallocate ⟨65536, 65536⟩]
    ⟨⟨7, [⟨65536, 131072⟩], 196608, 1, 131072⟩, [⟨0, 65536⟩]⟩
    (by decide) rfl rfl

theorem pageCall_pageSize (s : PageState) (c : PageCall) (s1 : PageState)
    (h : pageCall s c = some s1) :
    s1.page.pageSize = s.page.pageSize ∧ s1.page.heap = s.page.heap := by
  cases c with
  | allocate size f =>
    simp only [pageCall] at h
    rcases pageAllocateItem_cases s.page size f with hn | ⟨l1, a, l2, -, -, -, -, heq⟩
    · rw [hn] at h
      simp only [Option.some.injEq] at h
      subst h; exact ⟨rfl, rfl⟩
    · rw [heq] at h
      simp only [Option.some.injEq] at h
      subst h; exact ⟨rfl, rfl⟩
  | deallocate b =>
    simp only [pageCall] at h
    by_cases hb : b ∈ s.live
    · rw [if_pos hb] at h
      simp only [Option.map_eq_some'] at h
      obtain ⟨page, hpage, rfl⟩ := h
      unfold pageDeallocateBlock at hpage
      cases hm : mergeOrInsertBlock s.page.freeBlocks b with
      | none => rw [hm] at hpage; simp at hpage
      | some r =>
        rw [hm] at hpage
        simp only [Option.some.injEq] at hpage
        subst hpage; exact ⟨rfl, rfl⟩
    · rw [if_neg hb] at h; simp at h

theorem pageCalls_pageSize : ∀ (calls : List PageCall) (s s1 : PageState),
    pageCalls s calls = some s1 → s1.page.pageSize = s.page.pageSize
  | [], s, s1, h => by
    simp only [pageCalls, Option.some.injEq] at h
    subst h; rfl
  | c :: cs, s, s1, h => by
    simp only [pageCalls, Option.bind_eq_some] at h
    obtain ⟨s2, h2, h3⟩ := h
    rw [pageCalls_pageSize cs s2 s1 h3, (pageCall_pageSize s c s2 h2).1]

/-- Claim C4: in every page state reached from `createMemoryPage` (page size a
multiple of the alignment) by `pageAllocateItem` and `pageDeallocateBlock`
calls, the sizes of the free blocks plus the sizes of the blocks returned by
`pageAllocateItem` and not yet deallocated add up to the page size. -/
theorem free_plus_allocated_eq_pageSize (size heap : Nat) (page : Page)
    (calls : List PageCall) (s : PageState) (hsize : validPageSize size)
    (hcreate : createMemoryPage size (some heap) = some page)
    (hcalls : pageCalls { page := page, live := [] } calls = some s) :
    s.page.pageSize = size ∧
    sumSizes s.page.freeBlocks + sumSizes s.live = s.page.pageSize := by
  have hinv := pageCalls_inv calls _ s (createMemoryPage_inv size heap page hsize hcreate) hcalls
  refine ⟨?_, hinv.total⟩
  rw [pageCalls_pageSize calls _ s hcalls]
  simp only [createMemoryPage, Option.some.injEq] at hcreate
  subst hcreate; rfl

theorem free_plus_allocated_eq_pageSize_witness :
    (196608 : Nat) = 196608 ∧
    sumSizes [(⟨0, 65536⟩ : Block), ⟨131072, 65536⟩] + sumSizes [(⟨65536, 65536⟩ : Block)]
      = 196608 :=
  free_plus_allocated_eq_pageSize 196608 7 ⟨7, [⟨0, 196608⟩], 196608, 0, 196608⟩
    [.allocate 65536 okItem, .allocate 1 okItem, .deallocate ⟨0, 65536⟩]
    ⟨⟨7, [⟨0, 65536⟩, ⟨131072, 65536⟩], 196608, 1, 65536⟩, [⟨65536, 65536⟩]⟩
    (by decide) rfl rfl

/-- Claim C5: on a page whose free list is the single block `(o, F)`, with `F`
a non-zero multiple of the alignment, `o` aligned and `0 < S ≤ F`,
`pageAllocateItem(S)` with successful resource creation followed by
`pageDeallocateBlock` on the returned block gives back the free list `[(o, F)]`
with `largestFreeBlockSize` and `numAllocations` as before the allocation: the
page is restored exactly. -/
theorem allocate_deallocate_roundtrip (page : Page) (o F S : Nat) (f : Page → Block → Bool)
    (hF0 : 0 < F) (hF : F % BUFFER_ALIGNMENT = 0) (_ho : o % BUFFER_ALIGNMENT = 0)
    (hS0 : 0 < S) (hSF : S ≤ F)
    (hF32 : F < 4294967296)
    (hn32 : page.numAllocations < 4294967296)
    (hfree : page.freeBlocks = [⟨o, F⟩])
    (hlargest : page.largestFreeBlockSize = largestFreeBlock page.freeBlocks)
    (hsucc : ∀ b, f page b = true) :
    ∃ page1 block page2,
      pageAllocateItem page S f = (page1, some block) ∧
      pageDeallocateBlock page1 block = some page2 ∧
      page2.freeBlocks = [⟨o, F⟩] ∧
      page2.largestFreeBlockSize = page.largestFreeBlockSize ∧
      page2.numAllocations = page.numAllocations ∧
      page2 = page := by
  have hRle : roundUp S BUFFER_ALIGNMENT ≤ F := roundUp_least _ _ _ (by decide) hF hSF
  have hRge := roundUp_ge S BUFFER_ALIGNMENT
  have hcalc := calculateNewBlocks_eq ⟨o, F⟩ S BUFFER_ALIGNMENT (by omega)
  have hlg : page.largestFreeBlockSize = F := by
    rw [hlargest, hfree]; simp [largestFreeBlock]
  have hnum : wrap32 (wrap32 (page.numAllocations + 1) + 4294967296 - 1)
      = page.numAllocations := by unfold wrap32; omega
  have hpage : page = ⟨page.heap, [⟨o, F⟩], page.pageSize, page.numAllocations, F⟩ := by
    cases page; simp_all
  have halloc : pageAllocateItem page S f =
      ({ page with
          freeBlocks :=
            match (calculateNewBlocks ⟨o, F⟩ S BUFFER_ALIGNMENT).2 with
            | some newFreeBlock => [newFreeBlock]
            | none => []
          largestFreeBlockSize := largestFreeBlock
            (match (calculateNewBlocks ⟨o, F⟩ S BUFFER_ALIGNMENT).2 with
            | some newFreeBlock => [newFreeBlock]
            | none => [])
          numAllocations := wrap32 (page.numAllocations + 1) },
       some (calculateNewBlocks ⟨o, F⟩ S BUFFER_ALIGNMENT).1) := by
    unfold pageAllocateItem
    simp only [hfree, findFirstIdx, ge_iff_le, hSF, decide_True, if_true, List.getD_cons_zero,
      hsucc, Bool.true_eq_false, if_false]
    cases (calculateNewBlocks ⟨o, F⟩ S BUFFER_ALIGNMENT).2 <;> rfl
  rw [halloc, hcalc]
  by_cases hR : roundUp S BUFFER_ALIGNMENT = F
  · refine ⟨_, _, page, rfl, ?_, hfree, rfl, rfl, rfl⟩
    simp only [hR, ne_eq, not_true_eq_false, if_false]
    unfold pageDeallocateBlock mergeOrInsertBlock
    simp only [findFirstIdx, List.length_nil, if_true, List.nil_append, mergeWithNextBlock,
      List.length_singleton, Nat.lt_irrefl, if_false, List.getD_cons_zero, hnum]
    rw [hpage]
    simp [largestFreeBlock]
  · refine ⟨_, _, page, rfl, ?_, hfree, rfl, rfl, rfl⟩
    simp only [ne_eq, hR, not_false_eq_true, if_true]
    have hw : wrap32 (F + 4294967296 - roundUp S BUFFER_ALIGNMENT)
        = F - roundUp S BUFFER_ALIGNMENT := by unfold wrap32; omega
    have hnb : ¬ wrap32 (wrap32 (o + roundUp S BUFFER_ALIGNMENT)
        + (F - roundUp S BUFFER_ALIGNMENT)) = o := by unfold wrap32; omega
    have hmerge : wrap32 (roundUp S BUFFER_ALIGNMENT + (F - roundUp S BUFFER_ALIGNMENT)) = F := by
      unfold wrap32; omega
    have hins : (if o < wrap32 (o + roundUp S BUFFER_ALIGNMENT) then some 0
        else if o > wrap32 (o + roundUp S BUFFER_ALIGNMENT) then some (1 - 1)
        else findInsertLoc o
          [⟨wrap32 (o + roundUp S BUFFER_ALIGNMENT), F - roundUp S BUFFER_ALIGNMENT⟩])
        = some 0 := by
      have hne : o ≠ wrap32 (o + roundUp S BUFFER_ALIGNMENT) := by unfold wrap32; omega
      split
      · rfl
      · rw [if_pos (by omega)]
    unfold pageDeallocateBlock mergeOrInsertBlock
    simp only [hw, findFirstIdx, hnb, decide_False, Bool.false_eq_true, if_false,
      Option.map_none', List.length_singleton, one_ne_zero, List.headD_cons, List.getLastD_cons,
      List.getLastD_nil, hins, dynInsert, List.take_zero, List.drop_zero, List.nil_append,
      mergeWithNextBlock, List.length_cons, List.length_nil, List.getD_cons_zero,
      List.getD_cons_succ, zero_add, Nat.lt_add_one, if_true, List.set_cons_zero, dynRemove,
      List.take_succ_cons, List.drop_succ_cons, hmerge, hnum, List.append_nil]
    rw [hpage]
    simp [largestFreeBlock]


/-! ## `allocateBuffer` when no page is large enough -/

theorem findFirstIdx_eq_none {α : Type} (p : α → Bool) :
    ∀ (l : List α), (∀ x ∈ l, p x = false) → findFirstIdx p l = none
  | [], _ => rfl
  | a :: as, h => by
    unfold findFirstIdx
    rw [if_neg (by simp [h a (by simp)])]
    rw [findFirstIdx_eq_none p as (fun x hx => h x (by simp [hx]))]
    rfl

theorem pageAllocateItem_single (page : Page) (o F S : Nat) (f : Page → Block → Bool)
    (hfree : page.freeBlocks = [⟨o, F⟩]) (hSF : S ≤ F)
    (hsucc : f page (calculateNewBlocks ⟨o, F⟩ S BUFFER_ALIGNMENT).1 = true) :
    pageAllocateItem page S f =
      ({ page with
          freeBlocks :=
            match (calculateNewBlocks ⟨o, F⟩ S BUFFER_ALIGNMENT).2 with
            | some newFreeBlock => [newFreeBlock]
            | none => []
          largestFreeBlockSize := largestFreeBlock
            (match (calculateNewBlocks ⟨o, F⟩ S BUFFER_ALIGNMENT).2 with
            | some newFreeBlock => [newFreeBlock]
            | none => [])
          numAllocations := wrap32 (page.numAllocations + 1) },
       some (calculateNewBlocks ⟨o, F⟩ S BUFFER_ALIGNMENT).1) := by
  unfold pageAllocateItem
  simp only [hfree, findFirstIdx, ge_iff_le, hSF, decide_True, if_true, List.getD_cons_zero,
    hsucc, Bool.true_eq_false, if_false]
  cases (calculateNewBlocks ⟨o, F⟩ S BUFFER_ALIGNMENT).2 <;> rfl

theorem hashGet_hashPut {β : Type} (m : List (Nat × β)) (key : Nat) (value : β) :
    hashGet (hashPut m key value) key = some value := by
  simp [hashGet, hashPut]

theorem getPages_setPages (state : DynamicGpuAllocatorState) (ptr : PagesPtr)
    (pages : List Page) : getPages (setPages state ptr pages) ptr = pages := by
  cases ptr <;> rfl

theorem calculateNewBlocks_fst_offset (oldFreeBlock : Block) (allocSize alignment : Nat) :
    (calculateNewBlocks oldFreeBlock allocSize alignment).1.offset = oldFreeBlock.offset := by
  unfold calculateNewBlocks
  simp only
  split <;> split <;> rfl

/-- Effect of `allocateBuffer` when no page of the pool is large enough: for
each of the two buffer pools and every size `S > 0` such that
no page of the pool has `pageSize >= S`, `allocateBuffer` with successful heap
and buffer creation appends exactly one page to the pool, of size
`max(default page size, S)` and owning the new heap, and returns a buffer whose
entry designates that heap and holds the block `calculateNewBlocks` carved from
the initial free block `(0, pageSize)` of the new page, which keeps the
remainder as its free list and counts one allocation. -/
theorem allocateBuffer_creates_page (state : DynamicGpuAllocatorState) (pages : PagesPtr)
    (S heap : Nat) (bufferCreate : Page → Block → Option Nat)
    (_hS : 0 < S)
    (hnone : ∀ p ∈ getPages state pages, ¬ p.pageSize ≥ S)
    (hcreate : ∀ p b, (bufferCreate p b).isSome = true) :
    ∃ state1 buffer page entry,
      allocateBuffer state (pagesMemoryType pages) S (some heap) bufferCreate
        = some (state1, some buffer) ∧
      getPages state1 pages = getPages state pages ++ [page] ∧
      page.pageSize = max (pagesDefaultSize pages) S ∧
      page.heap = heap ∧
      hashGet state1.bufferEntries buffer = some entry ∧
      entry.pages = pages ∧
      entry.heapPtr = heap ∧
      entry.block = (calculateNewBlocks ⟨0, max (pagesDefaultSize pages) S⟩ S BUFFER_ALIGNMENT).1 ∧
      entry.block.offset = 0 ∧
      page.freeBlocks =
        (match (calculateNewBlocks ⟨0, max (pagesDefaultSize pages) S⟩ S BUFFER_ALIGNMENT).2 with
          | some newFreeBlock => [newFreeBlock]
          | none => []) ∧
      page.numAllocations = 1 := by
  have hfind : findAppropriatePage (getPages state pages) S = none :=
    findFirstIdx_eq_none _ _ (fun x hx => by simpa using hnone x hx)
  have hmt : (match pagesMemoryType pages with
      | .ZG_MEMORY_TYPE_DEVICE => some (PagesPtr.devicePages, PAGE_SIZE_DEVICE)
      | .ZG_MEMORY_TYPE_UPLOAD => some (PagesPtr.uploadPages, PAGE_SIZE_UPLOAD)
      | .ZG_MEMORY_TYPE_OTHER => none) = some (pages, pagesDefaultSize pages) := by
    cases pages <;> rfl
  have halloc := pageAllocateItem_single
    { heap := heap
      freeBlocks := [{ offset := 0, size := max (pagesDefaultSize pages) S }]
      pageSize := max (pagesDefaultSize pages) S
      numAllocations := 0
      largestFreeBlockSize := max (pagesDefaultSize pages) S }
    0 (max (pagesDefaultSize pages) S) S
    (fun p b => (bufferCreate p b).isSome) rfl (le_max_right _ _) (hcreate _ _)
  obtain ⟨buffer, hbuf⟩ := Option.isSome_iff_exists.mp
    (hcreate
      { heap := heap
        freeBlocks := [{ offset := 0, size := max (pagesDefaultSize pages) S }]
        pageSize := max (pagesDefaultSize pages) S
        numAllocations := 0
        largestFreeBlockSize := max (pagesDefaultSize pages) S }
      (calculateNewBlocks ⟨0, max (pagesDefaultSize pages) S⟩ S BUFFER_ALIGNMENT).1)
  unfold allocateBuffer
  simp only [hmt, findOrCreatePage, hfind, createMemoryPage, getD_split, set_split]
  rw [halloc]
  simp only [hbuf]
  cases pages
  · refine ⟨_, buffer,
      { heap := heap
        freeBlocks :=
          match (calculateNewBlocks ⟨0, max (pagesDefaultSize .devicePages) S⟩ S BUFFER_ALIGNMENT).2 with
          | some newFreeBlock => [newFreeBlock]
          | none => []
        pageSize := max (pagesDefaultSize .devicePages) S
        numAllocations := 1
        largestFreeBlockSize := largestFreeBlock
          (match (calculateNewBlocks ⟨0, max (pagesDefaultSize .devicePages) S⟩ S BUFFER_ALIGNMENT).2 with
          | some newFreeBlock => [newFreeBlock]
          | none => []) },
      { block := (calculateNewBlocks ⟨0, max (pagesDefaultSize .devicePages) S⟩ S BUFFER_ALIGNMENT).1
        pages := .devicePages
        heapPtr := heap },
      rfl, rfl, rfl, rfl, hashGet_hashPut _ _ _, rfl, rfl, rfl,
      calculateNewBlocks_fst_offset _ _ _, rfl, rfl⟩
  · refine ⟨_, buffer,
      { heap := heap
        freeBlocks :=
          match (calculateNewBlocks ⟨0, max (pagesDefaultSize .uploadPages) S⟩ S BUFFER_ALIGNMENT).2 with
          | some newFreeBlock => [newFreeBlock]
          | none => []
        pageSize := max (pagesDefaultSize .uploadPages) S
        numAllocations := 1
        largestFreeBlockSize := largestFreeBlock
          (match (calculateNewBlocks ⟨0, max (pagesDefaultSize .uploadPages) S⟩ S BUFFER_ALIGNMENT).2 with
          | some newFreeBlock => [newFreeBlock]
          | none => []) },
      { block := (calculateNewBlocks ⟨0, max (pagesDefaultSize .uploadPages) S⟩ S BUFFER_ALIGNMENT).1
        pages := .uploadPages
        heapPtr := heap },
      rfl, rfl, rfl, rfl, hashGet_hashPut _ _ _, rfl, rfl, rfl,
      calculateNewBlocks_fst_offset _ _ _, rfl, rfl⟩

theorem allocateBuffer_creates_page_witness :
    ∃ state1 buffer page entry,
      allocateBuffer init .ZG_MEMORY_TYPE_UPLOAD 70000 (some 7) bufferAt
        = some (state1, some buffer) ∧
      getPages state1 .uploadPages = getPages init .uploadPages ++ [page] ∧
      page.pageSize = max PAGE_SIZE_UPLOAD 70000 ∧
      page.heap = 7 ∧
      hashGet state1.bufferEntries buffer = some entry ∧
      entry.pages = .uploadPages ∧
      entry.heapPtr = 7 ∧
      entry.block = (calculateNewBlocks ⟨0, max PAGE_SIZE_UPLOAD 70000⟩ 70000 BUFFER_ALIGNMENT).1 ∧
      entry.block.offset = 0 ∧
      page.freeBlocks =
        (match (calculateNewBlocks ⟨0, max PAGE_SIZE_UPLOAD 70000⟩ 70000 BUFFER_ALIGNMENT).2 with
          | some newFreeBlock => [newFreeBlock]
          | none => []) ∧
      page.numAllocations = 1 :=
  allocateBuffer_creates_page init .uploadPages 70000 7 bufferAt (by decide)
    (by intro p hp; simp [getPages, init] at hp) (by intro p b; rfl)

/-- Claim C8, evaluated at a failing input: the device pool holds one page of
64 MiB, so no page has `pageSize >= 67108865`. `allocateBuffer(DEVICE, 67108865)`
with successful heap and buffer creation appends one page of
`max(default, S) = 67108865` bytes, a size that breaks the assertion
`size % BUFFER_ALIGNMENT == 0` of `createMemoryPage`, and returns a buffer whose
block is `(0, 67174400)`: the block does not lie within the new page, and the
assertion `alignedAllocSize <= oldFreeBlock.size` of `calculateNewBlocks` is
broken. -/
theorem allocateBuffer_block_exceeds_new_page :
    (∀ p ∈ getPages fullDeviceState .devicePages, ¬ p.pageSize ≥ 67108865) ∧
    allocateBuffer fullDeviceState .ZG_MEMORY_TYPE_DEVICE 67108865 (some 8) bufferOfHeap
      = some (secondPageUnalignedState, some 5008) ∧
    secondPageUnalignedState.devicePages.map (fun p => p.pageSize) = [67108864, 67108865] ∧
    hashGet secondPageUnalignedState.bufferEntries 5008
      = some ⟨⟨0, 67174400⟩, .devicePages, 8⟩ ∧
    ¬ ((⟨0, 67174400⟩ : Block).offset + (⟨0, 67174400⟩ : Block).size ≤ 67108865) ∧
    ¬ validPageSize 67108865 ∧
    alignedSizeAsserts ⟨0, 67108865⟩ 67108865 BUFFER_ALIGNMENT = false :=
  ⟨by decide, rfl, rfl, rfl, by decide, by decide, rfl⟩

theorem calculateNewBlocks_spec_witness :
    (calculateNewBlocks ⟨65536, 196608⟩ 70000 65536).1 = ⟨65536, 131072⟩ ∧
    ((calculateNewBlocks ⟨65536, 196608⟩ 70000 65536).2.isSome = true ↔ 131072 < 196608) ∧
    (∀ r, (calculateNewBlocks ⟨65536, 196608⟩ 70000 65536).2 = some r →
      r.size = 196608 - 131072 ∧ r.offset = wrap32 (65536 + 131072) ∧
      (65536 + 196608 ≤ 4294967296 → r.offset = 65536 + 131072)) :=
  calculateNewBlocks_spec ⟨65536, 196608⟩ 70000 65536 131072 (by decide) (by decide)
    (by decide) (by decide) (by decide) (by decide) (by decide)
    (by intro m hm hle; omega) (by decide)

theorem allocate_deallocate_roundtrip_witness :
    ∃ page1 block page2,
      pageAllocateItem ⟨7, [⟨65536, 131072⟩], 196608, 1, 131072⟩ 70000 okItem
        = (page1, some block) ∧
      pageDeallocateBlock page1 block = some page2 ∧
      page2.freeBlocks = [⟨65536, 131072⟩] ∧
      page2.largestFreeBlockSize = 131072 ∧
      page2.numAllocations = 1 ∧
      page2 = ⟨7, [⟨65536, 131072⟩], 196608, 1, 131072⟩ :=
  allocate_deallocate_roundtrip ⟨7, [⟨65536, 131072⟩], 196608, 1, 131072⟩ 65536 131072 70000
    okItem (by decide) (by decide) (by decide) (by decide) (by decide) (by decide) (by decide)
    rfl rfl (fun _ => rfl)

/-! ## Behaviour of the insertion branch of `pageDeallocateBlock`

When the deallocated block starts after the last free block and no free block
ends at its start, the source sets `insertLoc = freeBlocks.size() - 1`, so the
block is inserted before the last free block instead of after it. -/

/-- Claim C1, evaluated at a failing input: on a page of three alignment units,
three blocks of one unit are allocated and the first and the third are
deallocated. The second deallocation inserts `(131072, 65536)` before the free
block `(0, 65536)`: the free list is not sorted by offset. -/
theorem pageDeallocateBlock_breaks_sorting :
    validPageSize 196608 ∧
    createMemoryPage 196608 (some 7) = some freshPage ∧
    pageCalls { page := freshPage, live := [] }
        [.allocate 65536 okItem, .allocate 65536 okItem, .allocate 65536 okItem,
         .deallocate ⟨0, 65536⟩, .deallocate ⟨131072, 65536⟩]
      = some { page := ⟨7, [⟨131072, 65536⟩, ⟨0, 65536⟩], 196608, 1, 65536⟩,
               live := [⟨65536, 65536⟩] } ∧
    sortedByOffset [⟨131072, 65536⟩, ⟨0, 65536⟩] = false :=
  ⟨by decide, rfl, rfl, rfl⟩

/-- Claim C2, evaluated at a failing input: on a page of three alignment units,
three blocks of one unit are allocated and deallocated in the order first,
third, second. The last deallocation merges `(65536, 65536)` into `(0, 65536)`,
which is the last element of the list `[(131072, 65536), (0, 65536)]`, so no
following free block is looked at: the free blocks `(0, 131072)` and
`(131072, 65536)` touch and stay unmerged. -/
theorem pageDeallocateBlock_leaves_touching_blocks :
    pageCalls { page := freshPage, live := [] }
        [.allocate 65536 okItem, .allocate 65536 okItem, .allocate 65536 okItem,
         .deallocate ⟨0, 65536⟩, .deallocate ⟨131072, 65536⟩, .deallocate ⟨65536, 65536⟩]
      = some { page := ⟨7, [⟨131072, 65536⟩, ⟨0, 131072⟩], 196608, 0, 131072⟩, live := [] } ∧
    hasTouchingBlocks [⟨131072, 65536⟩, ⟨0, 131072⟩] = true ∧
    (⟨0, 131072⟩ : Block).offset + (⟨0, 131072⟩ : Block).size
      = (⟨131072, 65536⟩ : Block).offset :=
  ⟨rfl, rfl, rfl⟩

/-- Claim C6, evaluated at a failing input: the free list is `[0, 65536)` and
the live blocks are `X = [65536, 131072)` and `Y = [131072, 196608)`.
Deallocating `X` then `Y` leaves the single free block `[0, 196608)`, but
deallocating `Y` then `X` leaves the two free blocks `(131072, 65536)` and
`(0, 131072)`. -/
theorem deallocate_order_changes_free_list :
    ((pageDeallocateBlock ⟨7, [⟨0, 65536⟩], 196608, 2, 65536⟩ ⟨65536, 65536⟩).bind
        (fun page => pageDeallocateBlock page ⟨131072, 65536⟩)
      = some ⟨7, [⟨0, 196608⟩], 196608, 0, 196608⟩) ∧
    ((pageDeallocateBlock ⟨7, [⟨0, 65536⟩], 196608, 2, 65536⟩ ⟨131072, 65536⟩).bind
        (fun page => pageDeallocateBlock page ⟨65536, 65536⟩)
      = some ⟨7, [⟨131072, 65536⟩, ⟨0, 131072⟩], 196608, 0, 131072⟩) :=
  ⟨rfl, rfl⟩

/-- Claim C7, evaluated at a failing input: three buffers that fill one device
page are allocated, then the first and the third are deallocated. The second
buffer is then the only live allocation of the page, and deallocating it leaves
the page in the pool with two free blocks and no allocation. -/
theorem deallocate_last_allocation_keeps_page :
    allocatorCalls init
        [.allocateBuffer .ZG_MEMORY_TYPE_DEVICE 65536 (some 7) bufferAt,
         .allocateBuffer .ZG_MEMORY_TYPE_DEVICE 65536 (some 8) bufferAt,
         .allocateBuffer .ZG_MEMORY_TYPE_DEVICE 66977792 (some 9) bufferAt,
         .deallocateBuffer 1000,
         .deallocateBuffer 1002]
      = some oneLiveBufferState ∧
    oneLiveBufferState.devicePages
      = [⟨7, [⟨131072, 66977792⟩, ⟨0, 65536⟩], 67108864, 1, 66977792⟩] ∧
    oneLiveBufferState.bufferEntries = [(1001, ⟨⟨65536, 65536⟩, .devicePages, 7⟩)] ∧
    (deallocateBuffer oneLiveBufferState 1001).map (fun state => state.devicePages)
      = some [⟨7, [⟨131072, 66977792⟩, ⟨0, 131072⟩], 67108864, 0, 66977792⟩] :=
  ⟨rfl, rfl, rfl, rfl⟩

/-! ## Page selection by `findAppropriatePage` -/

/-- Claim C9, evaluated at a failing input: after one buffer of 64 MiB the device
pool holds one page without free blocks (largest free block 0). A request of
65536 bytes is routed to that page because its `pageSize` is large enough;
`pageAllocateItem` finds no block, and `allocateBuffer` returns the empty buffer
without creating a page, although heap and buffer creation would succeed. -/
theorem allocateBuffer_fails_on_full_page :
    allocateBuffer init .ZG_MEMORY_TYPE_DEVICE 67108864 (some 7) bufferAt
      = some (fullDeviceState, some 1000) ∧
    (∀ page ∈ fullDeviceState.devicePages, page.largestFreeBlockSize < 65536) ∧
    findAppropriatePage fullDeviceState.devicePages 65536 = some 0 ∧
    allocateBuffer fullDeviceState .ZG_MEMORY_TYPE_DEVICE 65536 (some 8) bufferAt
      = some (fullDeviceState, none) :=
  ⟨rfl, by decide, rfl, rfl⟩

/-! ## Pages of unaligned size

`createMemoryPage` asserts that the page size is a multiple of the alignment;
`allocateBuffer` passes `max(default page size, sizeBytes)`. On a page whose size
is not a multiple of the alignment the subtraction in `calculateNewBlocks` wraps
around. -/

/-- Claim C3 as stated, at a counterexample: on a page of 64 MiB + 1 bytes an
allocation of the whole page is rounded up to 67174400 bytes and leaves a free
block of 4294901761 bytes (the wrapped difference); after the block is
deallocated the free list is `[(0, 67108865)]` while the cached largest free
block is still 4294901761, the size of no free block. -/
theorem largestFreeBlockSize_stale_on_unaligned_page :
    createMemoryPage 67108865 (some 7) = some ⟨7, [⟨0, 67108865⟩], 67108865, 0, 67108865⟩ ∧
    pageCalls { page := ⟨7, [⟨0, 67108865⟩], 67108865, 0, 67108865⟩, live := [] }
        [.allocate 67108865 okItem, .deallocate ⟨0, 67174400⟩]
      = some { page := ⟨7, [⟨0, 67108865⟩], 67108865, 0, 4294901761⟩, live := [] } ∧
    ¬ (∃ b ∈ [(⟨0, 67108865⟩ : Block)], b.size = 4294901761) ∧
    (4294901761 : Nat) ≠ largestFreeBlock [⟨0, 67108865⟩] :=
  ⟨rfl, rfl, by decide, by decide⟩

/-! ## `pageAllocateItem`: first fit and failure of the callback -/

theorem findFirstIdx_split {α : Type} (p : α → Bool) (a : α) (l2 : List α) :
    ∀ (l1 : List α), (∀ x ∈ l1, p x = false) → p a = true →
      findFirstIdx p (l1 ++ a :: l2) = some l1.length
  | [], _, ha => by simp [findFirstIdx, ha]
  | x :: xs, h, ha => by
    have hx : p x = false := h x (by simp)
    have ih := findFirstIdx_split p a l2 xs (fun y hy => h y (by simp [hy])) ha
    simp [findFirstIdx, hx, ih]

/-- Claim C11: `pageAllocateItem` is first-fit. When `a` is the first free block
in list order with `a.size >= S` (every block before it is smaller than `S`) and
the resource creation succeeds, the call succeeds, the returned block starts at
`a.offset` (it is the allocation block `calculateNewBlocks` computes from `a`),
and in the free list `a` is replaced in place by the remainder if there is one
and removed otherwise; the other free blocks keep their values and order. -/
theorem pageAllocateItem_first_fit (page : Page) (S : Nat) (f : Page → Block → Bool)
    (l1 l2 : List Block) (a : Block)
    (hfree : page.freeBlocks = l1 ++ a :: l2)
    (hbefore : ∀ x ∈ l1, x.size < S)
    (hfit : a.size ≥ S)
    (hsucc : ∀ block, f page block = true) :
    ∃ page1 block,
      pageAllocateItem page S f = (page1, some block) ∧
      block = (calculateNewBlocks a S BUFFER_ALIGNMENT).1 ∧
      block.offset = a.offset ∧
      page1.freeBlocks =
        (match (calculateNewBlocks a S BUFFER_ALIGNMENT).2 with
          | some newFreeBlock => l1 ++ newFreeBlock :: l2
          | none => l1 ++ l2) := by
  have hidx : findFirstIdx (fun block => decide (block.size ≥ S)) page.freeBlocks
      = some l1.length := by
    rw [hfree]
    apply findFirstIdx_split
    · intro x hx
      have := hbefore x hx
      simp only [ge_iff_le, decide_eq_false_iff_not, not_le]
      exact this
    · simpa using hfit
  have heq : pageAllocateItem page S f =
      ({ page with
          freeBlocks :=
            match (calculateNewBlocks a S BUFFER_ALIGNMENT).2 with
            | some newFreeBlock => l1 ++ newFreeBlock :: l2
            | none => l1 ++ l2
          largestFreeBlockSize := largestFreeBlock
            (match (calculateNewBlocks a S BUFFER_ALIGNMENT).2 with
            | some newFreeBlock => l1 ++ newFreeBlock :: l2
            | none => l1 ++ l2)
          numAllocations := wrap32 (page.numAllocations + 1) },
       some (calculateNewBlocks a S BUFFER_ALIGNMENT).1) := by
    unfold pageAllocateItem
    rw [hfree] at hidx
    simp only [hfree, hidx, getD_split, hsucc, Bool.true_eq_false, if_false]
    cases (calculateNewBlocks a S BUFFER_ALIGNMENT).2 with
    | none => simp only [dynRemove_split]
    | some nb => simp only [set_split]
  exact ⟨_, _, heq, rfl, calculateNewBlocks_fst_offset _ _ _, rfl⟩

theorem pageAllocateItem_first_fit_witness :
    ∃ page1 block,
      pageAllocateItem ⟨7, [⟨0, 65536⟩, ⟨131072, 131072⟩, ⟨327680, 65536⟩], 393216, 2, 131072⟩
        70000 okItem = (page1, some block) ∧
      block = (calculateNewBlocks ⟨131072, 131072⟩ 70000 BUFFER_ALIGNMENT).1 ∧
      block.offset = (⟨131072, 131072⟩ : Block).offset ∧
      page1.freeBlocks =
        (match (calculateNewBlocks ⟨131072, 131072⟩ 70000 BUFFER_ALIGNMENT).2 with
          | some newFreeBlock => [⟨0, 65536⟩] ++ newFreeBlock :: [⟨327680, 65536⟩]
          | none => [⟨0, 65536⟩] ++ [⟨327680, 65536⟩]) :=
  pageAllocateItem_first_fit
    ⟨7, [⟨0, 65536⟩, ⟨131072, 131072⟩, ⟨327680, 65536⟩], 393216, 2, 131072⟩ 70000 okItem
    [⟨0, 65536⟩] [⟨327680, 65536⟩] ⟨131072, 131072⟩ rfl (by decide) (by decide) (fun _ => rfl)

/-- Claim C12: when the resource-creation callback fails, `pageAllocateItem`
returns failure and the page it returns is the page it was given: `freeBlocks`,
`largestFreeBlockSize` and `numAllocations` are unchanged. -/
theorem pageAllocateItem_callback_fails (page : Page) (size : Nat)
    (f : Page → Block → Bool) (hfail : ∀ block, f page block = false) :
    pageAllocateItem page size f = (page, none) ∧
    (pageAllocateItem page size f).1.freeBlocks = page.freeBlocks ∧
    (pageAllocateItem page size f).1.largestFreeBlockSize = page.largestFreeBlockSize ∧
    (pageAllocateItem page size f).1.numAllocations = page.numAllocations := by
  have h : pageAllocateItem page size f = (page, none) := by
    rcases pageAllocateItem_cases page size f with h | ⟨l1, a, l2, -, -, -, hf, -⟩
    · exact h
    · rw [hfail] at hf; exact absurd hf (by decide)
  rw [h]
  exact ⟨rfl, rfl, rfl, rfl⟩

theorem pageAllocateItem_callback_fails_witness :
    pageAllocateItem freshPage 70000 (fun _ _ => false) = (freshPage, none) ∧
    (pageAllocateItem freshPage 70000 (fun _ _ => false)).1.freeBlocks
      = freshPage.freeBlocks ∧
    (pageAllocateItem freshPage 70000 (fun _ _ => false)).1.largestFreeBlockSize
      = freshPage.largestFreeBlockSize ∧
    (pageAllocateItem freshPage 70000 (fun _ _ => false)).1.numAllocations
      = freshPage.numAllocations :=
  pageAllocateItem_callback_fails freshPage 70000 (fun _ _ => false) (fun _ => rfl)

/-! ## `destroy` -/

/-- Claim C19: the precondition check of `destroy` (the conjunction of its
assertions) passes exactly when both entry maps are empty, the allocation and
deallocation counters of each memory class are equal and every page of every
pool has `numAllocations == 0`; it fails as soon as one of these does not
hold. -/
theorem destroyAsserts_iff (state : DynamicGpuAllocatorState) :
    destroyAsserts state = true ↔
      (state.bufferEntries = [] ∧ state.textureEntries = [] ∧
       state.totalNumAllocationsDevice = state.totalNumDeallocationsDevice ∧
       state.totalNumAllocationsUpload = state.totalNumDeallocationsUpload ∧
       state.totalNumAllocationsTexture = state.totalNumDeallocationsTexture ∧
       (∀ page ∈ state.devicePages, page.numAllocations = 0) ∧
       (∀ page ∈ state.uploadPages, page.numAllocations = 0) ∧
       (∀ page ∈ state.texturePages, page.numAllocations = 0)) := by
  unfold destroyAsserts
  simp only [Bool.and_eq_true, beq_iff_eq, List.length_eq_zero, List.all_eq_true]
  tauto

/-! ## Failed allocations -/

theorem pageAllocateItem_none_fst (page : Page) (size : Nat) (f : Page → Block → Bool)
    (h : (pageAllocateItem page size f).2 = none) : (pageAllocateItem page size f).1 = page := by
  rcases pageAllocateItem_cases page size f with hn | ⟨l1, a, l2, -, -, -, -, heq⟩
  · rw [hn]
  · rw [heq] at h; simp at h

theorem pageAllocateItem_some_callback (page : Page) (size : Nat) (f : Page → Block → Bool)
    (block : Block) (h : (pageAllocateItem page size f).2 = some block) :
    f page block = true := by
  rcases pageAllocateItem_cases page size f with hn | ⟨l1, a, l2, -, -, -, hf, heq⟩
  · rw [hn] at h; simp at h
  · rw [heq] at h
    simp only [Option.some.injEq] at h
    rw [← h]; exact hf

theorem set_getD_self {α : Type} (d : α) : ∀ (l : List α) (i : Nat), l.set i (l.getD i d) = l
  | [], _ => rfl
  | _ :: _, 0 => rfl
  | x :: xs, i + 1 => by
    simp only [List.set_cons_succ, List.getD_cons_succ, set_getD_self d xs i]

theorem setPages_getPages (state : DynamicGpuAllocatorState) (ptr : PagesPtr) :
    setPages state ptr (getPages state ptr) = state := by
  cases ptr <;> rfl

theorem pagesMemoryType_match (pages : PagesPtr) :
    (match pagesMemoryType pages with
      | .ZG_MEMORY_TYPE_DEVICE => some (PagesPtr.devicePages, PAGE_SIZE_DEVICE)
      | .ZG_MEMORY_TYPE_UPLOAD => some (PagesPtr.uploadPages, PAGE_SIZE_UPLOAD)
      | .ZG_MEMORY_TYPE_OTHER => none) = some (pages, pagesDefaultSize pages) := by
  cases pages <;> rfl

/-- The state after an `allocateBuffer` call that returns the empty buffer:
unchanged, or extended by the page just created. -/
theorem allocateBuffer_failure_cases (state state1 : DynamicGpuAllocatorState)
    (pages : PagesPtr) (S : Nat) (heapCreate : Option Nat)
    (bufferCreate : Page → Block → Option Nat)
    (h : allocateBuffer state (pagesMemoryType pages) S heapCreate bufferCreate
      = some (state1, none)) :
    state1.bufferEntries = state.bufferEntries ∧
    state1.textureEntries = state.textureEntries ∧
    state1.totalNumAllocationsDevice = state.totalNumAllocationsDevice ∧
    state1.totalNumAllocationsUpload = state.totalNumAllocationsUpload ∧
    state1.totalNumAllocationsTexture = state.totalNumAllocationsTexture ∧
    state1.totalNumDeallocationsDevice = state.totalNumDeallocationsDevice ∧
    state1.totalNumDeallocationsUpload = state.totalNumDeallocationsUpload ∧
    state1.totalNumDeallocationsTexture = state.totalNumDeallocationsTexture ∧
    (heapCreate = none → state1 = state) ∧
    ((findAppropriatePage (getPages state pages) S).isSome = true → state1 = state) ∧
    (state1 = state ∨
      ∃ heap page, heapCreate = some heap ∧
        findAppropriatePage (getPages state pages) S = none ∧
        createMemoryPage (max (pagesDefaultSize pages) S) (some heap) = some page ∧
        state1 = setPages state pages (getPages state pages ++ [page])) := by
  have tail : ∀ pool pageIdx,
      findOrCreatePage (getPages state pages) S (pagesDefaultSize pages) heapCreate
        = some (pool, pageIdx) → state1 = setPages state pages pool := by
    intro pool pageIdx hfc
    unfold allocateBuffer at h
    simp only [pagesMemoryType_match, hfc] at h
    cases hr : (pageAllocateItem (pool.getD pageIdx default) S
        (fun p b => (bufferCreate p b).isSome)).2 with
    | none =>
      rw [hr] at h
      simp only [Option.some.injEq, Prod.mk.injEq, and_true] at h
      rw [← h, pageAllocateItem_none_fst _ _ _ hr, set_getD_self]
    | some b =>
      rw [hr] at h
      have hcb := pageAllocateItem_some_callback _ _ _ b hr
      simp only at hcb
      obtain ⟨buffer, hbuf⟩ := Option.isSome_iff_exists.mp hcb
      simp only [hbuf] at h
      cases pages <;> simp at h
  have hnofc : findOrCreatePage (getPages state pages) S (pagesDefaultSize pages) heapCreate
      = none → state1 = state := by
    intro hfc
    unfold allocateBuffer at h
    simp only [pagesMemoryType_match, hfc, Option.some.injEq, Prod.mk.injEq, and_true] at h
    exact h.symm
  have key : (state1 = state ∧ (heapCreate = none → state1 = state) ∧
        ((findAppropriatePage (getPages state pages) S).isSome = true → state1 = state)) ∨
      ((heapCreate = none → state1 = state) ∧
        ((findAppropriatePage (getPages state pages) S).isSome = true → state1 = state) ∧
        ∃ heap page, heapCreate = some heap ∧
        findAppropriatePage (getPages state pages) S = none ∧
        createMemoryPage (max (pagesDefaultSize pages) S) (some heap) = some page ∧
        state1 = setPages state pages (getPages state pages ++ [page])) := by
    cases hfind : findAppropriatePage (getPages state pages) S with
    | some idx =>
      have := tail (getPages state pages) idx (by simp [findOrCreatePage, hfind])
      rw [setPages_getPages] at this
      exact Or.inl ⟨this, fun _ => this, fun _ => this⟩
    | none =>
      cases hheap : heapCreate with
      | none =>
        have := hnofc (by simp [findOrCreatePage, hfind, hheap, createMemoryPage])
        exact Or.inl ⟨this, fun _ => this, fun _ => this⟩
      | some heap =>
        have hfc : findOrCreatePage (getPages state pages) S (pagesDefaultSize pages) heapCreate
            = some (getPages state pages ++
                [{ heap := heap
                   freeBlocks := [{ offset := 0, size := max (pagesDefaultSize pages) S }]
                   pageSize := max (pagesDefaultSize pages) S
                   numAllocations := 0
                   largestFreeBlockSize := max (pagesDefaultSize pages) S }],
              (getPages state pages).length) := by
          simp only [findOrCreatePage, hfind, hheap, createMemoryPage]
        have := tail _ _ hfc
        exact Or.inr ⟨fun hc => by simp at hc, fun hc => by simp at hc,
          heap, _, rfl, rfl, rfl, this⟩
  rcases key with ⟨h1, h2, h3⟩ | ⟨h2, h3, heap, page, hh, hf, hc, h1⟩
  · subst h1
    exact ⟨rfl, rfl, rfl, rfl, rfl, rfl, rfl, rfl, h2, h3, Or.inl rfl⟩
  · refine ⟨?_, ?_, ?_, ?_, ?_, ?_, ?_, ?_, h2, h3, Or.inr ⟨heap, page, hh, hf, hc, h1⟩⟩ <;>
      (rw [h1]; cases pages <;> rfl)

/-- Claim C14 as stated, at a counterexample: `deallocate` of a buffer or
texture that has no entry returns normally (the early `return` after the debug
assertion); no error is reported. -/
theorem deallocate_without_entry_returns :
    hashGet init.bufferEntries 5 = none ∧
    hashGet init.textureEntries 5 = none ∧
    deallocateBuffer init 5 ≠ none ∧
    deallocateTexture2D init 5 ≠ none ∧
    deallocateBuffer init 5 = some init ∧
    deallocateTexture2D init 5 = some init :=
  ⟨rfl, rfl, by decide, by decide, rfl, rfl⟩

/-- Claim C14, amended: for a handle that has no entry in the index, the debug
assertion `entryPtr != nullptr` of `deallocate` does not hold, and with the
assertion compiled out `deallocate` returns at once without reporting an error;
pools, entry maps and counters are unchanged (the state after the call is the
state before it). This holds for buffers and for textures. -/
theorem deallocate_without_entry (state : DynamicGpuAllocatorState) (buffer texture : Nat)
    (hbuffer : hashGet state.bufferEntries buffer = none)
    (htexture : hashGet state.textureEntries texture = none) :
    deallocateBufferAssertsEntry state buffer = false ∧
    deallocateBuffer state buffer = some state ∧
    deallocateTexture2DAssertsEntry state texture = false ∧
    deallocateTexture2D state texture = some state := by
  refine ⟨?_, ?_, ?_, ?_⟩
  · simp [deallocateBufferAssertsEntry, hbuffer]
  · simp [deallocateBuffer, hbuffer]
  · simp [deallocateTexture2DAssertsEntry, htexture]
  · simp [deallocateTexture2D, htexture]

theorem deallocate_without_entry_witness :
    deallocateBufferAssertsEntry fullDeviceState 1001 = false ∧
    deallocateBuffer fullDeviceState 1001 = some fullDeviceState ∧
    deallocateTexture2DAssertsEntry fullDeviceState 1000 = false ∧
    deallocateTexture2D fullDeviceState 1000 = some fullDeviceState :=
  deallocate_without_entry fullDeviceState 1001 1000 rfl rfl

/-! ## Alignment of the blocks -/

/-- Claim C16, evaluated at a failing input: a first request of 64 MiB + 1 bytes
from device memory creates a page of 67108865 bytes; the allocation is rounded
up to 67174400 bytes and the remaining free block gets the wrapped size
4294901761, which is not a multiple of 65536. -/
theorem allocateBuffer_unaligned_free_block :
    allocateBuffer init .ZG_MEMORY_TYPE_DEVICE 67108865 (some 7) bufferAt
      = some (unalignedDeviceState, some 1000) ∧
    unalignedDeviceState.devicePages
      = [⟨7, [⟨67174400, 4294901761⟩], 67108865, 1, 4294901761⟩] ∧
    (⟨67174400, 4294901761⟩ : Block).size % 65536 = 1 ∧
    ¬ (∀ page ∈ unalignedDeviceState.devicePages, ∀ block ∈ page.freeBlocks,
        block.offset % 65536 = 0 ∧ block.size % 65536 = 0) :=
  ⟨rfl, rfl, rfl, by decide⟩

/-! ## `pageDeallocateBlock` against sorted insertion with coalescing -/

/-- Claim C17, evaluated at a failing input: the free list `[(0, 65536)]` of a
page of 196608 bytes is sorted, and the block `(131072, 65536)` lies in the page,
overlaps no free block and touches none. Sorted insertion gives
`[(0, 65536), (131072, 65536)]`; `pageDeallocateBlock` gives
`[(131072, 65536), (0, 65536)]`, which is not sorted. -/
theorem pageDeallocateBlock_differs_from_reference :
    sortedByOffset [⟨0, 65536⟩] = true ∧
    hasTouchingBlocks [⟨0, 65536⟩] = false ∧
    blocksOverlap ⟨131072, 65536⟩ ⟨0, 65536⟩ = false ∧
    (⟨131072, 65536⟩ : Block).offset + (⟨131072, 65536⟩ : Block).size ≤ 196608 ∧
    sortedInsertThenCoalesce [⟨0, 65536⟩] ⟨131072, 65536⟩
      = [⟨0, 65536⟩, ⟨131072, 65536⟩] ∧
    (pageDeallocateBlock ⟨7, [⟨0, 65536⟩], 196608, 2, 65536⟩ ⟨131072, 65536⟩).map
        (fun page => page.freeBlocks)
      = some [⟨131072, 65536⟩, ⟨0, 65536⟩] ∧
    sortedByOffset [⟨131072, 65536⟩, ⟨0, 65536⟩] = false :=
  ⟨rfl, rfl, rfl, by decide, rfl, rfl, rfl⟩

/-! ## Effect of the public calls on the state -/

theorem allocateBuffer_success (state s1 : DynamicGpuAllocatorState) (ptr : PagesPtr)
    (S : Nat) (heapCreate : Option Nat) (bufferCreate : Page → Block → Option Nat) (buffer : Nat)
    (hres : allocateBuffer state (pagesMemoryType ptr) S heapCreate bufferCreate
      = some (s1, some buffer)) :
    ∃ pool pageIdx block,
      findOrCreatePage (getPages state ptr) S (pagesDefaultSize ptr) heapCreate
        = some (pool, pageIdx) ∧
      (pageAllocateItem (pool.getD pageIdx default) S
        (fun p b => (bufferCreate p b).isSome)).2 = some block ∧
      bufferCreate (pool.getD pageIdx default) block = some buffer ∧
      s1.bufferEntries = hashPut state.bufferEntries buffer
        { block := block, pages := ptr, heapPtr := (pool.getD pageIdx default).heap } ∧
      s1.textureEntries = state.textureEntries ∧
      getPages s1 ptr = pool.set pageIdx (pageAllocateItem (pool.getD pageIdx default) S
        (fun p b => (bufferCreate p b).isSome)).1 ∧
      (∀ q, q ≠ ptr → getPages s1 q = getPages state q) ∧
      s1.texturePages = state.texturePages ∧
      totalNumAllocations s1 ptr = wrap32 (totalNumAllocations state ptr + 1) ∧
      (∀ q, q ≠ ptr → totalNumAllocations s1 q = totalNumAllocations state q) ∧
      (∀ q, totalNumDeallocations s1 q = totalNumDeallocations state q) ∧
      s1.totalNumAllocationsTexture = state.totalNumAllocationsTexture ∧
      s1.totalNumDeallocationsTexture = state.totalNumDeallocationsTexture := by
  unfold allocateBuffer at hres
  simp only [pagesMemoryType_match] at hres
  cases hfc : findOrCreatePage (getPages state ptr) S (pagesDefaultSize ptr) heapCreate with
  | none => rw [hfc] at hres; simp at hres
  | some r =>
    obtain ⟨pool, pageIdx⟩ := r
    rw [hfc] at hres
    simp only at hres
    cases hr : (pageAllocateItem (pool.getD pageIdx default) S
        (fun p b => (bufferCreate p b).isSome)).2 with
    | none => rw [hr] at hres; simp at hres
    | some block =>
      rw [hr] at hres
      simp only at hres
      cases hb : bufferCreate (pool.getD pageIdx default) block with
      | none => rw [hb] at hres; simp at hres
      | some buffer1 =>
        rw [hb] at hres
        cases ptr
        · simp only [Option.some.injEq, Prod.mk.injEq] at hres
          obtain ⟨rfl, rfl⟩ := hres
          refine ⟨pool, pageIdx, block, rfl, hr, hb, rfl, rfl, rfl, ?_, rfl, rfl, ?_, ?_, rfl,
            rfl⟩
          · intro q hq; cases q
            · exact absurd rfl hq
            · rfl
          · intro q hq; cases q
            · exact absurd rfl hq
            · rfl
          · intro q; cases q <;> rfl
        · simp only [Option.some.injEq, Prod.mk.injEq] at hres
          obtain ⟨rfl, rfl⟩ := hres
          refine ⟨pool, pageIdx, block, rfl, hr, hb, rfl, rfl, rfl, ?_, rfl, rfl, ?_, ?_, rfl,
            rfl⟩
          · intro q hq; cases q
            · rfl
            · exact absurd rfl hq
          · intro q hq; cases q
            · rfl
            · exact absurd rfl hq
          · intro q; cases q <;> rfl

theorem allocateBuffer_other (state : DynamicGpuAllocatorState) (S : Nat)
    (heapCreate : Option Nat) (bufferCreate : Page → Block → Option Nat) :
    allocateBuffer state .ZG_MEMORY_TYPE_OTHER S heapCreate bufferCreate = none := rfl

theorem memoryType_cases (memoryType : ZgMemoryType) :
    memoryType = .ZG_MEMORY_TYPE_OTHER ∨ ∃ ptr, memoryType = pagesMemoryType ptr := by
  cases memoryType
  · exact Or.inr ⟨.devicePages, rfl⟩
  · exact Or.inr ⟨.uploadPages, rfl⟩
  · exact Or.inl rfl

theorem findOrCreatePage_cases (pages : List Page) (S d : Nat) (heapCreate : Option Nat)
    (pool : List Page) (pageIdx : Nat)
    (h : findOrCreatePage pages S d heapCreate = some (pool, pageIdx)) :
    (pool = pages ∧ findAppropriatePage pages S = some pageIdx) ∨
    ∃ page, findAppropriatePage pages S = none ∧
      createMemoryPage (max d S) heapCreate = some page ∧
      pool = pages ++ [page] ∧ pageIdx = pages.length := by
  unfold findOrCreatePage at h
  cases hfind : findAppropriatePage pages S with
  | some i =>
    rw [hfind] at h
    simp only [Option.some.injEq, Prod.mk.injEq] at h
    exact Or.inl ⟨h.1.symm, by rw [h.2]⟩
  | none =>
    rw [hfind] at h
    simp only at h
    cases hc : createMemoryPage (max d S) heapCreate with
    | none => rw [hc] at h; simp at h
    | some page =>
      rw [hc] at h
      simp only [Option.some.injEq, Prod.mk.injEq] at h
      exact Or.inr ⟨page, rfl, rfl, h.1.symm, h.2.symm⟩

theorem allocateTexture2D_failure (state : DynamicGpuAllocatorState) (S : Nat)
    (heapCreate : Option Nat) (textureCreate : Page → Block → Option Nat)
    (out : Option Nat)
    (hres : (allocateTexture2D state S heapCreate textureCreate out).2.1 = none) :
    ∃ pages, (allocateTexture2D state S heapCreate textureCreate out).1
      = { state with texturePages := pages } ∧
      (pages = state.texturePages ∨ ∃ page, pages = state.texturePages ++ [page]) := by
  unfold allocateTexture2D at hres ⊢
  cases hfc : findOrCreatePage state.texturePages S PAGE_SIZE_TEXTURE heapCreate with
  | none => exact ⟨state.texturePages, rfl, Or.inl rfl⟩
  | some r =>
    obtain ⟨pool, pageIdx⟩ := r
    rw [hfc] at hres
    simp only at hres ⊢
    have hpool : pool = state.texturePages ∨ ∃ page, pool = state.texturePages ++ [page] := by
      rcases findOrCreatePage_cases _ _ _ _ _ _ hfc with ⟨hp, -⟩ | ⟨page, -, -, hp, -⟩
      · exact Or.inl hp
      · exact Or.inr ⟨page, hp⟩
    cases hr : (pageAllocateItem (pool.getD pageIdx default) S
        (fun p b => (textureCreate p b).isSome)).2 with
    | none =>
      refine ⟨pool, ?_, hpool⟩
      rw [pageAllocateItem_none_fst _ _ _ hr, set_getD_self]
    | some block =>
      rw [hr] at hres
      have hcb := pageAllocateItem_some_callback _ _ _ block hr
      simp only at hcb
      obtain ⟨texture, htex⟩ := Option.isSome_iff_exists.mp hcb
      simp only [htex] at hres
      simp at hres

theorem allocateTexture2D_success (state : DynamicGpuAllocatorState) (S : Nat)
    (heapCreate : Option Nat) (textureCreate : Page → Block → Option Nat)
    (out : Option Nat) (texture : Nat)
    (hres : (allocateTexture2D state S heapCreate textureCreate out).2.1 = some texture) :
    ∃ pool pageIdx block,
      findOrCreatePage state.texturePages S PAGE_SIZE_TEXTURE heapCreate
        = some (pool, pageIdx) ∧
      (pageAllocateItem (pool.getD pageIdx default) S
        (fun p b => (textureCreate p b).isSome)).2 = some block ∧
      textureCreate (pool.getD pageIdx default) block = some texture ∧
      allocateTexture2D state S heapCreate textureCreate out =
        ({ state with
            texturePages := pool.set pageIdx (pageAllocateItem (pool.getD pageIdx default) S
              (fun p b => (textureCreate p b).isSome)).1
            textureEntries := hashPut state.textureEntries texture
              { block := block, heapPtr := (pool.getD pageIdx default).heap }
            totalNumAllocationsTexture := wrap32 (state.totalNumAllocationsTexture + 1) },
         some texture, out.map (fun _ => block.size)) := by
  unfold allocateTexture2D at hres ⊢
  cases hfc : findOrCreatePage state.texturePages S PAGE_SIZE_TEXTURE heapCreate with
  | none => rw [hfc] at hres; simp at hres
  | some r =>
    obtain ⟨pool, pageIdx⟩ := r
    rw [hfc] at hres
    simp only at hres ⊢
    cases hr : (pageAllocateItem (pool.getD pageIdx default) S
        (fun p b => (textureCreate p b).isSome)).2 with
    | none => rw [hr] at hres; simp at hres
    | some block =>
      rw [hr] at hres
      simp only at hres ⊢
      cases hb : textureCreate (pool.getD pageIdx default) block with
      | none => rw [hb] at hres; simp at hres
      | some texture1 =>
        rw [hb] at hres
        simp only [Option.some.injEq] at hres
        subst hres
        exact ⟨pool, pageIdx, block, rfl, hr, hb, rfl⟩

theorem findOrCreatePage_length (pages : List Page) (S d : Nat) (heapCreate : Option Nat)
    (pool : List Page) (pageIdx : Nat)
    (h : findOrCreatePage pages S d heapCreate = some (pool, pageIdx)) :
    pool.length ≤ pages.length + 1 := by
  rcases findOrCreatePage_cases _ _ _ _ _ _ h with ⟨hp, -⟩ | ⟨page, -, -, hp, -⟩
  · rw [hp]; omega
  · rw [hp]; simp

theorem reclaimSpace_length (pages pages1 : List Page) (heapPtr : Nat) (block : Block)
    (h : reclaimSpace pages heapPtr block = some pages1) : pages1.length ≤ pages.length := by
  unfold reclaimSpace at h
  cases hfind : findFirstIdx (fun page => decide (page.heap = heapPtr)) pages with
  | none => rw [hfind] at h; simp at h
  | some i =>
    rw [hfind] at h
    simp only at h
    cases hd : pageDeallocateBlock (pages.getD i default) block with
    | none => rw [hd] at h; simp at h
    | some page =>
      rw [hd] at h
      simp only at h
      have hrem : (dynRemove (pages.set i page) i).length ≤ pages.length := by
        simp only [dynRemove, List.length_append, List.length_take, List.length_drop,
          List.length_set]
        omega
      split at h
      · split at h
        · simp only [Option.some.injEq] at h
          rw [← h]; exact hrem
        · simp only [Option.some.injEq] at h
          rw [← h]; simp
      · simp only [Option.some.injEq] at h
        rw [← h]; simp

theorem deallocateBuffer_cases (state s1 : DynamicGpuAllocatorState) (buffer : Nat)
    (h : deallocateBuffer state buffer = some s1) :
    (hashGet state.bufferEntries buffer = none ∧ s1 = state) ∨
    ∃ entry pages,
      hashGet state.bufferEntries buffer = some entry ∧
      reclaimSpace (getPages state entry.pages) entry.heapPtr entry.block = some pages ∧
      s1.bufferEntries = hashRemove state.bufferEntries buffer ∧
      s1.textureEntries = state.textureEntries ∧
      getPages s1 entry.pages = pages ∧
      (∀ q, q ≠ entry.pages → getPages s1 q = getPages state q) ∧
      s1.texturePages = state.texturePages ∧
      totalNumDeallocations s1 entry.pages
        = wrap32 (totalNumDeallocations state entry.pages + 1) ∧
      (∀ q, q ≠ entry.pages → totalNumDeallocations s1 q = totalNumDeallocations state q) ∧
      (∀ q, totalNumAllocations s1 q = totalNumAllocations state q) ∧
      s1.totalNumAllocationsTexture = state.totalNumAllocationsTexture ∧
      s1.totalNumDeallocationsTexture = state.totalNumDeallocationsTexture := by
  unfold deallocateBuffer at h
  cases hget : hashGet state.bufferEntries buffer with
  | none =>
    rw [hget] at h
    simp only [Option.some.injEq] at h
    exact Or.inl ⟨rfl, h.symm⟩
  | some entry =>
    rw [hget] at h
    simp only at h
    right
    cases hrec : reclaimSpace
        (getPages { state with bufferEntries := hashRemove state.bufferEntries buffer }
          entry.pages) entry.heapPtr entry.block with
    | none => rw [hrec] at h; simp at h
    | some pages =>
      rw [hrec] at h
      simp only at h
      obtain ⟨block, ptr, heapPtr⟩ := entry
      cases ptr
      · simp only [Option.some.injEq] at h
        subst h
        refine ⟨_, pages, rfl, hrec, rfl, rfl, rfl, ?_, rfl, rfl, ?_, ?_, rfl, rfl⟩
        · intro q hq; cases q
          · exact absurd rfl hq
          · rfl
        · intro q hq; cases q
          · exact absurd rfl hq
          · rfl
        · intro q; cases q <;> rfl
      · simp only [Option.some.injEq] at h
        subst h
        refine ⟨_, pages, rfl, hrec, rfl, rfl, rfl, ?_, rfl, rfl, ?_, ?_, rfl, rfl⟩
        · intro q hq; cases q
          · rfl
          · exact absurd rfl hq
        · intro q hq; cases q
          · rfl
          · exact absurd rfl hq
        · intro q; cases q <;> rfl

theorem deallocateTexture2D_cases (state s1 : DynamicGpuAllocatorState) (texture : Nat)
    (h : deallocateTexture2D state texture = some s1) :
    (hashGet state.textureEntries texture = none ∧ s1 = state) ∨
    ∃ entry pages,
      hashGet state.textureEntries texture = some entry ∧
      reclaimSpace state.texturePages entry.heapPtr entry.block = some pages ∧
      s1 = { state with
              textureEntries := hashRemove state.textureEntries texture
              texturePages := pages
              totalNumDeallocationsTexture := wrap32 (state.totalNumDeallocationsTexture + 1) } := by
  unfold deallocateTexture2D at h
  cases hget : hashGet state.textureEntries texture with
  | none =>
    rw [hget] at h
    simp only [Option.some.injEq] at h
    exact Or.inl ⟨rfl, h.symm⟩
  | some entry =>
    rw [hget] at h
    simp only at h
    right
    cases hrec : reclaimSpace state.texturePages entry.heapPtr entry.block with
    | none => rw [hrec] at h; simp at h
    | some pages =>
      rw [hrec] at h
      simp only [Option.some.injEq] at h
      exact ⟨entry, pages, rfl, hrec, h.symm⟩

/-! ## The number of pages of a pool, continued -/

theorem allocatorCall_numPages (state s1 : DynamicGpuAllocatorState) (c : AllocatorCall)
    (h : allocatorCall state c = some s1) :
    s1.devicePages.length ≤ state.devicePages.length + 1 ∧
    s1.uploadPages.length ≤ state.uploadPages.length + 1 ∧
    s1.texturePages.length ≤ state.texturePages.length + 1 := by
  cases c with
  | allocateBuffer memoryType S heapCreate bufferCreate =>
    simp only [allocatorCall, Option.map_eq_some'] at h
    obtain ⟨⟨s2, res⟩, hres, rfl⟩ := h
    dsimp only
    rcases memoryType_cases memoryType with rfl | ⟨ptr, rfl⟩
    · rw [allocateBuffer_other] at hres; simp at hres
    · cases res with
      | none =>
        have hf := (allocateBuffer_failure_cases state s2 ptr S heapCreate bufferCreate hres)
        rcases hf.2.2.2.2.2.2.2.2.2.2 with rfl | ⟨heap, page, -, -, -, rfl⟩
        · omega
        · cases ptr <;> simp [setPages, getPages]
      | some buffer =>
        obtain ⟨pool, pageIdx, block, hfc, -, -, -, -, hp, hq, ht, -⟩ :=
          allocateBuffer_success state s2 ptr S heapCreate bufferCreate buffer hres
        have hlen := findOrCreatePage_length _ _ _ _ _ _ hfc
        have hp1 : (getPages s2 ptr).length ≤ (getPages state ptr).length + 1 := by
          rw [hp]; simpa using hlen
        cases ptr
        · have := hq .uploadPages (by decide)
          simp only [getPages] at this hp1 hlen
          rw [this, ht]; omega
        · have := hq .devicePages (by decide)
          simp only [getPages] at this hp1 hlen
          rw [this, ht]; omega
  | allocateTexture2D S heapCreate textureCreate =>
    simp only [allocatorCall, Option.some.injEq] at h
    cases hres : (allocateTexture2D state S heapCreate textureCreate none).2.1 with
    | none =>
      obtain ⟨pages, heq, hpages⟩ := allocateTexture2D_failure _ _ _ _ _ hres
      rw [heq] at h
      subst h
      rcases hpages with rfl | ⟨page, rfl⟩ <;> simp
    | some texture =>
      obtain ⟨pool, pageIdx, block, hfc, -, -, heq⟩ := allocateTexture2D_success _ _ _ _ _ _ hres
      rw [heq] at h
      subst h
      have hlen := findOrCreatePage_length _ _ _ _ _ _ hfc
      simp only [List.length_set]
      omega
  | deallocateBuffer buffer =>
    simp only [allocatorCall] at h
    rcases deallocateBuffer_cases state s1 buffer h with ⟨-, rfl⟩ |
      ⟨entry, pages, -, hrec, -, -, hp, hq, ht, -⟩
    · omega
    · have hlen := reclaimSpace_length _ _ _ _ hrec
      obtain ⟨block, ptr, heapPtr⟩ := entry
      cases ptr
      · have := hq .uploadPages (by simp)
        simp only [getPages] at this hp hlen
        rw [this, ht, hp]; omega
      · have := hq .devicePages (by simp)
        simp only [getPages] at this hp hlen
        rw [this, ht, hp]; omega
  | deallocateTexture2D texture =>
    simp only [allocatorCall] at h
    rcases deallocateTexture2D_cases state s1 texture h with ⟨-, rfl⟩ |
      ⟨entry, pages, -, hrec, rfl⟩
    · omega
    · have hlen := reclaimSpace_length _ _ _ _ hrec
      simp only
      omega

theorem allocatorCalls_numPages : ∀ (calls : List AllocatorCall)
    (state s1 : DynamicGpuAllocatorState), allocatorCalls state calls = some s1 →
    s1.devicePages.length ≤ state.devicePages.length + calls.length ∧
    s1.uploadPages.length ≤ state.uploadPages.length + calls.length ∧
    s1.texturePages.length ≤ state.texturePages.length + calls.length
  | [], state, s1, h => by
    simp only [allocatorCalls, Option.some.injEq] at h
    subst h; simp
  | c :: cs, state, s1, h => by
    simp only [allocatorCalls, Option.bind_eq_some] at h
    obtain ⟨s2, h2, h3⟩ := h
    have ih := allocatorCalls_numPages cs s2 s1 h3
    have hstep := allocatorCall_numPages state s2 c h2
    simp only [List.length_cons]
    omega

/-- Claim C20, amended: the allocator enforces no bound on the number of pages
(`MAX_NUM_PAGES` is only the capacity reserved for the device and upload pools
at `init`). Every call adds at most one page to a pool, so in a state reached
from `init` by `n` calls each of the three pools holds at most `n` pages, and
at most 256 pages whenever `n <= 256`. -/
theorem numPages_le_numCalls (calls : List AllocatorCall) (state : DynamicGpuAllocatorState)
    (h : allocatorCalls init calls = some state) :
    state.devicePages.length ≤ calls.length ∧
    state.uploadPages.length ≤ calls.length ∧
    state.texturePages.length ≤ calls.length ∧
    (calls.length ≤ MAX_NUM_PAGES →
      state.devicePages.length ≤ MAX_NUM_PAGES ∧
      state.uploadPages.length ≤ MAX_NUM_PAGES ∧
      state.texturePages.length ≤ MAX_NUM_PAGES) := by
  have := allocatorCalls_numPages calls init state h
  simp only [init, List.length_nil, Nat.zero_add] at this
  refine ⟨this.1, this.2.1, this.2.2, fun hl => ⟨?_, ?_, ?_⟩⟩ <;> omega

theorem numPages_le_numCalls_witness :
    fullDeviceState.devicePages.length
      ≤ [AllocatorCall.allocateBuffer .ZG_MEMORY_TYPE_DEVICE 67108864 (some 7) bufferAt].length ∧
    fullDeviceState.uploadPages.length
      ≤ [AllocatorCall.allocateBuffer .ZG_MEMORY_TYPE_DEVICE 67108864 (some 7) bufferAt].length ∧
    fullDeviceState.texturePages.length
      ≤ [AllocatorCall.allocateBuffer .ZG_MEMORY_TYPE_DEVICE 67108864 (some 7) bufferAt].length ∧
    ([AllocatorCall.allocateBuffer .ZG_MEMORY_TYPE_DEVICE 67108864 (some 7) bufferAt].length
        ≤ MAX_NUM_PAGES →
      fullDeviceState.devicePages.length ≤ MAX_NUM_PAGES ∧
      fullDeviceState.uploadPages.length ≤ MAX_NUM_PAGES ∧
      fullDeviceState.texturePages.length ≤ MAX_NUM_PAGES) :=
  numPages_le_numCalls
    [.allocateBuffer .ZG_MEMORY_TYPE_DEVICE 67108864 (some 7) bufferAt] fullDeviceState rfl


/-! ## The entry maps -/

theorem hashGet_eq_none_iff {β : Type} (m : List (Nat × β)) (key : Nat) :
    hashGet m key = none ↔ key ∉ m.map Prod.fst := by
  induction m with
  | nil => simp [hashGet]
  | cons kv rest ih =>
    by_cases hk : kv.1 = key
    · simp [hashGet, List.find?_cons, hk]
    · have hk1 : (kv.1 == key) = false := by simpa using hk
      have : hashGet (kv :: rest) key = hashGet rest key := by
        simp [hashGet, List.find?_cons, hk1]
      rw [this, ih]
      simp only [List.map_cons, List.mem_cons, not_or]
      exact ⟨fun h => ⟨fun e => hk e.symm, h⟩, fun h => h.2⟩

theorem hashRemove_of_not_mem {β : Type} (m : List (Nat × β)) (key : Nat)
    (h : key ∉ m.map Prod.fst) : hashRemove m key = m := by
  unfold hashRemove
  rw [List.filter_eq_self]
  intro kv hkv
  have : kv.1 ≠ key := fun e => h (by rw [← e]; exact List.mem_map_of_mem _ hkv)
  simpa using this

theorem hashPut_of_fresh {β : Type} (m : List (Nat × β)) (key : Nat) (value : β)
    (h : hashGet m key = none) : hashPut m key value = (key, value) :: m := by
  unfold hashPut
  rw [hashRemove_of_not_mem m key ((hashGet_eq_none_iff m key).mp h)]

theorem hashRemove_keys_nodup {β : Type} (m : List (Nat × β)) (key : Nat)
    (h : (m.map Prod.fst).Nodup) : ((hashRemove m key).map Prod.fst).Nodup := by
  unfold hashRemove
  exact (List.Nodup.sublist ((List.filter_sublist m).map Prod.fst) h)

theorem hashGet_cons_self {β : Type} (m : List (Nat × β)) (key : Nat) (value : β) :
    hashGet ((key, value) :: m) key = some value := by
  simp [hashGet]

theorem hashGet_cons_ne {β : Type} (m : List (Nat × β)) (key k : Nat) (value : β)
    (h : k ≠ key) : hashGet ((k, value) :: m) key = hashGet m key := by
  have hk1 : (k == key) = false := by simpa using h
  simp [hashGet, List.find?_cons, hk1]

theorem hashRemove_count {β : Type} (p : β → Bool) (key : Nat) (entry : β) :
    ∀ (m : List (Nat × β)), (m.map Prod.fst).Nodup → hashGet m key = some entry →
      ((hashRemove m key).filter (fun kv => p kv.2)).length + (if p entry then 1 else 0)
        = (m.filter (fun kv => p kv.2)).length
  | [], _, h => by simp [hashGet] at h
  | (k, v) :: rest, hnd, h => by
    simp only [List.map_cons, List.nodup_cons] at hnd
    by_cases hk : k = key
    · subst hk
      rw [hashGet_cons_self] at h
      simp only [Option.some.injEq] at h
      subst h
      have hrem : hashRemove ((k, v) :: rest) k = rest := by
        have h1 := hashRemove_of_not_mem rest k hnd.1
        unfold hashRemove at h1 ⊢
        simp [List.filter_cons, h1]
      rw [hrem]
      by_cases hp : p v = true
      · simp [List.filter_cons, hp]
      · simp [List.filter_cons, hp]
    · rw [hashGet_cons_ne _ _ _ _ hk] at h
      have ih := hashRemove_count p key entry rest hnd.2 h
      have hrem : hashRemove ((k, v) :: rest) key = (k, v) :: hashRemove rest key := by
        unfold hashRemove
        simp [List.filter_cons, hk]
      rw [hrem]
      by_cases hp : p v = true
      · simp only [List.filter_cons, hp, if_true, List.length_cons]
        omega
      · simp only [List.filter_cons, hp, Bool.false_eq_true, if_false]
        exact ih

theorem hashRemove_length {β : Type} (key : Nat) (entry : β)
    (m : List (Nat × β)) (hnd : (m.map Prod.fst).Nodup) (h : hashGet m key = some entry) :
    (hashRemove m key).length + 1 = m.length := by
  have := hashRemove_count (fun _ => true) key entry m hnd h
  simpa using this

/-! ## Counters and live entries -/

theorem counterInv_init : CounterInv init := by
  refine ⟨by simp [init], by simp [init], ?_, by simp [init], ?_, by simp [init, wrap32]⟩
  · intro q; cases q <;> simp [totalNumDeallocations, init]
  · intro q; cases q <;> simp [totalNumAllocations, totalNumDeallocations, init, numEntriesOf, wrap32]

theorem numEntriesOf_cons (k : Nat) (e : AllocEntryBuffer) (m : List (Nat × AllocEntryBuffer))
    (q : PagesPtr) :
    numEntriesOf ((k, e) :: m) q = numEntriesOf m q + (if e.pages = q then 1 else 0) := by
  unfold numEntriesOf
  by_cases h : e.pages = q
  · simp [List.filter_cons, h]
  · simp [List.filter_cons, h]

theorem counterInv_allocateBuffer (state s1 : DynamicGpuAllocatorState)
    (memoryType : ZgMemoryType) (S : Nat) (heapCreate : Option Nat)
    (bufferCreate : Page → Block → Option Nat) (res : Option Nat)
    (hinv : CounterInv state)
    (hfresh : returnsFreshHandle state (.allocateBuffer memoryType S heapCreate bufferCreate))
    (h : allocateBuffer state memoryType S heapCreate bufferCreate = some (s1, res)) :
    CounterInv s1 := by
  rcases memoryType_cases memoryType with rfl | ⟨ptr, rfl⟩
  · rw [allocateBuffer_other] at h; simp at h
  · cases res with
    | none =>
      obtain ⟨hb, ht, ha1, ha2, ha3, hd1, hd2, hd3, -⟩ :=
        allocateBuffer_failure_cases state s1 ptr S heapCreate bufferCreate h
      have hA : ∀ q, totalNumAllocations s1 q = totalNumAllocations state q := by
        intro q; cases q
        · exact ha1
        · exact ha2
      have hD : ∀ q, totalNumDeallocations s1 q = totalNumDeallocations state q := by
        intro q; cases q
        · exact hd1
        · exact hd2
      refine ⟨by rw [hb]; exact hinv.bufferKeys, by rw [ht]; exact hinv.textureKeys, ?_,
        by rw [hd3]; exact hinv.deallocRangeTexture, ?_, ?_⟩
      · intro q; rw [hD]; exact hinv.deallocRange q
      · intro q; rw [hA, hD, hb]; exact hinv.buffers q
      · rw [ha3, hd3, ht]; exact hinv.textures
    | some buffer =>
      have hnew := hfresh s1 buffer h
      obtain ⟨pool, pageIdx, block, -, -, -, hb, ht, -, -, -, hA, hAq, hD, hAt, hDt⟩ :=
        allocateBuffer_success state s1 ptr S heapCreate bufferCreate buffer h
      rw [hashPut_of_fresh _ _ _ hnew] at hb
      refine ⟨?_, by rw [ht]; exact hinv.textureKeys, ?_,
        by rw [hDt]; exact hinv.deallocRangeTexture, ?_, ?_⟩
      · rw [hb]
        simp only [List.map_cons, List.nodup_cons]
        exact ⟨(hashGet_eq_none_iff _ _).mp hnew, hinv.bufferKeys⟩
      · intro q; rw [hD]; exact hinv.deallocRange q
      · intro q
        rw [hD, hb, numEntriesOf_cons]
        have hq := hinv.buffers q
        by_cases hqp : q = ptr
        · subst hqp
          rw [hA, hq]
          simp only [if_true]
          unfold wrap32; omega
        · rw [hAq q hqp, hq]
          have : ¬ ptr = q := fun e => hqp e.symm
          simp only [this, if_false, Nat.add_zero]
      · rw [hAt, hDt, ht]; exact hinv.textures

theorem counterInv_call (state s1 : DynamicGpuAllocatorState) (c : AllocatorCall)
    (hinv : CounterInv state) (hfresh : returnsFreshHandle state c)
    (h : allocatorCall state c = some s1) : CounterInv s1 := by
  cases c with
  | allocateBuffer memoryType S heapCreate bufferCreate =>
    simp only [allocatorCall, Option.map_eq_some'] at h
    obtain ⟨⟨s2, res⟩, hres, rfl⟩ := h
    exact counterInv_allocateBuffer state s2 memoryType S heapCreate bufferCreate res hinv
      hfresh hres
  | allocateTexture2D S heapCreate textureCreate =>
    simp only [allocatorCall, Option.some.injEq] at h
    cases hres : (allocateTexture2D state S heapCreate textureCreate none).2.1 with
    | none =>
      obtain ⟨pages, heq, -⟩ := allocateTexture2D_failure _ _ _ _ _ hres
      rw [heq] at h
      subst h
      exact ⟨hinv.bufferKeys, hinv.textureKeys, fun q => by have := hinv.deallocRange q; cases q <;> exact this,
        hinv.deallocRangeTexture, fun q => by have := hinv.buffers q; cases q <;> exact this, hinv.textures⟩
    | some texture =>
      have hnew := hfresh texture hres
      obtain ⟨pool, pageIdx, block, -, -, -, heq⟩ := allocateTexture2D_success _ _ _ _ _ _ hres
      rw [heq] at h
      subst h
      refine ⟨hinv.bufferKeys, ?_, fun q => by have := hinv.deallocRange q; cases q <;> exact this,
        hinv.deallocRangeTexture, fun q => by have := hinv.buffers q; cases q <;> exact this, ?_⟩
      · simp only [hashPut_of_fresh _ _ _ hnew, List.map_cons, List.nodup_cons]
        exact ⟨(hashGet_eq_none_iff _ _).mp hnew, hinv.textureKeys⟩
      · simp only [hashPut_of_fresh _ _ _ hnew, List.length_cons]
        have := hinv.textures
        rw [this]
        unfold wrap32; omega
  | deallocateBuffer buffer =>
    simp only [allocatorCall] at h
    rcases deallocateBuffer_cases state s1 buffer h with ⟨-, rfl⟩ |
      ⟨entry, pages, hget, -, hb, ht, -, -, -, hD, hDq, hA, hAt, hDt⟩
    · exact hinv
    · refine ⟨by rw [hb]; exact hashRemove_keys_nodup _ _ hinv.bufferKeys,
        by rw [ht]; exact hinv.textureKeys, ?_, by rw [hDt]; exact hinv.deallocRangeTexture,
        ?_, ?_⟩
      · intro q
        by_cases hqp : q = entry.pages
        · subst hqp; rw [hD]; unfold wrap32; omega
        · rw [hDq q hqp]; exact hinv.deallocRange q
      · intro q
        have hcount := hashRemove_count (fun e : AllocEntryBuffer => decide (e.pages = q))
          buffer entry state.bufferEntries hinv.bufferKeys hget
        have hq := hinv.buffers q
        have hr := hinv.deallocRange q
        rw [hA, hb, hq]
        unfold numEntriesOf
        by_cases hqp : q = entry.pages
        · subst hqp
          rw [hD]
          simp only [decide_True, if_true] at hcount
          rw [← hcount]
          unfold wrap32; omega
        · rw [hDq q hqp]
          have : ¬ entry.pages = q := fun e => hqp e.symm
          simp only [this, decide_False, Bool.false_eq_true, if_false, Nat.add_zero] at hcount
          rw [hcount]
      · rw [hAt, hDt, ht]; exact hinv.textures
  | deallocateTexture2D texture =>
    simp only [allocatorCall] at h
    rcases deallocateTexture2D_cases state s1 texture h with ⟨-, rfl⟩ |
      ⟨entry, pages, hget, -, rfl⟩
    · exact hinv
    · have hlen := hashRemove_length texture entry state.textureEntries hinv.textureKeys hget
      have hr := hinv.deallocRangeTexture
      refine ⟨hinv.bufferKeys, hashRemove_keys_nodup _ _ hinv.textureKeys,
        fun q => by have := hinv.deallocRange q; cases q <;> exact this, ?_,
        fun q => by have := hinv.buffers q; cases q <;> exact this, ?_⟩
      · show wrap32 _ < _
        unfold wrap32; omega
      · have ht := hinv.textures
        rw [← hlen] at ht
        show state.totalNumAllocationsTexture
          = wrap32 (wrap32 (state.totalNumDeallocationsTexture + 1)
              + (hashRemove state.textureEntries texture).length)
        unfold wrap32 at ht ⊢
        omega

theorem reachable_counterInv (state : DynamicGpuAllocatorState) (h : Reachable state) :
    CounterInv state := by
  induction h with
  | init => exact counterInv_init
  | call state state1 c _ hfresh hcall ih => exact counterInv_call state state1 c ih hfresh hcall

/-! ## Entries and live allocations -/

set_option maxRecDepth 1000000 in
set_option maxHeartbeats 0 in
/-- Claim C20 as stated, at a counterexample: 257 device requests of growing
size, each larger than every page created before, leave 257 pages in the device
pool; `MAX_NUM_PAGES` is 256. -/
theorem devicePages_exceeds_max_num_pages :
    (allocatorCalls init growingRequests).map (fun state => state.devicePages.length)
      = some 257 ∧
    MAX_NUM_PAGES < 257 :=
  ⟨by decide, by decide⟩

/-! ## `findAppropriatePage` -/

theorem findFirstIdx_lt {α : Type} (p : α → Bool) (l : List α) (i : Nat)
    (h : findFirstIdx p l = some i) : i < l.length := by
  obtain ⟨l1, a, l2, rfl, rfl, -, -⟩ := findFirstIdx_some p l i h
  simp

theorem getD_append_left {α : Type} (l1 l2 : List α) (d : α) (j : Nat) (h : j < l1.length) :
    (l1 ++ l2).getD j d = l1.getD j d := by
  simp only [List.getD_eq_getElem?_getD]
  rw [List.getElem?_append_left h]

theorem getD_mem {α : Type} (l : List α) (d : α) (j : Nat) (h : j < l.length) :
    l.getD j d ∈ l := by
  rw [List.getD_eq_getElem _ _ h]
  exact List.getElem_mem h

/-- Claim C23: for every pool (with a number of pages that fits `uint32_t`) and
every size > 0, a found index `i` is the least index with
`pages[i].pageSize >= size`; an index is found whenever some page has
`pageSize >= size`; and the returned value is the sentinel `0xFFFFFFFF` if and
only if no page of the pool has `pageSize >= size`. The function only returns
the index: the pool is not modified. -/
theorem findAppropriatePage_spec (pages : List Page) (size : Nat)
    (_hsize : 0 < size) (hlen : pages.length ≤ 4294967295) :
    (∀ i, findAppropriatePage pages size = some i →
      i < pages.length ∧ (pages.getD i default).pageSize ≥ size ∧
      ∀ j, j < i → (pages.getD j default).pageSize < size) ∧
    ((∃ page ∈ pages, page.pageSize ≥ size) →
      ∃ i, findAppropriatePage pages size = some i ∧ findAppropriatePageU32 pages size = i) ∧
    (findAppropriatePageU32 pages size = 4294967295 ↔
      ∀ page ∈ pages, ¬ page.pageSize ≥ size) := by
  have hsome : ∀ i, findAppropriatePage pages size = some i →
      i < pages.length ∧ (pages.getD i default).pageSize ≥ size ∧
      ∀ j, j < i → (pages.getD j default).pageSize < size := by
    intro i hi
    obtain ⟨l1, a, l2, rfl, rfl, ha, hall⟩ := findFirstIdx_some _ _ _ hi
    refine ⟨by simp, ?_, ?_⟩
    · rw [getD_split]; simpa using ha
    · intro j hj
      rw [getD_append_left _ _ _ _ hj]
      have := hall _ (getD_mem l1 default j hj)
      simpa using this
  have hnone : findAppropriatePage pages size = none ↔
      ∀ page ∈ pages, ¬ page.pageSize ≥ size := by
    constructor
    · intro h page hp
      have := findFirstIdx_none _ _ h page hp
      simpa using this
    · intro h
      exact findFirstIdx_eq_none _ _ (fun x hx => by simpa using h x hx)
  refine ⟨hsome, ?_, ?_⟩
  · rintro ⟨page, hp, hfit⟩
    cases hf : findAppropriatePage pages size with
    | none => exact absurd hfit ((hnone.mp hf) page hp)
    | some i => exact ⟨i, rfl, by simp [findAppropriatePageU32, hf]⟩
  · cases hf : findAppropriatePage pages size with
    | none =>
      simp only [findAppropriatePageU32, hf, Option.getD_none, true_iff]
      exact hnone.mp hf
    | some i =>
      have hi := (hsome i hf)
      simp only [findAppropriatePageU32, hf, Option.getD_some]
      constructor
      · intro h; omega
      · intro h
        exact absurd hi.2.1 (h _ (getD_mem pages default i hi.1))

theorem findAppropriatePage_spec_witness :
    (∀ i, findAppropriatePage fullDeviceState.devicePages 65536 = some i →
      i < fullDeviceState.devicePages.length ∧
      (fullDeviceState.devicePages.getD i default).pageSize ≥ 65536 ∧
      ∀ j, j < i → (fullDeviceState.devicePages.getD j default).pageSize < 65536) ∧
    ((∃ page ∈ fullDeviceState.devicePages, page.pageSize ≥ 65536) →
      ∃ i, findAppropriatePage fullDeviceState.devicePages 65536 = some i ∧
        findAppropriatePageU32 fullDeviceState.devicePages 65536 = i) ∧
    (findAppropriatePageU32 fullDeviceState.devicePages 65536 = 4294967295 ↔
      ∀ page ∈ fullDeviceState.devicePages, ¬ page.pageSize ≥ 65536) :=
  findAppropriatePage_spec fullDeviceState.devicePages 65536 (by decide) (by decide)

/-! ## Fields of a page kept by the page operations -/

theorem pageAllocateItem_fields (page : Page) (size : Nat) (f : Page → Block → Bool) :
    (pageAllocateItem page size f).1.heap = page.heap ∧
    (pageAllocateItem page size f).1.pageSize = page.pageSize ∧
    (∀ block, (pageAllocateItem page size f).2 = some block →
      (pageAllocateItem page size f).1.numAllocations = wrap32 (page.numAllocations + 1)) := by
  rcases pageAllocateItem_cases page size f with hn | ⟨l1, a, l2, -, -, -, -, heq⟩
  · rw [hn]
    exact ⟨rfl, rfl, fun block h => by simp at h⟩
  · rw [heq]
    exact ⟨rfl, rfl, fun _ _ => rfl⟩

theorem pageDeallocateBlock_fields (page page1 : Page) (block : Block)
    (h : pageDeallocateBlock page block = some page1) :
    page1.heap = page.heap ∧ page1.pageSize = page.pageSize ∧
    page1.numAllocations = wrap32 (page.numAllocations + 4294967296 - 1) := by
  unfold pageDeallocateBlock at h
  cases hm : mergeOrInsertBlock page.freeBlocks block with
  | none => rw [hm] at h; simp at h
  | some r =>
    rw [hm] at h
    simp only [Option.some.injEq] at h
    subst h
    exact ⟨rfl, rfl, rfl⟩

theorem reclaimSpace_cases (pool pool1 : List Page) (heapPtr : Nat) (block : Block)
    (h : reclaimSpace pool heapPtr block = some pool1) :
    ∃ l1 p l2 p1, pool = l1 ++ p :: l2 ∧ p.heap = heapPtr ∧ (∀ x ∈ l1, x.heap ≠ heapPtr) ∧
      pageDeallocateBlock p block = some p1 ∧
      (pool1 = l1 ++ p1 :: l2 ∨ (pool1 = l1 ++ l2 ∧ p1.freeBlocks = [⟨0, p1.pageSize⟩])) := by
  unfold reclaimSpace at h
  cases hfind : findFirstIdx (fun page => decide (page.heap = heapPtr)) pool with
  | none => rw [hfind] at h; simp at h
  | some i =>
    rw [hfind] at h
    simp only at h
    obtain ⟨l1, p, l2, rfl, rfl, hp, hall⟩ := findFirstIdx_some _ _ _ hfind
    rw [getD_split] at h
    cases hd : pageDeallocateBlock p block with
    | none => rw [hd] at h; simp at h
    | some p1 =>
      rw [hd] at h
      simp only [set_split] at h
      refine ⟨l1, p, l2, p1, rfl, by simpa using hp, ?_, hd, ?_⟩
      · intro x hx; simpa using hall x hx
      · have hrem : dynRemove (l1 ++ p1 :: l2) l1.length = l1 ++ l2 := dynRemove_split _ _ _
        split at h
        · rename_i freeBlock hfb
          split at h
          · rename_i hcond
            simp only [Option.some.injEq] at h
            right
            refine ⟨by rw [← h, hrem], ?_⟩
            rw [hfb]
            have h1 := hcond.1
            have h2 := hcond.2
            cases freeBlock
            simp_all
          · simp only [Option.some.injEq] at h
            exact Or.inl h.symm
        · simp only [Option.some.injEq] at h
          exact Or.inl h.symm

theorem allocateTexture2D_failure_cases (state : DynamicGpuAllocatorState) (S : Nat)
    (heapCreate : Option Nat) (textureCreate : Page → Block → Option Nat)
    (out : Option Nat)
    (hres : (allocateTexture2D state S heapCreate textureCreate out).2.1 = none) :
    (allocateTexture2D state S heapCreate textureCreate out).1 = state ∨
    ∃ heap page, heapCreate = some heap ∧
      findAppropriatePage state.texturePages S = none ∧
      createMemoryPage (max PAGE_SIZE_TEXTURE S) (some heap) = some page ∧
      (allocateTexture2D state S heapCreate textureCreate out).1
        = { state with texturePages := state.texturePages ++ [page] } := by
  unfold allocateTexture2D at hres ⊢
  cases hfc : findOrCreatePage state.texturePages S PAGE_SIZE_TEXTURE heapCreate with
  | none => exact Or.inl rfl
  | some r =>
    obtain ⟨pool, pageIdx⟩ := r
    rw [hfc] at hres
    simp only at hres ⊢
    cases hr : (pageAllocateItem (pool.getD pageIdx default) S
        (fun p b => (textureCreate p b).isSome)).2 with
    | none =>
      simp only [pageAllocateItem_none_fst _ _ _ hr, set_getD_self]
      rcases findOrCreatePage_cases _ _ _ _ _ _ hfc with ⟨hp, -⟩ | ⟨page, hfind, hc, hp, -⟩
      · left; rw [hp]
      · right
        cases heapCreate with
        | none => simp [createMemoryPage] at hc
        | some heap => exact ⟨heap, page, rfl, hfind, hc, by rw [hp]⟩
    | some block =>
      rw [hr] at hres
      have hcb := pageAllocateItem_some_callback _ _ _ block hr
      simp only at hcb
      obtain ⟨texture, htex⟩ := Option.isSome_iff_exists.mp hcb
      simp only [htex] at hres
      simp at hres

/-! ## Order of the page sizes in a pool -/

theorem findOrCreatePage_sorted (pages : List Page) (S d : Nat) (heapCreate : Option Nat)
    (pool : List Page) (pageIdx : Nat)
    (hs : (pages.map (fun p => p.pageSize)).Pairwise (fun a b => a < b))
    (h : findOrCreatePage pages S d heapCreate = some (pool, pageIdx)) :
    (pool.map (fun p => p.pageSize)).Pairwise (fun a b => a < b) := by
  rcases findOrCreatePage_cases _ _ _ _ _ _ h with ⟨hp, -⟩ | ⟨page, hfind, hc, hp, -⟩
  · rw [hp]; exact hs
  · rw [hp, List.map_append, List.pairwise_append]
    refine ⟨hs, by simp, ?_⟩
    intro a ha b hb
    simp only [List.map_cons, List.map_nil, List.mem_singleton] at hb
    obtain ⟨q, hq, rfl⟩ := List.mem_map.mp ha
    have hlt := findFirstIdx_none _ _ hfind q hq
    cases heapCreate with
    | none => simp [createMemoryPage] at hc
    | some heap =>
      simp only [createMemoryPage, Option.some.injEq] at hc
      subst hc
      subst hb
      simp only [ge_iff_le, decide_eq_false_iff_not, not_le] at hlt
      show q.pageSize < max d S
      omega

theorem map_set_of_eq {α β : Type} (g : α → β) (d : α) :
    ∀ (l : List α) (i : Nat) (x : α), g x = g (l.getD i d) → (l.set i x).map g = l.map g
  | [], _, _, _ => rfl
  | a :: as, 0, x, h => by
    simp only [List.getD_cons_zero] at h
    simp [h]
  | a :: as, i + 1, x, h => by
    simp only [List.getD_cons_succ] at h
    simp [map_set_of_eq g d as i x h]

theorem reclaimSpace_sorted (pool pool1 : List Page) (heapPtr : Nat) (block : Block)
    (hs : (pool.map (fun p => p.pageSize)).Pairwise (fun a b => a < b))
    (h : reclaimSpace pool heapPtr block = some pool1) :
    (pool1.map (fun p => p.pageSize)).Pairwise (fun a b => a < b) := by
  obtain ⟨l1, p, l2, p1, rfl, -, -, hd, hcase⟩ := reclaimSpace_cases _ _ _ _ h
  have hps := (pageDeallocateBlock_fields p p1 block hd).2.1
  rcases hcase with rfl | ⟨rfl, -⟩
  · simpa [hps] using hs
  · refine List.Pairwise.sublist ?_ hs
    exact List.Sublist.map _ (List.Sublist.append (List.Sublist.refl l1) (List.sublist_cons_self p l2))

theorem allocatorCall_sorted (state s1 : DynamicGpuAllocatorState) (c : AllocatorCall)
    (hd : (state.devicePages.map (fun p => p.pageSize)).Pairwise (fun a b => a < b))
    (hu : (state.uploadPages.map (fun p => p.pageSize)).Pairwise (fun a b => a < b))
    (ht : (state.texturePages.map (fun p => p.pageSize)).Pairwise (fun a b => a < b))
    (h : allocatorCall state c = some s1) :
    (s1.devicePages.map (fun p => p.pageSize)).Pairwise (fun a b => a < b) ∧
    (s1.uploadPages.map (fun p => p.pageSize)).Pairwise (fun a b => a < b) ∧
    (s1.texturePages.map (fun p => p.pageSize)).Pairwise (fun a b => a < b) := by
  have hget : ∀ q, ((getPages state q).map (fun p => p.pageSize)).Pairwise (fun a b => a < b) := by
    intro q; cases q
    · exact hd
    · exact hu
  cases c with
  | allocateBuffer memoryType S heapCreate bufferCreate =>
    simp only [allocatorCall, Option.map_eq_some'] at h
    obtain ⟨⟨s2, res⟩, hres, rfl⟩ := h
    dsimp only
    rcases memoryType_cases memoryType with rfl | ⟨ptr, rfl⟩
    · rw [allocateBuffer_other] at hres; simp at hres
    · cases res with
      | none =>
        have hf := allocateBuffer_failure_cases state s2 ptr S heapCreate bufferCreate hres
        rcases hf.2.2.2.2.2.2.2.2.2.2 with rfl | ⟨heap, page, hh, hfind, hc, rfl⟩
        · exact ⟨hd, hu, ht⟩
        · have hfc : findOrCreatePage (getPages state ptr) S (pagesDefaultSize ptr) heapCreate
              = some (getPages state ptr ++ [page], (getPages state ptr).length) := by
            simp only [findOrCreatePage, hfind, hh, hc]
          have := findOrCreatePage_sorted _ _ _ _ _ _ (hget ptr) hfc
          cases ptr
          · exact ⟨this, hu, ht⟩
          · exact ⟨hd, this, ht⟩
      | some buffer =>
        obtain ⟨pool, pageIdx, block, hfc, -, -, -, -, hp, hq, htp, -⟩ :=
          allocateBuffer_success state s2 ptr S heapCreate bufferCreate buffer hres
        have hsorted := findOrCreatePage_sorted _ _ _ _ _ _ (hget ptr) hfc
        have hp1 : ((getPages s2 ptr).map (fun p => p.pageSize)).Pairwise (fun a b => a < b) := by
          rw [hp, map_set_of_eq (fun p : Page => p.pageSize) default pool pageIdx _
            (pageAllocateItem_fields _ _ _).2.1]
          exact hsorted
        cases ptr
        · have := hq .uploadPages (by decide)
          simp only [getPages] at this hp1
          rw [this, htp]; exact ⟨hp1, hu, ht⟩
        · have := hq .devicePages (by decide)
          simp only [getPages] at this hp1
          rw [this, htp]; exact ⟨hd, hp1, ht⟩
  | allocateTexture2D S heapCreate textureCreate =>
    simp only [allocatorCall, Option.some.injEq] at h
    cases hres : (allocateTexture2D state S heapCreate textureCreate none).2.1 with
    | none =>
      rcases allocateTexture2D_failure_cases _ _ _ _ _ hres with heq |
        ⟨heap, page, hh, hfind, hc, heq⟩
      · rw [heq] at h
        subst h
        exact ⟨hd, hu, ht⟩
      · rw [heq] at h
        subst h
        have hfc : findOrCreatePage state.texturePages S PAGE_SIZE_TEXTURE heapCreate
            = some (state.texturePages ++ [page], state.texturePages.length) := by
          simp only [findOrCreatePage, hfind, hh, hc]
        exact ⟨hd, hu, findOrCreatePage_sorted _ _ _ _ _ _ ht hfc⟩
    | some texture =>
      obtain ⟨pool, pageIdx, block, hfc, -, -, heq⟩ := allocateTexture2D_success _ _ _ _ _ _ hres
      rw [heq] at h
      subst h
      have hsorted := findOrCreatePage_sorted _ _ _ _ _ _ ht hfc
      refine ⟨hd, hu, ?_⟩
      show ((pool.set pageIdx _).map (fun p => p.pageSize)).Pairwise (fun a b => a < b)
      rw [map_set_of_eq (fun p : Page => p.pageSize) default pool pageIdx _
        (pageAllocateItem_fields _ _ _).2.1]
      exact hsorted
  | deallocateBuffer buffer =>
    simp only [allocatorCall] at h
    rcases deallocateBuffer_cases state s1 buffer h with ⟨-, rfl⟩ |
      ⟨entry, pages, -, hrec, -, -, hp, hq, htp, -⟩
    · exact ⟨hd, hu, ht⟩
    · have hsorted := reclaimSpace_sorted _ _ _ _ (hget entry.pages) hrec
      obtain ⟨block, ptr, heapPtr⟩ := entry
      cases ptr
      · have := hq .uploadPages (by simp)
        simp only [getPages] at this hp hsorted
        rw [this, htp, hp]; exact ⟨hsorted, hu, ht⟩
      · have := hq .devicePages (by simp)
        simp only [getPages] at this hp hsorted
        rw [this, htp, hp]; exact ⟨hd, hsorted, ht⟩
  | deallocateTexture2D texture =>
    simp only [allocatorCall] at h
    rcases deallocateTexture2D_cases state s1 texture h with ⟨-, rfl⟩ |
      ⟨entry, pages, -, hrec, rfl⟩
    · exact ⟨hd, hu, ht⟩
    · exact ⟨hd, hu, reclaimSpace_sorted _ _ _ _ ht hrec⟩

theorem allocatorCalls_sorted : ∀ (calls : List AllocatorCall)
    (state s1 : DynamicGpuAllocatorState),
    (state.devicePages.map (fun p => p.pageSize)).Pairwise (fun a b => a < b) →
    (state.uploadPages.map (fun p => p.pageSize)).Pairwise (fun a b => a < b) →
    (state.texturePages.map (fun p => p.pageSize)).Pairwise (fun a b => a < b) →
    allocatorCalls state calls = some s1 →
    (s1.devicePages.map (fun p => p.pageSize)).Pairwise (fun a b => a < b) ∧
    (s1.uploadPages.map (fun p => p.pageSize)).Pairwise (fun a b => a < b) ∧
    (s1.texturePages.map (fun p => p.pageSize)).Pairwise (fun a b => a < b)
  | [], state, s1, hd, hu, ht, h => by
    simp only [allocatorCalls, Option.some.injEq] at h
    subst h; exact ⟨hd, hu, ht⟩
  | c :: cs, state, s1, hd, hu, ht, h => by
    simp only [allocatorCalls, Option.bind_eq_some] at h
    obtain ⟨s2, h2, h3⟩ := h
    obtain ⟨hd2, hu2, ht2⟩ := allocatorCall_sorted state s2 c hd hu ht h2
    exact allocatorCalls_sorted cs s2 s1 hd2 hu2 ht2 h3

/-- Claim C27: in every allocator state reachable from `init` by
allocate/deallocate calls, the `pageSize` values along each of the three pools
are strictly increasing in pool order; consequently a request of size `S` is
routed to the first page of its pool, whatever the free space of that page,
whenever `S` is at most the first page's `pageSize`. -/
theorem pageSizes_strictly_increasing (calls : List AllocatorCall)
    (state : DynamicGpuAllocatorState) (h : allocatorCalls init calls = some state) :
    (state.devicePages.map (fun p => p.pageSize)).Pairwise (fun a b => a < b) ∧
    (state.uploadPages.map (fun p => p.pageSize)).Pairwise (fun a b => a < b) ∧
    (state.texturePages.map (fun p => p.pageSize)).Pairwise (fun a b => a < b) ∧
    (∀ (pool : List Page) (first : Page) (rest : List Page) (S : Nat),
      (pool = state.devicePages ∨ pool = state.uploadPages ∨ pool = state.texturePages) →
      pool = first :: rest → S ≤ first.pageSize → findAppropriatePage pool S = some 0) := by
  obtain ⟨hd, hu, ht⟩ := allocatorCalls_sorted calls init state
    (by simp [init]) (by simp [init]) (by simp [init]) h
  refine ⟨hd, hu, ht, ?_⟩
  intro pool first rest S _ hpool hS
  rw [hpool]
  simp [findAppropriatePage, findFirstIdx, hS]

theorem pageSizes_strictly_increasing_witness :
    (twoDevicePagesState.devicePages.map (fun p => p.pageSize)).Pairwise (fun a b => a < b) ∧
    (twoDevicePagesState.uploadPages.map (fun p => p.pageSize)).Pairwise (fun a b => a < b) ∧
    (twoDevicePagesState.texturePages.map (fun p => p.pageSize)).Pairwise (fun a b => a < b) ∧
    (∀ (pool : List Page) (first : Page) (rest : List Page) (S : Nat),
      (pool = twoDevicePagesState.devicePages ∨ pool = twoDevicePagesState.uploadPages ∨
        pool = twoDevicePagesState.texturePages) →
      pool = first :: rest → S ≤ first.pageSize → findAppropriatePage pool S = some 0) :=
  pageSizes_strictly_increasing twoPageRequests twoDevicePagesState rfl

/-! ## The assertions of `calculateNewBlocks` at the block chosen by first fit -/

/-- Claim C28: on a page whose free blocks all have sizes that are non-zero
multiples of 65536 (and fit `uint32_t`), for every size `S` the block chosen by
the first-fit scan, which compares against the unaligned `S`, meets the
assertions of `calculateNewBlocks` on the aligned size: rounding `S` up to a
multiple of 65536 does not wrap around in 32 bits, the aligned size is a
multiple of 65536 that is `>= S` and `<=` the size of the chosen block, and the
subtraction that computes the remainder size does not underflow. -/
theorem first_fit_meets_assertions (page : Page) (S i : Nat)
    (hsizes : ∀ b ∈ page.freeBlocks,
      b.size ≠ 0 ∧ b.size % 65536 = 0 ∧ b.size < 4294967296)
    (hidx : findFirstIdx (fun block => decide (block.size ≥ S)) page.freeBlocks = some i) :
    roundUp S BUFFER_ALIGNMENT < 4294967296 ∧
    (calculateNewBlocks (page.freeBlocks.getD i default) S BUFFER_ALIGNMENT).1.size
      = roundUp S BUFFER_ALIGNMENT ∧
    S ≤ roundUp S BUFFER_ALIGNMENT ∧
    roundUp S BUFFER_ALIGNMENT ≤ (page.freeBlocks.getD i default).size ∧
    roundUp S BUFFER_ALIGNMENT % 65536 = 0 ∧
    alignedSizeAsserts (page.freeBlocks.getD i default) S BUFFER_ALIGNMENT = true ∧
    (∀ r, (calculateNewBlocks (page.freeBlocks.getD i default) S BUFFER_ALIGNMENT).2 = some r →
      r.size + roundUp S BUFFER_ALIGNMENT = (page.freeBlocks.getD i default).size) := by
  obtain ⟨l1, a, l2, hl, rfl, ha, -⟩ := findFirstIdx_some _ _ _ hidx
  rw [hl, getD_split]
  obtain ⟨-, hamod, ha32⟩ := hsizes a (by rw [hl]; simp)
  have hfit : S ≤ a.size := by simpa using ha
  have hRle : roundUp S BUFFER_ALIGNMENT ≤ a.size :=
    roundUp_least _ _ _ (by decide) hamod hfit
  have hRge := roundUp_ge S BUFFER_ALIGNMENT
  have hRmod : roundUp S BUFFER_ALIGNMENT % 65536 = 0 := roundUp_mod _ _ (by decide)
  have hcalc := calculateNewBlocks_eq a S BUFFER_ALIGNMENT (by omega)
  refine ⟨by omega, by rw [hcalc], hRge, hRle, hRmod, ?_, ?_⟩
  · unfold alignedSizeAsserts
    simp only [hcalc, Bool.and_eq_true, decide_eq_true_eq]
    exact ⟨⟨hRge, hRle⟩, hRmod⟩
  · intro r hr
    rw [hcalc] at hr
    by_cases hR : roundUp S BUFFER_ALIGNMENT = a.size
    · simp [hR] at hr
    · simp only [ne_eq, hR, not_false_eq_true, if_true, Option.some.injEq] at hr
      subst hr
      show wrap32 _ + _ = _
      unfold wrap32; omega

theorem first_fit_meets_assertions_witness :
    roundUp 70000 BUFFER_ALIGNMENT < 4294967296 ∧
    (calculateNewBlocks (freshPage.freeBlocks.getD 0 default) 70000 BUFFER_ALIGNMENT).1.size
      = roundUp 70000 BUFFER_ALIGNMENT ∧
    70000 ≤ roundUp 70000 BUFFER_ALIGNMENT ∧
    roundUp 70000 BUFFER_ALIGNMENT ≤ (freshPage.freeBlocks.getD 0 default).size ∧
    roundUp 70000 BUFFER_ALIGNMENT % 65536 = 0 ∧
    alignedSizeAsserts (freshPage.freeBlocks.getD 0 default) 70000 BUFFER_ALIGNMENT = true ∧
    (∀ r, (calculateNewBlocks (freshPage.freeBlocks.getD 0 default) 70000
        BUFFER_ALIGNMENT).2 = some r →
      r.size + roundUp 70000 BUFFER_ALIGNMENT = (freshPage.freeBlocks.getD 0 default).size) :=
  first_fit_meets_assertions freshPage 70000 0 (by decide) rfl

/-! ## The insertion-location search of `pageDeallocateBlock` -/

theorem mergeOrInsertBlock_insertion (freeBlocks : List Block) (block : Block)
    (hbefore : findFirstIdx
      (fun freeBlock => decide (wrap32 (freeBlock.offset + freeBlock.size) = block.offset))
      freeBlocks = none)
    (hne : freeBlocks ≠ []) :
    mergeOrInsertBlock freeBlocks block =
      (findInsertionLocation freeBlocks block).map
        (fun loc => (dynInsert freeBlocks loc block, loc)) := by
  have hlen : ¬ freeBlocks.length = 0 := fun h => hne (List.length_eq_zero.mp h)
  unfold mergeOrInsertBlock findInsertionLocation
  rw [hbefore]
  simp only [hlen, if_false]
  cases (if block.offset < (freeBlocks.headD default).offset then some 0
    else if block.offset > (freeBlocks.getLastD default).offset then
      some (freeBlocks.length - 1)
    else findInsertLoc block.offset freeBlocks) <;> rfl

theorem findInsertLoc_exists (x : Nat) :
    ∀ (l : List Block), (∀ f ∈ l, f.offset ≠ x) → (l.headD default).offset < x →
      x < (l.getLastD default).offset → ∃ i, findInsertLoc x l = some i
  | [], _, _, h2 => by
    simp only [List.getLastD_nil] at h2
    have : (default : Block).offset = 4294967295 := rfl
    simp only [List.headD_nil] at *
    omega
  | [a], _, h1, h2 => by
    simp only [List.headD_cons, List.getLastD_cons, List.getLastD_nil] at h1 h2
    omega
  | a :: b :: rest, hne, h1, h2 => by
    unfold findInsertLoc
    by_cases hc : a.offset < x ∧ x < b.offset
    · exact ⟨1, by rw [if_pos hc]⟩
    · rw [if_neg hc]
      simp only [List.headD_cons] at h1
      have hb : b.offset ≠ x := hne b (by simp)
      have hbx : b.offset < x := by omega
      have hlast : x < ((b :: rest).getLastD default).offset := by
        simpa [List.getLastD_cons] using h2
      obtain ⟨i, hi⟩ := findInsertLoc_exists x (b :: rest)
        (fun f hf => hne f (by simp [List.mem_cons] at hf ⊢; tauto))
        (by simpa using hbx) hlast
      exact ⟨i + 1, by rw [hi]; rfl⟩

theorem headD_mem_of_ne_nil (l : List Block) (h : l ≠ []) : l.headD default ∈ l := by
  cases l with
  | nil => exact absurd rfl h
  | cons a as => simp

theorem getLastD_mem_of_ne_nil : ∀ (l : List Block), l ≠ [] → l.getLastD default ∈ l
  | [], h => absurd rfl h
  | [a], _ => by simp
  | a :: b :: rest, _ => by
    have := getLastD_mem_of_ne_nil (b :: rest) (by simp)
    simp only [List.getLastD_cons] at this ⊢
    exact List.mem_cons_of_mem _ this

theorem blocksOverlap32_eq (a b : Block) (ha : a.offset + a.size < 4294967296)
    (hb : b.offset + b.size < 4294967296) : blocksOverlap32 a b = blocksOverlap a b := by
  unfold blocksOverlap32 blocksOverlap
  rw [wrap32_of_lt _ ha, wrap32_of_lt _ hb]

/-- Claim C30 as stated, at a counterexample: the free list `[(0, 4294967295)]`
is not empty and sorted, and the block `(0, 0)` (the allocation block of a
request of `2^32 - 1` bytes) overlaps no free block by the test of the debug
check, and no free block ends at its start. Its offset is neither below the
first nor above the last free offset, the list has fewer than two blocks, and
the search assigns no location. The same happens for a block of non-zero size
when a free block ends at `2^32`: with the free list `[(65536, 4294901760)]` and
the block `(65536, 65536)` the 32-bit end of the free block is 0, the test
reports no overlap, and the search assigns no location. -/
theorem findInsertionLocation_unassigned :
    sortedByOffset [⟨0, 4294967295⟩] = true ∧
    blocksOverlap32 ⟨0, 4294967295⟩ ⟨0, 0⟩ = false ∧
    wrap32 ((⟨0, 4294967295⟩ : Block).offset + (⟨0, 4294967295⟩ : Block).size)
      ≠ (⟨0, 0⟩ : Block).offset ∧
    searchesBetweenBlocks [⟨0, 4294967295⟩] ⟨0, 0⟩ = true ∧
    [(⟨0, 4294967295⟩ : Block)].length < 2 ∧
    findInsertionLocation [⟨0, 4294967295⟩] ⟨0, 0⟩ = none ∧
    pageDeallocateBlock ⟨7, [⟨0, 4294967295⟩], 4294967295, 1, 4294967295⟩ ⟨0, 0⟩ = none ∧
    sortedByOffset [⟨65536, 4294901760⟩] = true ∧
    blocksOverlap32 ⟨65536, 4294901760⟩ ⟨65536, 65536⟩ = false ∧
    wrap32 ((⟨65536, 4294901760⟩ : Block).offset + (⟨65536, 4294901760⟩ : Block).size)
      ≠ (⟨65536, 65536⟩ : Block).offset ∧
    findInsertionLocation [⟨65536, 4294901760⟩] ⟨65536, 65536⟩ = none :=
  ⟨rfl, rfl, by decide, rfl, by decide, rfl, rfl, rfl, rfl, by decide, rfl⟩

/-- Claim C30, amended: for every non-empty free list strictly sorted by offset
and every block of non-zero size (as `pageDeallocateBlock` asserts), all of them
ending below `2^32` (no end `offset + size` wraps around, as for blocks within a
page), such that the block overlaps no free block by the test of the debug
check and no free block ends at its start, the insertion-location search
assigns a location (`insertLoc != ~0u`), the location is at most the length of
the list, when the search enters its last branch the list has at least two
blocks, and the merge-or-insert part of `pageDeallocateBlock` never reaches
`insert(~0u, ...)`. -/
theorem findInsertionLocation_assigned (freeBlocks : List Block) (block : Block)
    (hne : freeBlocks ≠ [])
    (_hsorted : sortedByOffset freeBlocks = true)
    (hsize : block.size ≠ 0)
    (hfree : ∀ f ∈ freeBlocks, f.offset + f.size < 4294967296)
    (hblock : block.offset + block.size < 4294967296)
    (hoverlap : ∀ f ∈ freeBlocks, blocksOverlap32 f block = false)
    (hbefore : ∀ f ∈ freeBlocks, wrap32 (f.offset + f.size) ≠ block.offset) :
    ∃ loc, findInsertionLocation freeBlocks block = some loc ∧
      loc ≤ freeBlocks.length ∧
      (searchesBetweenBlocks freeBlocks block = true → freeBlocks.length ≥ 2) ∧
      (mergeOrInsertBlock freeBlocks block).isSome = true := by
  have hoff : ∀ f ∈ freeBlocks, f.offset ≠ block.offset := by
    intro f hf heq
    have h1 := hoverlap f hf
    have h2 := hbefore f hf
    rw [blocksOverlap32_eq f block (hfree f hf) hblock] at h1
    rw [wrap32_of_lt _ (hfree f hf)] at h2
    simp only [blocksOverlap, decide_eq_false_iff_not, not_and, not_lt] at h1
    have := h1 (by omega)
    omega
  have hhead := hoff _ (headD_mem_of_ne_nil freeBlocks hne)
  have hlast := hoff _ (getLastD_mem_of_ne_nil freeBlocks hne)
  have hlen2 : searchesBetweenBlocks freeBlocks block = true → freeBlocks.length ≥ 2 := by
    intro hs
    simp only [searchesBetweenBlocks, Bool.and_eq_true, Bool.not_eq_true',
      decide_eq_false_iff_not, not_lt] at hs
    match freeBlocks, hne with
    | [a], _ =>
      simp only [List.headD_cons, List.getLastD_cons, List.getLastD_nil] at hs hhead
      omega
    | a :: b :: rest, _ => simp
  have hloc : ∃ loc, findInsertionLocation freeBlocks block = some loc ∧
      loc ≤ freeBlocks.length := by
    unfold findInsertionLocation
    by_cases h1 : block.offset < (freeBlocks.headD default).offset
    · exact ⟨0, by rw [if_pos h1], Nat.zero_le _⟩
    · rw [if_neg h1]
      by_cases h2 : block.offset > (freeBlocks.getLastD default).offset
      · exact ⟨_, by rw [if_pos h2], Nat.sub_le _ _⟩
      · rw [if_neg h2]
        obtain ⟨i, hi⟩ := findInsertLoc_exists block.offset freeBlocks hoff (by omega) (by omega)
        have := findInsertLoc_some _ _ _ hi
        exact ⟨i, hi, by omega⟩
  obtain ⟨loc, hfound, hle⟩ := hloc
  refine ⟨loc, hfound, hle, hlen2, ?_⟩
  cases hfind : findFirstIdx
      (fun freeBlock => decide (wrap32 (freeBlock.offset + freeBlock.size) = block.offset))
      freeBlocks with
  | some i =>
    unfold mergeOrInsertBlock
    rw [hfind]
    rfl
  | none =>
    rw [mergeOrInsertBlock_insertion freeBlocks block hfind hne, hfound]
    rfl

theorem findInsertionLocation_assigned_witness :
    ∃ loc, findInsertionLocation [⟨0, 65536⟩, ⟨196608, 65536⟩] ⟨131072, 32768⟩ = some loc ∧
      loc ≤ [(⟨0, 65536⟩ : Block), ⟨196608, 65536⟩].length ∧
      (searchesBetweenBlocks [⟨0, 65536⟩, ⟨196608, 65536⟩] ⟨131072, 32768⟩ = true →
        [(⟨0, 65536⟩ : Block), ⟨196608, 65536⟩].length ≥ 2) ∧
      (mergeOrInsertBlock [⟨0, 65536⟩, ⟨196608, 65536⟩] ⟨131072, 32768⟩).isSome = true :=
  findInsertionLocation_assigned [⟨0, 65536⟩, ⟨196608, 65536⟩] ⟨131072, 32768⟩
    (by decide) rfl (by decide) (by decide) (by decide) (by decide) (by decide)

/-! ## The size returned by `allocateTexture2D` -/

theorem pageAllocateItem_block_size (page : Page) (S : Nat) (f : Page → Block → Bool)
    (block : Block) (h : (pageAllocateItem page S f).2 = some block)
    (h32 : roundUp S BUFFER_ALIGNMENT < 4294967296) :
    block.size = roundUp S BUFFER_ALIGNMENT := by
  rcases pageAllocateItem_cases page S f with hn | ⟨l1, a, l2, -, -, -, -, heq⟩
  · rw [hn] at h; simp at h
  · rw [heq] at h
    simp only [Option.some.injEq] at h
    rw [← h, calculateNewBlocks_eq _ _ _ h32]

/-- Claim C21, evaluated at a failing input: the allocation-info query reports
`2^32 - 1` bytes. The call succeeds on a new page of that size; rounding the
size up to a multiple of 65536 overflows `uint32_t`, against the assertion
`allocSize <= alignedAllocSize` of `calculateNewBlocks`, so the block carved for
the texture has size 0, the entry stores that block, and 0 is written to
`allocSizeOut`: not the reported size rounded up to a multiple of 65536. -/
theorem allocateTexture2D_allocSizeOut_wraps :
    (allocateTexture2D init 4294967295 (some 7) textureOfHeap (some 123)).2.1 = some 9007 ∧
    (allocateTexture2D init 4294967295 (some 7) textureOfHeap (some 123)).2.2 = some 0 ∧
    hashGet (allocateTexture2D init 4294967295 (some 7) textureOfHeap (some 123)).1.textureEntries
      9007 = some ⟨⟨0, 0⟩, 7⟩ ∧
    (allocateTexture2D init 4294967295 (some 7) textureOfHeap (some 123)).1.texturePages.map
      (fun p => p.pageSize) = [4294967295] ∧
    alignedSizeAsserts ⟨0, 4294967295⟩ 4294967295 BUFFER_ALIGNMENT = false ∧
    ¬ (4294967295 ≤ 0) :=
  ⟨rfl, rfl, rfl, rfl, rfl, by decide⟩

/-- The value written to `allocSizeOut`: for every successful
`allocateTexture2D` call with a non-null output parameter, it is the size of
the block `pageAllocateItem` carved for the texture, which is also the size
stored in the texture's allocation entry; when the reported byte size is at
most `2^32 - 65536` (so that its round-up fits `uint32_t`), that size is the
least multiple of 65536 at or above the reported size. -/
theorem allocateTexture2D_allocSizeOut (state : DynamicGpuAllocatorState) (S : Nat)
    (heapCreate : Option Nat) (textureCreate : Page → Block → Option Nat)
    (out texture : Nat)
    (hres : (allocateTexture2D state S heapCreate textureCreate (some out)).2.1
      = some texture) :
    ∃ pool pageIdx block entry,
      findOrCreatePage state.texturePages S PAGE_SIZE_TEXTURE heapCreate
        = some (pool, pageIdx) ∧
      (pageAllocateItem (pool.getD pageIdx default) S
        (fun p b => (textureCreate p b).isSome)).2 = some block ∧
      (allocateTexture2D state S heapCreate textureCreate (some out)).2.2 = some block.size ∧
      hashGet (allocateTexture2D state S heapCreate textureCreate (some out)).1.textureEntries
        texture = some entry ∧
      entry.block = block ∧
      (S ≤ 4294901760 →
        block.size % 65536 = 0 ∧ S ≤ block.size ∧
        (∀ m, m % 65536 = 0 → S ≤ m → block.size ≤ m)) := by
  obtain ⟨pool, pageIdx, block, hfc, hr, -, heq⟩ :=
    allocateTexture2D_success state S heapCreate textureCreate (some out) texture hres
  refine ⟨pool, pageIdx, block, ⟨block, (pool.getD pageIdx default).heap⟩, hfc, hr,
    by rw [heq]; rfl, ?_, rfl, ?_⟩
  · rw [heq]
    exact hashGet_hashPut _ _ _
  · intro hS
    have hR : roundUp S BUFFER_ALIGNMENT ≤ 4294901760 :=
      roundUp_least _ _ _ (by decide) (by decide) hS
    have hsize := pageAllocateItem_block_size _ _ _ block hr (by omega)
    refine ⟨?_, ?_, ?_⟩
    · rw [hsize]; exact roundUp_mod _ _ (by decide)
    · rw [hsize]; exact roundUp_ge _ _
    · intro m hm hle
      rw [hsize]; exact roundUp_least _ _ _ (by decide) hm hle

theorem allocateTexture2D_allocSizeOut_witness :
    ∃ pool pageIdx block entry,
      findOrCreatePage init.texturePages 70000 PAGE_SIZE_TEXTURE (some 7)
        = some (pool, pageIdx) ∧
      (pageAllocateItem (pool.getD pageIdx default) 70000
        (fun p b => (textureOfHeap p b).isSome)).2 = some block ∧
      (allocateTexture2D init 70000 (some 7) textureOfHeap (some 123)).2.2 = some block.size ∧
      hashGet (allocateTexture2D init 70000 (some 7) textureOfHeap (some 123)).1.textureEntries
        9007 = some entry ∧
      entry.block = block ∧
      (70000 ≤ 4294901760 →
        block.size % 65536 = 0 ∧ 70000 ≤ block.size ∧
        (∀ m, m % 65536 = 0 → 70000 ≤ m → block.size ≤ m)) :=
  allocateTexture2D_allocSizeOut init 70000 (some 7) textureOfHeap 123 9007 rfl

/-! ## Pages reclaimed while an allocation is live -/

/-- Claim C29, evaluated at a failing input: a device request of `2^32 - 1`
bytes gets a page of that size and the allocation block `(0, 0)`, because the
rounded size wraps to 0. A second request of 65536 bytes is served from the same
page; when it is deallocated the free list is again one block spanning the
page, so the page is removed although the first buffer is still live. The
deallocation of the first buffer then finds no page with its heap: the scan
fails and `sfz_assert_release(spaceReclaimed)` is reached. -/
theorem deallocate_removes_page_with_live_allocation :
    allocateBuffer init .ZG_MEMORY_TYPE_DEVICE 4294967295 (some 7) bufferOfHeap
      = some (zeroSizeBufferState, some 5007) ∧
    (allocateBuffer zeroSizeBufferState .ZG_MEMORY_TYPE_DEVICE 65536 (some 8) bufferAt).bind
        (fun r => deallocateBuffer r.1 1000)
      = some orphanedBufferState ∧
    hashGet orphanedBufferState.bufferEntries 5007 = some ⟨⟨0, 0⟩, .devicePages, 7⟩ ∧
    orphanedBufferState.devicePages = [] ∧
    deallocateBuffer orphanedBufferState 5007 = none :=
  ⟨rfl, rfl, rfl, rfl, rfl⟩

/-! ## Which operations take the mutex -/

/-- Claim C22, evaluated at a failing input: the queries of the total counters
and of the page counts do not acquire the mutex, unlike the page-info queries
and the allocate and deallocate operations. In the schedule below thread 1 runs
`allocateBuffer` and thread 2 runs `queryTotalNumAllocationsDevice`; the
schedule is possible with the mutex, and the query reads the state while
thread 1 holds the mutex. -/
theorem counter_queries_do_not_lock :
    acquiresMutex .queryTotalNumAllocationsDevice = false ∧
    acquiresMutex .queryTotalNumDeallocationsDevice = false ∧
    acquiresMutex .queryNumPagesDevice = false ∧
    acquiresMutex .queryPageInfoDevice = true ∧
    acquiresMutex .allocateBuffer = true ∧
    threadEvents 1 [(1, .lock), (2, .access), (1, .access), (1, .unlock)]
      = operationEvents .allocateBuffer ∧
    threadEvents 2 [(1, .lock), (2, .access), (1, .access), (1, .unlock)]
      = operationEvents .queryTotalNumAllocationsDevice ∧
    runSchedule none [(1, .lock), (2, .access), (1, .access), (1, .unlock)] = some true :=
  ⟨rfl, rfl, rfl, rfl, rfl, rfl, rfl, rfl⟩

/-- Two operations that both take the mutex never overlap: in every possible
interleaving of their events no access happens while the other thread holds
the mutex. -/
theorem locking_operations_exclude_each_other (op1 op2 : PublicOperation)
    (h1 : acquiresMutex op1 = true) (h2 : acquiresMutex op2 = true) :
    ∀ s ∈ interleavings (operationEvents op1) (operationEvents op2),
      runSchedule none s ≠ some true := by
  simp only [operationEvents, h1, h2, if_true]
  simp [interleavings, runSchedule]

/-! ## The live handles -/

theorem hashRemove_keys {β : Type} (key : Nat) : ∀ (m : List (Nat × β)),
    (hashRemove m key).map Prod.fst = (m.map Prod.fst).filter (fun x => x != key)
  | [] => rfl
  | kv :: rest => by
    have ih := hashRemove_keys key rest
    unfold hashRemove at ih ⊢
    by_cases hk : kv.1 = key
    · simp only [List.filter_cons, hk, bne_self_eq_false, Bool.false_eq_true, if_false,
        List.map_cons]
      exact ih
    · have hk1 : (kv.1 != key) = true := by simpa using hk
      simp only [List.filter_cons, hk1, if_true, List.map_cons, ih]

theorem hashRemove_bufferHandles (key : Nat) : ∀ (m : List (Nat × AllocEntryBuffer)),
    (hashRemove m key).map bufferHandleOf
      = (m.map bufferHandleOf).filter (fun x => x.1 != key)
  | [] => rfl
  | kv :: rest => by
    have ih := hashRemove_bufferHandles key rest
    unfold hashRemove at ih ⊢
    by_cases hk : kv.1 = key
    · simp only [List.filter_cons, hk, bufferHandleOf, bne_self_eq_false, Bool.false_eq_true,
        if_false, List.map_cons]
      exact ih
    · have hk1 : (kv.1 != key) = true := by simpa using hk
      simp only [List.filter_cons, hk1, bufferHandleOf, if_true, List.map_cons]
      rw [ih]

theorem liveHandles_call (state s1 : DynamicGpuAllocatorState) (c : AllocatorCall)
    (hfresh : returnsFreshHandle state c) (h : allocatorCall state c = some s1) :
    s1.bufferEntries.map bufferHandleOf
      = (liveHandlesAfter state c (state.bufferEntries.map bufferHandleOf)
          (state.textureEntries.map Prod.fst)).1 ∧
    s1.textureEntries.map Prod.fst
      = (liveHandlesAfter state c (state.bufferEntries.map bufferHandleOf)
          (state.textureEntries.map Prod.fst)).2 := by
  cases c with
  | allocateBuffer memoryType S heapCreate bufferCreate =>
    simp only [allocatorCall, Option.map_eq_some'] at h
    obtain ⟨⟨s2, res⟩, hres, rfl⟩ := h
    rcases memoryType_cases memoryType with rfl | ⟨ptr, rfl⟩
    · rw [allocateBuffer_other] at hres; simp at hres
    · cases res with
      | none =>
        obtain ⟨hb, ht, -⟩ :=
          allocateBuffer_failure_cases state s2 ptr S heapCreate bufferCreate hres
        simp only [liveHandlesAfter, hres, hb, ht, and_self]
      | some buffer =>
        have hnew := hfresh s2 buffer hres
        obtain ⟨pool, pageIdx, block, -, -, -, hb, ht, -⟩ :=
          allocateBuffer_success state s2 ptr S heapCreate bufferCreate buffer hres
        rw [hashPut_of_fresh _ _ _ hnew] at hb
        simp only [liveHandlesAfter, hres, hb, ht, List.map_cons, and_true]
        rfl
  | allocateTexture2D S heapCreate textureCreate =>
    simp only [allocatorCall, Option.some.injEq] at h
    cases hres : (allocateTexture2D state S heapCreate textureCreate none).2.1 with
    | none =>
      obtain ⟨pages, heq, -⟩ := allocateTexture2D_failure _ _ _ _ _ hres
      rw [heq] at h
      subst h
      simp only [liveHandlesAfter, hres, and_self]
    | some texture =>
      have hnew := hfresh texture hres
      obtain ⟨pool, pageIdx, block, -, -, -, heq⟩ := allocateTexture2D_success _ _ _ _ _ _ hres
      rw [heq] at h
      subst h
      simp only [liveHandlesAfter, hres, hashPut_of_fresh _ _ _ hnew, List.map_cons, and_self]
  | deallocateBuffer buffer =>
    simp only [allocatorCall] at h
    simp only [liveHandlesAfter, ← hashRemove_bufferHandles]
    rcases deallocateBuffer_cases state s1 buffer h with ⟨hget, rfl⟩ |
      ⟨entry, pages, -, -, hb, ht, -⟩
    · rw [hashRemove_of_not_mem _ _ ((hashGet_eq_none_iff _ _).mp hget)]
      exact ⟨rfl, rfl⟩
    · rw [hb, ht]
      exact ⟨rfl, rfl⟩
  | deallocateTexture2D texture =>
    simp only [allocatorCall] at h
    simp only [liveHandlesAfter, ← hashRemove_keys]
    rcases deallocateTexture2D_cases state s1 texture h with ⟨hget, rfl⟩ |
      ⟨entry, pages, -, -, rfl⟩
    · rw [hashRemove_of_not_mem _ _ ((hashGet_eq_none_iff _ _).mp hget)]
      exact ⟨rfl, rfl⟩
    · exact ⟨rfl, rfl⟩

theorem reachableLive_inv (state : DynamicGpuAllocatorState)
    (buffers : List (Nat × ZgMemoryType)) (textures : List Nat)
    (h : ReachableLive state buffers textures) :
    Reachable state ∧
    state.bufferEntries.map bufferHandleOf = buffers ∧
    state.textureEntries.map Prod.fst = textures := by
  induction h with
  | init => exact ⟨Reachable.init, rfl, rfl⟩
  | call state state1 c buffers textures _ hfresh hcall ih =>
    obtain ⟨hr, hb, ht⟩ := ih
    have hkeys := liveHandles_call state state1 c hfresh hcall
    rw [hb, ht] at hkeys
    exact ⟨Reachable.call state state1 c hr hfresh hcall, hkeys.1, hkeys.2⟩

theorem freshHandle_sound (state : DynamicGpuAllocatorState) (c : AllocatorCall)
    (h : freshHandle state c = true) : returnsFreshHandle state c := by
  cases c with
  | allocateBuffer memoryType S heapCreate bufferCreate =>
    intro state1 buffer hres
    simp only [freshHandle, hres, Option.isNone_iff_eq_none] at h
    exact h
  | allocateTexture2D S heapCreate textureCreate =>
    intro texture hres
    simp only [freshHandle, hres, Option.isNone_iff_eq_none] at h
    exact h
  | deallocateBuffer buffer => trivial
  | deallocateTexture2D texture => trivial

theorem reachableLive_trackedCalls : ∀ (calls : List AllocatorCall)
    (state : DynamicGpuAllocatorState) (buffers : List (Nat × ZgMemoryType))
    (textures : List Nat)
    (r : DynamicGpuAllocatorState × List (Nat × ZgMemoryType) × List Nat),
    ReachableLive state buffers textures →
    trackedCalls state buffers textures calls = some r →
    ReachableLive r.1 r.2.1 r.2.2
  | [], state, buffers, textures, r, hreach, h => by
    simp only [trackedCalls, Option.some.injEq] at h
    subst h
    exact hreach
  | c :: cs, state, buffers, textures, r, hreach, h => by
    unfold trackedCalls at h
    by_cases hf : freshHandle state c = true
    · rw [if_pos hf] at h
      cases hcall : allocatorCall state c with
      | none => rw [hcall] at h; simp at h
      | some state1 =>
        rw [hcall] at h
        exact reachableLive_trackedCalls cs state1 _ _ r
          (ReachableLive.call state state1 c buffers textures hreach
            (freshHandle_sound state c hf) hcall) h
    · rw [if_neg hf] at h
      simp at h

/-! ## Counters and live handles -/

/-- Claim C18: in every allocator state reachable from `init` by
allocate/deallocate calls (the external capability returning pointers that
differ from those of the live resources), for each memory class the
total-allocations counter minus the total-deallocations counter, in 32-bit
arithmetic, is the number of live allocation entries of that class. The entries
are those of the live handles: the handles returned by a successful allocation
and not passed to `deallocate` since. Hence once every successfully allocated
handle of a class has been deallocated, the two counters of that class are
equal. -/
theorem counters_match_live_entries (state : DynamicGpuAllocatorState)
    (buffers : List (Nat × ZgMemoryType)) (textures : List Nat)
    (h : ReachableLive state buffers textures) :
    sub32 state.totalNumAllocationsDevice state.totalNumDeallocationsDevice
      = wrap32 (numEntriesOf state.bufferEntries .devicePages) ∧
    sub32 state.totalNumAllocationsUpload state.totalNumDeallocationsUpload
      = wrap32 (numEntriesOf state.bufferEntries .uploadPages) ∧
    sub32 state.totalNumAllocationsTexture state.totalNumDeallocationsTexture
      = wrap32 state.textureEntries.length ∧
    state.bufferEntries.map bufferHandleOf = buffers ∧
    state.textureEntries.map Prod.fst = textures ∧
    ((∀ x ∈ buffers, x.2 ≠ .ZG_MEMORY_TYPE_DEVICE) →
      state.totalNumAllocationsDevice = state.totalNumDeallocationsDevice) ∧
    ((∀ x ∈ buffers, x.2 ≠ .ZG_MEMORY_TYPE_UPLOAD) →
      state.totalNumAllocationsUpload = state.totalNumDeallocationsUpload) ∧
    (textures = [] →
      state.totalNumAllocationsTexture = state.totalNumDeallocationsTexture) := by
  obtain ⟨hreach, hb, ht⟩ := reachableLive_inv state buffers textures h
  have hinv := reachable_counterInv state hreach
  have hd := hinv.buffers .devicePages
  have hu := hinv.buffers .uploadPages
  have htex := hinv.textures
  have rd := hinv.deallocRange .devicePages
  have ru := hinv.deallocRange .uploadPages
  have rt := hinv.deallocRangeTexture
  simp only [totalNumAllocations, totalNumDeallocations] at hd hu rd ru
  have hnone : ∀ q, (∀ x ∈ buffers, x.2 ≠ pagesMemoryType q) →
      numEntriesOf state.bufferEntries q = 0 := by
    intro q hq
    unfold numEntriesOf
    rw [List.length_eq_zero, List.filter_eq_nil_iff]
    intro kv hkv
    have hmem : bufferHandleOf kv ∈ buffers := by
      rw [← hb]; exact List.mem_map_of_mem _ hkv
    have hne := hq _ hmem
    simp only [decide_eq_true_eq]
    intro e
    exact hne (by rw [← e]; rfl)
  refine ⟨?_, ?_, ?_, hb, ht, ?_, ?_, ?_⟩
  · rw [hd]; unfold sub32 wrap32; omega
  · rw [hu]; unfold sub32 wrap32; omega
  · rw [htex]; unfold sub32 wrap32; omega
  · intro h0
    have := hnone .devicePages h0
    rw [hd, this]; unfold wrap32; omega
  · intro h0
    have := hnone .uploadPages h0
    rw [hu, this]; unfold wrap32; omega
  · intro h0
    have hlen : state.textureEntries.length = 0 := by
      rw [← ht] at h0
      rw [List.length_eq_zero]
      exact List.map_eq_nil_iff.mp h0
    rw [htex, hlen]; unfold wrap32; omega

theorem counters_match_live_entries_witness :
    sub32 uploadLiveState.totalNumAllocationsDevice uploadLiveState.totalNumDeallocationsDevice
      = wrap32 (numEntriesOf uploadLiveState.bufferEntries .devicePages) ∧
    sub32 uploadLiveState.totalNumAllocationsUpload uploadLiveState.totalNumDeallocationsUpload
      = wrap32 (numEntriesOf uploadLiveState.bufferEntries .uploadPages) ∧
    sub32 uploadLiveState.totalNumAllocationsTexture
        uploadLiveState.totalNumDeallocationsTexture
      = wrap32 uploadLiveState.textureEntries.length ∧
    uploadLiveState.bufferEntries.map bufferHandleOf = [(5008, .ZG_MEMORY_TYPE_UPLOAD)] ∧
    uploadLiveState.textureEntries.map Prod.fst = [] ∧
    ((∀ x ∈ [((5008 : Nat), ZgMemoryType.ZG_MEMORY_TYPE_UPLOAD)],
        x.2 ≠ .ZG_MEMORY_TYPE_DEVICE) →
      uploadLiveState.totalNumAllocationsDevice
        = uploadLiveState.totalNumDeallocationsDevice) ∧
    ((∀ x ∈ [((5008 : Nat), ZgMemoryType.ZG_MEMORY_TYPE_UPLOAD)],
        x.2 ≠ .ZG_MEMORY_TYPE_UPLOAD) →
      uploadLiveState.totalNumAllocationsUpload
        = uploadLiveState.totalNumDeallocationsUpload) ∧
    (([] : List Nat) = [] →
      uploadLiveState.totalNumAllocationsTexture
        = uploadLiveState.totalNumDeallocationsTexture) :=
  counters_match_live_entries uploadLiveState [(5008, .ZG_MEMORY_TYPE_UPLOAD)] []
    (reachableLive_trackedCalls deviceRoundTripCalls init [] []
      (uploadLiveState, [(5008, .ZG_MEMORY_TYPE_UPLOAD)], []) ReachableLive.init rfl)

/-! ## The allocation count of a page after a page was reclaimed too early -/

/-- Claim C24, evaluated at a failing input: after the calls that leave the
entry of a live buffer without its page (a request of `2^32 - 1` bytes, a
second request, the deallocation of the second buffer), the device pool is
empty and a further request creates a page. Its heap is created at the address
of the heap that was released with the first page, so the entry of the first
buffer holds the same heap pointer. All handles are fresh and no two pages
share a heap, yet the page has `numAllocations == 1` while two live entries
have its heap. When the first buffer is deallocated the count of the page goes
to 0 with one entry left, and the `numAllocations -= 1` of the next
`pageDeallocateBlock` on the page wraps to `2^32 - 1`. -/
theorem numAllocations_differs_from_live_entries :
    allocatorCalls init (reusedHeapCalls.take 3) = some orphanedBufferState ∧
    allPages orphanedBufferState = [] ∧
    hashGet orphanedBufferState.bufferEntries 1000 = none ∧
    allocatorCalls init reusedHeapCalls = some reusedHeapState ∧
    ReachableLive reusedHeapState
      [(1000, .ZG_MEMORY_TYPE_DEVICE), (5007, .ZG_MEMORY_TYPE_DEVICE)] [] ∧
    allPages reusedHeapState = [⟨7, [⟨65536, 67043328⟩], 67108864, 1, 67043328⟩] ∧
    numEntriesOn reusedHeapState 7 = 2 ∧
    (deallocateBuffer reusedHeapState 5007).map allPages
      = some [⟨7, [⟨0, 0⟩, ⟨65536, 67043328⟩], 67108864, 0, 67043328⟩] ∧
    (deallocateBuffer reusedHeapState 5007).map (fun s => hashGet s.bufferEntries 1000)
      = some (some ⟨⟨0, 65536⟩, .devicePages, 7⟩) ∧
    (pageDeallocateBlock ⟨7, [⟨0, 0⟩, ⟨65536, 67043328⟩], 67108864, 0, 67043328⟩
        ⟨0, 65536⟩).map (fun page => page.numAllocations) = some 4294967295 :=
  ⟨rfl, rfl, rfl, rfl,
    reachableLive_trackedCalls reusedHeapCalls init [] []
      (reusedHeapState, [(1000, .ZG_MEMORY_TYPE_DEVICE), (5007, .ZG_MEMORY_TYPE_DEVICE)], [])
      ReachableLive.init rfl,
    rfl, rfl, rfl, rfl, rfl⟩

/-! ## `destroy` after every allocation was deallocated -/

/-- Claim C25, evaluated at a failing input: the calls of the failing input of
C24 are followed by two more device requests, which fill the page, and by the
deallocation of the four live buffers. Every successfully allocated handle has
then been deallocated: no handle is live, both entry maps are empty and the
device counters are equal (5 and 5). The page is still in the pool (its free
list has two blocks) and has `numAllocations == 2^32 - 1`, so the last
assertion of `destroy` on the device pages fails. -/
theorem destroy_fails_after_all_deallocated :
    allocatorCalls init balancedCalls = some unbalancedPageState ∧
    ReachableLive unbalancedPageState [] [] ∧
    unbalancedPageState.bufferEntries = [] ∧
    unbalancedPageState.textureEntries = [] ∧
    unbalancedPageState.totalNumAllocationsDevice
      = unbalancedPageState.totalNumDeallocationsDevice ∧
    unbalancedPageState.totalNumAllocationsUpload
      = unbalancedPageState.totalNumDeallocationsUpload ∧
    unbalancedPageState.totalNumAllocationsTexture
      = unbalancedPageState.totalNumDeallocationsTexture ∧
    unbalancedPageState.devicePages.map (fun page => page.numAllocations) = [4294967295] ∧
    destroyAsserts unbalancedPageState = false :=
  ⟨rfl,
    reachableLive_trackedCalls balancedCalls init [] [] (unbalancedPageState, [], [])
      ReachableLive.init rfl,
    rfl, rfl, rfl, rfl, rfl, rfl, rfl⟩

/-! ## Live blocks of a page do not overlap -/

theorem blocksOverlap_false_iff (a b : Block) :
    blocksOverlap a b = false ↔
      (b.offset + b.size ≤ a.offset ∨ a.offset + a.size ≤ b.offset) := by
  unfold blocksOverlap
  rw [decide_eq_false_iff_not]
  omega

theorem separated_perm (n : Nat) (l l1 : List Block) (hp : l.Perm l1) (h : Separated n l) :
    Separated n l1 :=
  ⟨fun b hb => h.1 b (hp.mem_iff.mpr hb),
   (hp.pairwise_iff (fun {a b} hab => by
      rw [blocksOverlap_false_iff] at hab ⊢; omega)).mp h.2⟩

theorem separated_cons (n : Nat) (a : Block) (rest : List Block) :
    Separated n (a :: rest) ↔
      (0 < a.size ∧ a.offset + a.size ≤ n) ∧ (∀ x ∈ rest, blocksOverlap a x = false) ∧
      Separated n rest := by
  unfold Separated
  simp only [List.mem_cons, forall_eq_or_imp, List.pairwise_cons]
  tauto

theorem separated_split (n : Nat) (a : Block) (rest : List Block) (R : Nat)
    (h : Separated n (a :: rest)) (hR : 0 < R) (hlt : R < a.size) :
    Separated n (⟨a.offset, R⟩ :: ⟨a.offset + R, a.size - R⟩ :: rest) := by
  rw [separated_cons] at h
  obtain ⟨⟨hpos, hin⟩, hap, hrest⟩ := h
  rw [separated_cons, separated_cons]
  refine ⟨⟨hR, by dsimp only; omega⟩, ?_, ⟨by dsimp only; omega, by dsimp only; omega⟩, ?_,
    hrest⟩
  · intro x hx
    rcases List.mem_cons.mp hx with rfl | hx
    · rw [blocksOverlap_false_iff]; dsimp only; omega
    · have := hap x hx
      rw [blocksOverlap_false_iff] at this ⊢
      dsimp only; omega
  · intro x hx
    have := hap x hx
    rw [blocksOverlap_false_iff] at this ⊢
    dsimp only; omega

theorem separated_merge (n : Nat) (a b : Block) (rest : List Block)
    (h : Separated n (a :: b :: rest)) (hadj : a.offset + a.size = b.offset) :
    Separated n (⟨a.offset, a.size + b.size⟩ :: rest) := by
  rw [separated_cons, separated_cons] at h
  obtain ⟨⟨hpa, hia⟩, hapa, ⟨hpb, hib⟩, hapb, hrest⟩ := h
  rw [separated_cons]
  refine ⟨⟨by dsimp only; omega, by dsimp only; omega⟩, ?_, hrest⟩
  intro x hx
  have h1 := hapa x (List.mem_cons_of_mem _ hx)
  have h2 := hapb x hx
  have h3 := (hrest.1 x hx).1
  rw [blocksOverlap_false_iff] at h1 h2 ⊢
  dsimp only; omega

theorem perm_cons_middle {α : Type} (l1 l2 m : List α) (x : α) :
    ((l1 ++ x :: l2) ++ m).Perm (x :: (l1 ++ (l2 ++ m))) := by
  rw [List.append_assoc, List.cons_append]
  exact List.perm_middle

theorem perm_cons_right {α : Type} (l1 l2 m : List α) (x : α) :
    ((l1 ++ l2) ++ (x :: m)).Perm (x :: (l1 ++ (l2 ++ m))) := by
  have := @List.perm_middle α x (l1 ++ l2) m
  rw [List.append_assoc] at this
  rw [List.append_assoc]
  rw [List.append_assoc] at this
  exact this

theorem separated_allocate (s : PageState) (size : Nat) (f : Page → Block → Bool)
    (s1 : PageState) (hinv : PageInv s)
    (hsep : Separated s.page.pageSize (s.page.freeBlocks ++ s.live)) (hpos : 0 < size)
    (h : pageCall s (.allocate size f) = some s1) :
    Separated s1.page.pageSize (s1.page.freeBlocks ++ s1.live) := by
  simp only [pageCall] at h
  rcases pageAllocateItem_cases s.page size f with hn | ⟨l1, a, l2, hl, hsz, -, -, heq⟩
  · rw [hn] at h
    simp only [Option.some.injEq] at h
    subst h; exact hsep
  · rw [heq] at h
    simp only [Option.some.injEq] at h
    subst h
    have hamem : a ∈ s.page.freeBlocks := by rw [hl]; simp
    have haal := hinv.freeAligned a hamem
    have hale := size_le_sumSizes _ _ hamem
    have htot := hinv.total
    have hfits := hinv.fits
    have hRle : roundUp size BUFFER_ALIGNMENT ≤ a.size :=
      roundUp_least _ _ _ (by decide) haal hsz
    have hRge := roundUp_ge size BUFFER_ALIGNMENT
    have ha32 : a.size < 4294967296 := by omega
    rw [hl] at hsep
    have hsep1 : Separated s.page.pageSize (a :: (l1 ++ (l2 ++ s.live))) :=
      separated_perm _ _ _ (perm_cons_middle l1 l2 s.live a) hsep
    have hain := ((separated_cons _ _ _).mp hsep1).1.2
    rw [calculateNewBlocks_eq _ _ _ (by omega)]
    by_cases hR : roundUp size BUFFER_ALIGNMENT = a.size
    · simp only [hR, ne_eq, not_true_eq_false, if_false]
      show Separated s.page.pageSize ((l1 ++ l2) ++ (a :: s.live))
      exact separated_perm _ _ _ (perm_cons_right l1 l2 s.live a).symm hsep1
    · simp only [ne_eq, hR, not_false_eq_true, if_true]
      have hw1 : wrap32 (a.offset + roundUp size BUFFER_ALIGNMENT)
          = a.offset + roundUp size BUFFER_ALIGNMENT := by unfold wrap32; omega
      have hw2 : wrap32 (a.size + 4294967296 - roundUp size BUFFER_ALIGNMENT)
          = a.size - roundUp size BUFFER_ALIGNMENT := by unfold wrap32; omega
      rw [hw1, hw2]
      have hsplit := separated_split _ a _ (roundUp size BUFFER_ALIGNMENT) hsep1
        (by omega) (by omega)
      show Separated s.page.pageSize
        ((l1 ++ ⟨a.offset + roundUp size BUFFER_ALIGNMENT,
            a.size - roundUp size BUFFER_ALIGNMENT⟩ :: l2)
          ++ (⟨a.offset, roundUp size BUFFER_ALIGNMENT⟩ :: s.live))
      refine separated_perm _ _ _ ?_ hsplit
      refine List.Perm.trans ?_ (List.perm_middle).symm
      exact List.Perm.cons _ (perm_cons_middle l1 l2 s.live _).symm

theorem separated_deallocate (s : PageState) (b : Block) (s1 : PageState) (hinv : PageInv s)
    (hsep : Separated s.page.pageSize (s.page.freeBlocks ++ s.live))
    (h : pageCall s (.deallocate b) = some s1) :
    Separated s1.page.pageSize (s1.page.freeBlocks ++ s1.live) := by
  simp only [pageCall] at h
  by_cases hb : b ∈ s.live
  · rw [if_pos hb] at h
    simp only [Option.map_eq_some'] at h
    obtain ⟨page, hpage, rfl⟩ := h
    unfold pageDeallocateBlock at hpage
    cases hm : mergeOrInsertBlock s.page.freeBlocks b with
    | none => rw [hm] at hpage; simp at hpage
    | some r =>
      obtain ⟨inserted, idx⟩ := r
      rw [hm] at hpage
      simp only [Option.some.injEq] at hpage
      subst hpage
      obtain ⟨l1, nb, l2, rfl, rfl, hcase⟩ := mergeOrInsertBlock_cases _ _ _ _ hm
      have hfits := hinv.fits
      have hsep0 : Separated s.page.pageSize (s.page.freeBlocks ++ (b :: s.live.erase b)) :=
        separated_perm _ _ _ (List.Perm.append_left _ (List.perm_cons_erase hb)) hsep
      have hfirst : Separated s.page.pageSize ((l1 ++ nb :: l2) ++ s.live.erase b) := by
        rcases hcase with ⟨a, hl, hadj, rfl⟩ | ⟨hl, rfl⟩
        · rw [hl] at hsep0
          have h2 : Separated s.page.pageSize (a :: b :: (l1 ++ (l2 ++ s.live.erase b))) := by
            refine separated_perm _ _ _ ?_ hsep0
            refine List.Perm.trans (perm_cons_middle l1 l2 _ a) (List.Perm.cons _ ?_)
            have := perm_cons_right l1 l2 (s.live.erase b) b
            rw [List.append_assoc] at this
            exact this
          have h3 := (separated_cons _ _ _).mp h2
          have hain := h3.1.2
          have hbin := ((separated_cons _ _ _).mp h3.2.2).1.2
          have hadj1 : a.offset + a.size = b.offset := by
            rw [← hadj]; unfold wrap32; omega
          have hw : wrap32 (a.size + b.size) = a.size + b.size := by unfold wrap32; omega
          rw [hw]
          exact separated_perm _ _ _ (perm_cons_middle l1 l2 _ _).symm
            (separated_merge _ a b _ h2 hadj1)
        · rw [hl] at hsep0
          exact separated_perm _ _ _
            (List.Perm.trans (perm_cons_right l1 l2 _ nb) (perm_cons_middle l1 l2 _ nb).symm)
            hsep0
      show Separated s.page.pageSize
        (mergeWithNextBlock (l1 ++ nb :: l2) l1.length ++ s.live.erase b)
      rw [mergeWithNextBlock_split]
      cases l2 with
      | nil => exact hfirst
      | cons c l3 =>
        by_cases hadj : wrap32 (nb.offset + nb.size) = c.offset
        · simp only [hadj, if_true]
          have h2 : Separated s.page.pageSize
              (nb :: c :: (l1 ++ (l3 ++ s.live.erase b))) := by
            refine separated_perm _ _ _ ?_ hfirst
            refine List.Perm.trans (perm_cons_middle l1 (c :: l3) _ nb) (List.Perm.cons _ ?_)
            rw [List.cons_append]
            exact List.perm_middle
          have h3 := (separated_cons _ _ _).mp h2
          have hnin := h3.1.2
          have hcin := ((separated_cons _ _ _).mp h3.2.2).1.2
          have hadj1 : nb.offset + nb.size = c.offset := by
            rw [← hadj]; unfold wrap32; omega
          have hw : wrap32 (nb.size + c.size) = nb.size + c.size := by unfold wrap32; omega
          rw [hw]
          exact separated_perm _ _ _ (perm_cons_middle l1 l3 _ _).symm
            (separated_merge _ nb c _ h2 hadj1)
        · simp only [hadj, if_false]
          exact hfirst
  · rw [if_neg hb] at h; simp at h

theorem separated_pageCalls : ∀ (calls : List PageCall) (s s1 : PageState), PageInv s →
    Separated s.page.pageSize (s.page.freeBlocks ++ s.live) →
    (∀ c ∈ calls, requestsPositive c = true) →
    pageCalls s calls = some s1 →
    Separated s1.page.pageSize (s1.page.freeBlocks ++ s1.live)
  | [], s, s1, _, hsep, _, h => by
    simp only [pageCalls, Option.some.injEq] at h
    subst h; exact hsep
  | c :: cs, s, s1, hinv, hsep, hpos, h => by
    simp only [pageCalls, Option.bind_eq_some] at h
    obtain ⟨s2, h2, h3⟩ := h
    have hsep2 : Separated s2.page.pageSize (s2.page.freeBlocks ++ s2.live) := by
      cases c with
      | allocate size f =>
        have := hpos (.allocate size f) (List.mem_cons_self _ _)
        simp only [requestsPositive, decide_eq_true_eq] at this
        exact separated_allocate s size f s2 hinv hsep this h2
      | deallocate b => exact separated_deallocate s b s2 hinv hsep h2
    exact separated_pageCalls cs s2 s1 (pageCall_inv s c s2 hinv h2) hsep2
      (fun c1 hc1 => hpos c1 (List.mem_cons_of_mem _ hc1)) h3

/-- Claim C26: in every page state reached from `createMemoryPage` (page size a
multiple of the alignment) by `pageAllocateItem` calls with sizes > 0 and
`pageDeallocateBlock` calls, the live blocks (returned and not yet
deallocated) have positive size and pairwise do not overlap, each lies within
`[0, pageSize)`, and none overlaps a free block. -/
theorem live_blocks_do_not_overlap (size heap : Nat) (page : Page)
    (calls : List PageCall) (s : PageState) (hsize : validPageSize size)
    (hcreate : createMemoryPage size (some heap) = some page)
    (hpos : ∀ c ∈ calls, requestsPositive c = true)
    (hcalls : pageCalls { page := page, live := [] } calls = some s) :
    s.live.Pairwise (fun a b => blocksOverlap a b = false) ∧
    (∀ b ∈ s.live, 0 < b.size ∧ b.offset + b.size ≤ s.page.pageSize) ∧
    (∀ b ∈ s.live, ∀ f ∈ s.page.freeBlocks, blocksOverlap f b = false) := by
  have hinv := createMemoryPage_inv size heap page hsize hcreate
  have hsep0 : Separated page.pageSize (page.freeBlocks ++ []) := by
    simp only [createMemoryPage, Option.some.injEq] at hcreate
    subst hcreate
    obtain ⟨h0, -, -⟩ := hsize
    exact ⟨fun b hb => by
      simp only [List.append_nil, List.mem_singleton] at hb
      subst hb
      exact ⟨Nat.pos_of_ne_zero h0, by simp⟩, by simp⟩
  have hsep := separated_pageCalls calls _ s hinv hsep0 hpos hcalls
  obtain ⟨hall, hpair⟩ := hsep
  rw [List.pairwise_append] at hpair
  exact ⟨hpair.2.1, fun b hb => hall b (List.mem_append_right _ hb),
    fun b hb f hf => hpair.2.2 f hf b hb⟩

theorem live_blocks_do_not_overlap_witness :
    [(⟨131072, 65536⟩ : Block), ⟨65536, 65536⟩].Pairwise
      (fun a b => blocksOverlap a b = false) ∧
    (∀ b ∈ [(⟨131072, 65536⟩ : Block), ⟨65536, 65536⟩],
      0 < b.size ∧ b.offset + b.size ≤ 196608) ∧
    (∀ b ∈ [(⟨131072, 65536⟩ : Block), ⟨65536, 65536⟩],
      ∀ f ∈ [(⟨0, 65536⟩ : Block)], blocksOverlap f b = false) :=
  live_blocks_do_not_overlap 196608 7 ⟨7, [⟨0, 196608⟩], 196608, 0, 196608⟩
    [.allocate 65536 okItem, .allocate 1 okItem, .allocate 65536 okItem,
      .deallocate ⟨0, 65536⟩]
    ⟨⟨7, [⟨0, 65536⟩], 196608, 2, 65536⟩, [⟨131072, 65536⟩, ⟨65536, 65536⟩]⟩
    (by decide) rfl
    (fun c hc => by
      simp only [List.mem_cons, List.mem_singleton, List.not_mem_nil, or_false] at hc
      rcases hc with rfl | rfl | rfl | rfl <;> rfl)
    rfl

end ph
